import Mathlib

/-!
# Verification of the CrewAI-Agent-Generator configuration pipeline

A shallow embedding, in Lean 4, of the pure computational core of the
CrewAI-Agent-Generator repository:

* `src/utils/llm_generator.py`   — `validate_crew_config` (the Validator),
* `src/framework/crewai_generator.py`   — `create_crewai_code`,
* `src/framework/langgraph_generator.py` — `create_langgraph_code`,
* `src/framework/prompt_generator.py`   — `generate_config_from_prompt`
  (the natural-language extractor),
* `src/framework/tool_utils.py`  — the tool catalog and
  `validate_tool_parameters`,
* `src/generators/prompt_builder.py` — `merge_configurations`.

Python's dynamically-typed values are modelled by the inductive type
`PyVal` (`None`, `bool`, `int`, `str`, `list`, `dict`); operations that can
raise in Python return `Except PyErr`.  Strings are modelled as Lean
`String`s of their code points; the character-class tests (`\s`, `\w`,
lowercasing) are modelled on the ASCII range, which covers every literal
appearing in the sources and in the concrete inputs evaluated below.
CPython `float` values are outside the value universe; the `"float"`
branch of parameter validation is still modelled on the remaining value
kinds (on which `isinstance(value, float)` is `False`).
Python `dict`s are modelled as association lists with distinct keys, in
insertion order (the iteration order guaranteed by Python ≥ 3.7); `set`s
are modelled by insertion-ordered duplicate-free lists together with an
explicit iteration-order parameter wherever the generated text depends on
the order in which CPython happens to yield the elements of a set.
-/

set_option maxRecDepth 8000

namespace CrewGen

/-- Python runtime values (the kinds that can reach the functions under
verification): `None`, booleans, integers, strings, lists and
string-keyed dictionaries. -/
inductive PyVal where
  | none : PyVal
  | bool (b : Bool) : PyVal
  | int (n : Int) : PyVal
  | str (s : String) : PyVal
  | list (xs : List PyVal) : PyVal
  | dict (kvs : List (String × PyVal)) : PyVal
deriving Repr

/-- Python exceptions distinguished by the code under verification. -/
inductive PyErr where
  | typeError : PyErr
  | keyError (k : String) : PyErr
  | attributeError : PyErr
  | indexError : PyErr
deriving DecidableEq, Repr

/-- Python truthiness: `bool(v)`. -/
def PyVal.truthy : PyVal → Bool
  | .none => false
  | .bool b => b
  | .int n => n ≠ 0
  | .str s => s ≠ ""
  | .list xs => !xs.isEmpty
  | .dict kvs => !kvs.isEmpty

/-- Numeric view used by Python `==` (`True == 1`, `False == 0`). -/
def PyVal.toNum? : PyVal → Option Int
  | .bool b => some (if b then 1 else 0)
  | .int n => some n
  | _ => Option.none

/-- First value stored under a key in an association list (Python dicts
have distinct keys, so the first binding is the binding). -/
def lookupStr : List (String × PyVal) → String → Option PyVal
  | [], _ => Option.none
  | (k, v) :: rest, key => if k = key then some v else lookupStr rest key

/-- Remove the (first) binding of a key. -/
def removeKey : List (String × PyVal) → String → List (String × PyVal)
  | [], _ => []
  | (k, v) :: rest, key => if k = key then rest else (k, v) :: removeKey rest key

mutual

/-- Python `==` on the modelled values: numeric equality across
`bool`/`int`, structural equality of strings, pointwise equality of
lists, and key-wise equality of dicts. -/
def pyEq : PyVal → PyVal → Bool
  | .none, .none => true
  | .str a, .str b => a = b
  | .list xs, .list ys => pyEqList xs ys
  | .dict kvs, .dict b => pyEqDict kvs b
  | a, b =>
      match a.toNum?, b.toNum? with
      | some x, some y => x = y
      | _, _ => false
termination_by structural a => a

/-- Pointwise Python `==` on lists. -/
def pyEqList : List PyVal → List PyVal → Bool
  | [], ys => ys.isEmpty
  | x :: xs, y :: ys => pyEq x y && pyEqList xs ys
  | _ :: _, [] => false
termination_by structural l => l

/-- Key-wise Python `==` on dicts: every binding of the first dict is
matched and removed from the second, which must be exhausted. -/
def pyEqDict : List (String × PyVal) → List (String × PyVal) → Bool
  | [], b => b.isEmpty
  | (k, v) :: rest, b =>
      match lookupStr b k with
      | some w => pyEq v w && pyEqDict rest (removeKey b k)
      | Option.none => false
termination_by structural l => l

end

/-- `sub in s` for Python strings: contiguous-substring test. -/
def strIn (sub : List Char) : List Char → Bool
  | [] => sub.isEmpty
  | c :: rest => sub.isPrefixOf (c :: rest) || strIn sub rest

/-- Python `len(v)` — defined for strings, lists and dicts. -/
def pyLen : PyVal → Except PyErr Nat
  | .str s => .ok s.length
  | .list xs => .ok xs.length
  | .dict kvs => .ok kvs.length
  | _ => .error .typeError

/-- Python `needle in container`. Lists test membership with `==`;
dicts test key membership (unhashable needles raise `TypeError`);
strings test substring containment (non-string needles raise). -/
def pyContains (container needle : PyVal) : Except PyErr Bool :=
  match container with
  | .list xs => .ok (xs.any fun x => pyEq x needle)
  | .dict kvs =>
      match needle with
      | .str k => .ok (kvs.any fun kv => kv.1 = k)
      | .list _ => .error .typeError
      | .dict _ => .error .typeError
      | _ => .ok false
  | .str s =>
      match needle with
      | .str sub => .ok (strIn sub.data s.data)
      | _ => .error .typeError
  | _ => .error .typeError

/-- Python `container[key]` for a string key. -/
def pyGetItem (container : PyVal) (key : String) : Except PyErr PyVal :=
  match container with
  | .dict kvs =>
      match lookupStr kvs key with
      | some v => .ok v
      | Option.none => .error (.keyError key)
  | _ => .error .typeError

/-- Python `container[key] = v` for a string key (dicts only; the model
returns the updated dict). -/
def pySetItem (container : PyVal) (key : String) (v : PyVal) :
    Except PyErr PyVal :=
  match container with
  | .dict kvs =>
      match lookupStr kvs key with
      | some _ => .ok (.dict (kvs.map fun kv => if kv.1 = key then (key, v) else kv))
      | Option.none => .ok (.dict (kvs ++ [(key, v)]))
  | _ => .error .typeError

/-- Python `d.get(key, default)` (dicts only; anything else has no
`get` attribute). -/
def pyDictGet (container : PyVal) (key : String) (dflt : PyVal) :
    Except PyErr PyVal :=
  match container with
  | .dict kvs =>
      match lookupStr kvs key with
      | some v => .ok v
      | Option.none => .ok dflt
  | _ => .error .attributeError

/-- Python iteration `for x in v`: lists yield their elements, strings
their characters (as one-character strings), dicts their keys. -/
def pyIter : PyVal → Except PyErr (List PyVal)
  | .list xs => .ok xs
  | .str s => .ok (s.data.map fun c => .str (String.mk [c]))
  | .dict kvs => .ok (kvs.map fun kv => .str kv.1)
  | _ => .error .typeError

/-- Python `v[0]`. -/
def pyIndex0 : PyVal → Except PyErr PyVal
  | .list (x :: _) => .ok x
  | .list [] => .error .indexError
  | .str s =>
      match s.data with
      | c :: _ => .ok (.str (String.mk [c]))
      | [] => .error .indexError
  | _ => .error .typeError

mutual

/-- Python `repr(v)` (string escaping inside nested reprs is elided:
the configurations evaluated concretely below contain no quotes). -/
def pyRepr : PyVal → String
  | .none => "None"
  | .bool b => if b then "True" else "False"
  | .int n => toString n
  | .str s => "'" ++ s ++ "'"
  | .list xs => "[" ++ pyReprItems xs ++ "]"
  | .dict kvs => "\x7b" ++ pyReprEntries kvs ++ "\x7d"
termination_by structural v => v

/-- Comma-joined reprs of list elements. -/
def pyReprItems : List PyVal → String
  | [] => ""
  | [x] => pyRepr x
  | x :: y :: rest => pyRepr x ++ ", " ++ pyReprItems (y :: rest)
termination_by structural xs => xs

/-- Comma-joined reprs of dict entries. -/
def pyReprEntries : List (String × PyVal) → String
  | [] => ""
  | [(k, v)] => "'" ++ k ++ "': " ++ pyRepr v
  | (k, v) :: e :: rest =>
      "'" ++ k ++ "': " ++ pyRepr v ++ ", " ++ pyReprEntries (e :: rest)
termination_by structural kvs => kvs

end

/-- Python `str(v)`, as used by f-string interpolation. -/
def pyToStr : PyVal → String
  | .str s => s
  | v => pyRepr v

/-- Python `s.replace(" ", "_")`: the pattern is a single character, so
substring replacement coincides with a character map. Only strings have
a `replace` method. -/
def pyReplaceSpace : PyVal → Except PyErr PyVal
  | .str s => .ok (.str (String.mk (s.data.map fun c => if c = ' ' then '_' else c)))
  | _ => .error .attributeError

/-- The keys of the tool catalog returned by `get_available_tools`
(`src/framework/tool_utils.py`, lines 42–793), in dict insertion order —
the order in which `available_tools.keys()` yields them. -/
def availableToolNames : List String :=
  ["SerperDevTool", "SearXSearchTool", "GoogleSearchTool", "BrowserTool",
   "FileReadTool", "FileWriteTool", "PythonREPLTool", "TavilySearchTool",
   "BrowserbaseLoadTool", "CodeDocsSearchTool", "CodeInterpreterTool",
   "ComposioTool", "CSVSearchTool", "DALL-E Tool", "DirectorySearchTool",
   "DOCXSearchTool", "DirectoryReadTool", "EXASearchTool",
   "FirecrawlSearchTool", "FirecrawlCrawlWebsiteTool",
   "FirecrawlScrapeWebsiteTool", "GithubSearchTool", "TXTSearchTool",
   "JSONSearchTool", "LlamaIndexTool", "MDXSearchTool", "PDFSearchTool",
   "PGSearchTool", "Vision Tool", "RagTool", "ScrapeElementFromWebsiteTool",
   "ScrapeWebsiteTool", "WebsiteSearchTool", "XMLSearchTool",
   "YoutubeChannelSearchTool", "YoutubeVideoSearchTool"]

/-- `tool in available_tools`: key-membership test against the catalog
dict (keys are strings; unhashable needles raise `TypeError`). -/
def availContains (tool : PyVal) : Except PyErr Bool :=
  match tool with
  | .str k => .ok (availableToolNames.any fun n => n = k)
  | .list _ => .error .typeError
  | .dict _ => .error .typeError
  | _ => .ok false

/-! ## `validate_crew_config` (src/utils/llm_generator.py, lines 262–352) -/

/-- The tool-filtering loop of `validate_crew_config` (lines 300–308):
keeps catalog tools, and emits one warning per unknown tool. -/
def validateAgentTools (agentName : String) :
    List PyVal → Except PyErr (List PyVal × List String)
  | [] => .ok ([], [])
  | t :: rest => do
      let b ← availContains t
      let (vs, ws) ← validateAgentTools agentName rest
      if b then
        .ok (t :: vs, ws)
      else
        .ok (vs, ("Bilinmeyen araç '" ++ pyToStr t ++ "' agent '" ++ agentName ++
                  "' için tanımlanmış. Bu araç atlanacak.") :: ws)

/-- One iteration of the per-agent loop of `validate_crew_config`
(lines 279–308): default name, space repair, tool filtering. -/
def processAgent (agent0 : PyVal) : Except PyErr (PyVal × List String) := do
  let hasName ← pyContains agent0 (.str "name")
  let (agent1, w1) ←
    if hasName then pure (agent0, ([] : List String))
    else do
      let a ← pySetItem agent0 "name" (.str "unnamed_agent")
      let nm ← pyGetItem a "name"
      pure (a, ["İsimsiz agent tespit edildi. Otomatik olarak '" ++ pyToStr nm ++
                "' olarak isimlendirildi."])
  let nameV ← pyGetItem agent1 "name"
  let hasSpace ← pyContains nameV (.str " ")
  let (agent2, w2) ←
    if hasSpace then do
      let newName ← pyReplaceSpace nameV
      let a ← pySetItem agent1 "name" newName
      pure (a, ["Agent ismi '" ++ pyToStr nameV ++ "' boşluk içeriyor. '" ++
                pyToStr newName ++ "' olarak düzeltildi."])
    else pure (agent1, ([] : List String))
  let hasTools ← pyContains agent2 (.str "tools")
  let emptyTools ←
    if hasTools then do
      let tv ← pyGetItem agent2 "tools"
      pure (!tv.truthy)
    else pure true
  if emptyTools then do
    let a ← pySetItem agent2 "tools" (.list [])
    let nm ← pyGetItem a "name"
    .ok (a, w1 ++ w2 ++ ["Agent '" ++ pyToStr nm ++ "' için araç tanımlanmamış."])
  else do
    let tv ← pyGetItem agent2 "tools"
    let items ← pyIter tv
    let nm ← pyGetItem agent2 "name"
    let (valid, ws) ← validateAgentTools (pyToStr nm) items
    let a ← pySetItem agent2 "tools" (.list valid)
    .ok (a, w1 ++ w2 ++ ws)

/-- The per-agent loop of `validate_crew_config`. -/
def processAgents : List PyVal → Except PyErr (List PyVal × List String)
  | [] => .ok ([], [])
  | a :: rest => do
      let (a', w) ← processAgent a
      let (rest', ws) ← processAgents rest
      .ok (a' :: rest', w ++ ws)

/-- One iteration of the per-task loop of `validate_crew_config`
(lines 311–350): default name, space repair, agent-reference repair.
`cfg` is the configuration dict as it stands after the agent loop. -/
def processTask (cfg : PyVal) (task0 : PyVal) :
    Except PyErr (PyVal × List String) := do
  let hasName ← pyContains task0 (.str "name")
  let (task1, w1) ←
    if hasName then pure (task0, ([] : List String))
    else do
      let t ← pySetItem task0 "name" (.str "unnamed_task")
      let nm ← pyGetItem t "name"
      pure (t, ["İsimsiz task tespit edildi. Otomatik olarak '" ++ pyToStr nm ++
                "' olarak isimlendirildi."])
  let nameV ← pyGetItem task1 "name"
  let hasSpace ← pyContains nameV (.str " ")
  let (task2, w2) ←
    if hasSpace then do
      let newName ← pyReplaceSpace nameV
      let t ← pySetItem task1 "name" newName
      pure (t, ["Task ismi '" ++ pyToStr nameV ++ "' boşluk içeriyor. '" ++
                pyToStr newName ++ "' olarak düzeltildi."])
    else pure (task1, ([] : List String))
  let hasAgent ← pyContains task2 (.str "agent")
  if hasAgent then do
    let agentsV ← pyDictGet cfg "agents" (.list [])
    let items ← pyIter agentsV
    let names ← items.mapM (fun a => pyGetItem a "name")
    let tv ← pyGetItem task2 "agent"
    let mem ← pyContains (.list names) tv
    if mem then
      .ok (task2, w1 ++ w2)
    else
      match names with
      | n :: _ => do
          let t ← pySetItem task2 "agent" n
          let tn ← pyGetItem t "name"
          let ta ← pyGetItem t "agent"
          .ok (t, w1 ++ w2 ++ ["Task '" ++ pyToStr tn ++
                "' için tanımlanan agent bulunamadı. '" ++ pyToStr ta ++
                "' olarak değiştirildi."])
      | [] => do
          let tn ← pyGetItem task2 "name"
          .ok (task2, w1 ++ w2 ++ ["Task '" ++ pyToStr tn ++
                "' için tanımlanan agent bulunamadı ve yapılandırmada hiç agent yok."])
  else do
    let agentsV ← pyDictGet cfg "agents" .none
    if agentsV.truthy then do
      let agentsList ← pyGetItem cfg "agents"
      let first ← pyIndex0 agentsList
      let nm ← pyGetItem first "name"
      let t ← pySetItem task2 "agent" nm
      let tn ← pyGetItem t "name"
      let ta ← pyGetItem t "agent"
      .ok (t, w1 ++ w2 ++ ["Task '" ++ pyToStr tn ++
            "' için agent belirtilmemiş. İlk agent '" ++ pyToStr ta ++ "' atandı."])
    else do
      let tn ← pyGetItem task2 "name"
      .ok (task2, w1 ++ w2 ++ ["Task '" ++ pyToStr tn ++
            "' için agent belirtilmemiş ve yapılandırmada hiç agent yok."])

/-- The per-task loop of `validate_crew_config`. -/
def processTasks (cfg : PyVal) :
    List PyVal → Except PyErr (List PyVal × List String)
  | [] => .ok ([], [])
  | t :: rest => do
      let (t', w) ← processTask cfg t
      let (rest', ws) ← processTasks cfg rest
      .ok (t' :: rest', w ++ ws)

/-- lines 270–276 of `validate_crew_config`: the minimum-requirement
checks, which install empty `agents`/`tasks` lists (with a warning) when
the key is missing or its value has length zero. -/
def ensureKeys (config : PyVal) : Except PyErr (PyVal × List String) := do
  let hasA ← pyContains config (.str "agents")
  let emptyA ←
    if hasA then do
      let v ← pyGetItem config "agents"
      let n ← pyLen v
      pure (decide (n = 0))
    else pure true
  let (cfg1, wA) ←
    if emptyA then do
      let c ← pySetItem config "agents" (.list [])
      pure (c, ["Yapılandırmada agent bulunamadı."])
    else pure (config, ([] : List String))
  let hasT ← pyContains cfg1 (.str "tasks")
  let emptyT ←
    if hasT then do
      let v ← pyGetItem cfg1 "tasks"
      let n ← pyLen v
      pure (decide (n = 0))
    else pure true
  if emptyT then do
    let c ← pySetItem cfg1 "tasks" (.list [])
    pure (c, wA ++ ["Yapılandırmada task bulunamadı."])
  else pure (cfg1, wA)

/-- `validate_crew_config(config)` (src/utils/llm_generator.py, 262–352):
ensures the `agents`/`tasks` keys, repairs agent names and tools, then
repairs task names and agent references. CPython mutates the agent and
task dicts in place inside the two loops; the model writes the processed
elements back into the configuration (a non-list `agents`/`tasks` value
cannot complete a non-empty loop: its elements are strings, on which the
first subscript or item assignment raises). -/
def validate_crew_config (config : PyVal) : Except PyErr (PyVal × List String) := do
  let (cfg2, wKeys) ← ensureKeys config
  let agentsV ← pyDictGet cfg2 "agents" (.list [])
  let agentItems ← pyIter agentsV
  let (agents', wAgents) ← processAgents agentItems
  let cfg3 ←
    match agentsV with
    | .list _ => pySetItem cfg2 "agents" (.list agents')
    | _ => pure cfg2
  let tasksV ← pyDictGet cfg3 "tasks" (.list [])
  let taskItems ← pyIter tasksV
  let (tasks', wTasks) ← processTasks cfg3 taskItems
  let cfg4 ←
    match tasksV with
    | .list _ => pySetItem cfg3 "tasks" (.list tasks')
    | _ => pure cfg3
  .ok (cfg4, wKeys ++ wAgents ++ wTasks)

/-! ## `create_crewai_code` (src/framework/crewai_generator.py, lines 4–116)

CPython iterates `set` objects in an order determined by the hash seed
and insertion history, not by the configuration alone.  Wherever the
emitted text depends on that order, the embedding takes an explicit
iteration-order parameter `o`; a run of the interpreter corresponds to
one choice of `o` that permutes the insertion-ordered, duplicate-free
element list. -/

/-- A valid set-iteration order: yields a permutation of the elements. -/
def SetOrderOK (o : List String → List String) : Prop :=
  ∀ l, (o l).Perm l

/-- `set.add`: insertion-ordered, duplicate-free by Python `==`
(unhashable values raise `TypeError`). -/
def pySetAdd (s : List PyVal) (x : PyVal) : Except PyErr (List PyVal) :=
  match x with
  | .list _ => .error .typeError
  | .dict _ => .error .typeError
  | _ => .ok (if s.any fun y => pyEq y x then s else s ++ [x])

/-- lines 18–21: add one agent's tools to `used_tools`. -/
def addAgentTools (acc : List PyVal) (agent : PyVal) : Except PyErr (List PyVal) := do
  let hasTools ← pyContains agent (.str "tools")
  if hasTools then do
    let tv ← pyGetItem agent "tools"
    if tv.truthy then do
      let items ← pyIter tv
      items.foldlM pySetAdd acc
    else pure acc
  else pure acc

/-- Lexicographic (code-point) `≤` on character lists — the order
Python's `<` induces on strings. -/
def listCharLe : List Char → List Char → Bool
  | [], _ => true
  | _ :: _, [] => false
  | a :: as, b :: bs => if a = b then listCharLe as bs else decide (a < b)

/-- Python string `≤` (code-point lexicographic). -/
def strLeB (a b : String) : Bool := listCharLe a.data b.data

/-- Insert into a sorted list. -/
def insertStr (x : String) : List String → List String
  | [] => [x]
  | y :: ys => if strLeB x y then x :: y :: ys else y :: insertStr x ys

/-- Sorting by `strLeB` (the elements sorted are pairwise distinct, so
this computes the same list as CPython's `sorted`). -/
def sortStrs : List String → List String
  | [] => []
  | x :: xs => insertStr x (sortStrs xs)

/-- `sorted(used_tools)` followed by `",\n    ".join(...)`: any non-string
element makes the pipeline raise (mixed types fail inside `sorted`,
non-string elements fail inside `str.join`). -/
def pySortedStrs (xs : List PyVal) : Except PyErr (List String) :=
  match xs.mapM (fun x => match x with | .str s => some s | _ => Option.none) with
  | some ss => .ok (sortStrs ss)
  | Option.none => .error .typeError

/-- lines 29–35: environment variables required by the used tools, in
the order the code inserts them into the `env_vars` set. -/
def crewaiEnvVarsInsert (usedTools : List PyVal) : List String :=
  (if usedTools.any fun x => pyEq x (.str "SerperDevTool") then ["SERPER_API_KEY"] else []) ++
  (if usedTools.any fun x => pyEq x (.str "BrowserTool") then ["BROWSERLESS_API_KEY"] else []) ++
  (if usedTools.any fun x => pyEq x (.str "GmailTool") then ["GMAIL_TOKEN_PATH"] else [])

/-- lines 14–48: the import/env-var header of the generated file. -/
def crewaiHeader (o : List String → List String) (usedTools : List PyVal) :
    Except PyErr String := do
  let base := "from crewai import Agent, Task, Crew\n"
  if usedTools.isEmpty then pure (base ++ "\n")
  else do
    let sorted ← pySortedStrs usedTools
    let imports := "from crewai_tools import (\n" ++ "    " ++
      String.intercalate ",\n    " sorted ++ "\n)\n"
    let envVars := crewaiEnvVarsInsert usedTools
    let envBlock :=
      if envVars.isEmpty then ""
      else
        "\nimport os\nfrom dotenv import load_dotenv\n\n" ++
        "# Load environment variables\n" ++ "load_dotenv()\n\n" ++
        String.join ((o envVars).map fun v =>
          "if '" ++ v ++ "' not in os.environ:\n" ++
          "    raise ValueError(\"Please set the " ++ v ++ " environment variable\")\n") ++
        "\n"
    pure (base ++ imports ++ envBlock ++ "\n")

/-- lines 57–71: one tool-instantiation expression.  The explicitly
listed tools other than `DirectoryReadTool` and `FileReadTool` fall into
branches identical to the default `f"{tool}()"`. -/
def toolInstance (tool : PyVal) : String :=
  if pyEq tool (.str "DirectoryReadTool") then pyToStr tool ++ "(directory_path='.')"
  else if pyEq tool (.str "FileReadTool") then pyToStr tool ++ "(file_path='example.txt')"
  else pyToStr tool ++ "()"

/-- lines 51–90: the code block generated for one agent. -/
def crewaiAgentCode (agent : PyVal) : Except PyErr String := do
  let nm ← pyGetItem agent "name"
  let head := "# Agent: " ++ pyToStr nm ++ "\n"
  let hasTools ← pyContains agent (.str "tools")
  let toolsTruthy ←
    if hasTools then do
      let tv ← pyGetItem agent "tools"
      pure tv.truthy
    else pure false
  let toolsBlock ←
    if toolsTruthy then do
      let tv ← pyGetItem agent "tools"
      let items ← pyIter tv
      pure ("tools_" ++ pyToStr nm ++ " = [" ++
        String.intercalate ", " (items.map toolInstance) ++ "]\n")
    else pure ""
  let role ← pyGetItem agent "role"
  let goal ← pyGetItem agent "goal"
  let backstory ← pyGetItem agent "backstory"
  let verbose ← pyGetItem agent "verbose"
  let allowDelegation ← pyGetItem agent "allow_delegation"
  let toolsRef :=
    if toolsTruthy then "    tools=tools_" ++ pyToStr nm ++ "\n" else "    tools=[]\n"
  pure (head ++ toolsBlock ++
    "agent_" ++ pyToStr nm ++ " = Agent(\n" ++
    "    role='" ++ pyToStr role ++ "',\n" ++
    "    goal='" ++ pyToStr goal ++ "',\n" ++
    "    backstory='" ++ pyToStr backstory ++ "',\n" ++
    "    verbose=" ++ pyToStr verbose ++ ",\n" ++
    "    allow_delegation=" ++ pyToStr allowDelegation ++ ",\n" ++
    toolsRef ++ ")\n\n")

/-- lines 93–99: the code block generated for one task. -/
def crewaiTaskCode (task : PyVal) : Except PyErr String := do
  let nm ← pyGetItem task "name"
  let desc ← pyGetItem task "description"
  let ag ← pyGetItem task "agent"
  let eo ← pyGetItem task "expected_output"
  pure ("# Task: " ++ pyToStr nm ++ "\n" ++
    "task_" ++ pyToStr nm ++ " = Task(\n" ++
    "    description='" ++ pyToStr desc ++ "',\n" ++
    "    agent=agent_" ++ pyToStr ag ++ ",\n" ++
    "    expected_output='" ++ pyToStr eo ++ "'\n" ++
    ")\n\n")

/-- `create_crewai_code(config)` (src/framework/crewai_generator.py,
lines 4–116), parametrised by the set-iteration order `o`. -/
def create_crewai_code (o : List String → List String) (cfg : PyVal) :
    Except PyErr String := do
  let agentsV ← pyGetItem cfg "agents"
  let agents ← pyIter agentsV
  let usedTools ← agents.foldlM addAgentTools []
  let header ← crewaiHeader o usedTools
  let agentBlocks ← agents.mapM crewaiAgentCode
  let tasksV ← pyGetItem cfg "tasks"
  let tasks ← pyIter tasksV
  let taskBlocks ← tasks.mapM crewaiTaskCode
  let aNames ← agents.mapM fun a => pyGetItem a "name"
  let tNames ← tasks.mapM fun t => pyGetItem t "name"
  pure (header ++ String.join agentBlocks ++ String.join taskBlocks ++
    "# Crew Configuration\n" ++ "crew = Crew(\n" ++
    "    agents=[" ++
    String.intercalate ", " (aNames.map fun n => "agent_" ++ pyToStr n) ++ "],\n" ++
    "    tasks=[" ++
    String.intercalate ", " (tNames.map fun n => "task_" ++ pyToStr n) ++ "]\n" ++
    ")\n\n" ++ "# Run the crew\n" ++ "result = crew.kickoff()")

/-! ## `create_langgraph_code` (src/framework/langgraph_generator.py, lines 4–121) -/

/-- ASCII lowercase conversion (`str.lower` on the characters the
sources and inputs contain). -/
def pyLowerCh (c : Char) : Char :=
  if 'A' ≤ c ∧ c ≤ 'Z' then Char.ofNat (c.toNat + 32) else c

/-- ASCII uppercase conversion. -/
def pyUpperCh (c : Char) : Char :=
  if 'a' ≤ c ∧ c ≤ 'z' then Char.ofNat (c.toNat - 32) else c

/-- Python `str.capitalize()`: first character upper-cased, the rest
lower-cased. -/
def pyCapitalize (s : String) : String :=
  match s.data with
  | [] => ""
  | c :: rest => String.mk (pyUpperCh c :: rest.map pyLowerCh)

/-- line 29: `any(agent["tools"] for agent in config["agents"])` —
lazy, stops at the first truthy tools value. -/
def lgAnyTools : List PyVal → Except PyErr Bool
  | [] => .ok false
  | a :: rest => do
      let tv ← pyGetItem a "tools"
      if tv.truthy then .ok true else lgAnyTools rest

/-- lines 32–33: `tools.update(agent["tools"])` over all agents. -/
def lgCollectTools (acc : List PyVal) (agent : PyVal) : Except PyErr (List PyVal) := do
  let tv ← pyGetItem agent "tools"
  let items ← pyIter tv
  items.foldlM pySetAdd acc

/-- lines 36–48: the `BaseTool` subclass emitted for one tool name
(`{{query}}` in the source f-string renders as a literal brace pair). -/
def lgToolClassDef (tool : String) : String :=
  "class " ++ pyCapitalize tool ++ "Tool(BaseTool):\n" ++
  "    name = \"" ++ tool ++ "\"\n" ++
  "    description = \"Tool for " ++ tool ++ " operations\"\n" ++
  "    \n" ++
  "    def _run(self, query: str) -> str:\n" ++
  "        # Implement actual functionality here\n" ++
  "        return f\"Result from " ++ tool ++ " tool: \x7bquery\x7d\"\n" ++
  "    \n" ++
  "    async def _arun(self, query: str) -> str:\n" ++
  "        # Implement actual functionality here\n" ++
  "        return f\"Result from " ++ tool ++ " tool: \x7bquery\x7d\"\n" ++
  "\n"

/-- lines 56–69: the node function emitted for one agent. -/
def lgAgentCode (agent : PyVal) : Except PyErr String := do
  let nm ← pyGetItem agent "name"
  let role ← pyGetItem agent "role"
  let llm ← pyGetItem agent "llm"
  pure ("# Agent: " ++ pyToStr nm ++ "\n" ++
    "def " ++ pyToStr nm ++ "_agent(state: AgentState) -> AgentState:\n" ++
    "    \"\"\"Agent that handles " ++ pyToStr role ++ ".\"\"\"\n" ++
    "    # Create LLM\n" ++
    "    llm = ChatOpenAI(model=\"" ++ pyToStr llm ++ "\")\n" ++
    "    # Get the most recent message\n" ++
    "    messages = state['messages']\n" ++
    "    response = llm.invoke(messages)\n" ++
    "    # Add the response to the messages\n" ++
    "    return \x7b\n" ++
    "        \"messages\": messages + [response],\n" ++
    "        \"next\": state.get(\"next\", \"\")\n" ++
    "    \x7d\n\n")

/-- lines 85–86: one `add_node` line. -/
def lgNodeCode (node : PyVal) : Except PyErr String := do
  let nm ← pyGetItem node "name"
  let ag ← pyGetItem node "agent"
  pure ("workflow.add_node(\"" ++ pyToStr nm ++ "\", " ++ pyToStr ag ++ "_agent)\n")

/-- lines 90–94: one `add_edge` line. -/
def lgEdgeCode (edge : PyVal) : Except PyErr String := do
  let tgt ← pyGetItem edge "target"
  let src ← pyGetItem edge "source"
  if pyEq tgt (.str "END") then
    pure ("workflow.add_edge(\"" ++ pyToStr src ++ "\", END)\n")
  else
    pure ("workflow.add_edge(\"" ++ pyToStr src ++ "\", \"" ++ pyToStr tgt ++ "\")\n")

/-- `create_langgraph_code(config)` (src/framework/langgraph_generator.py,
lines 4–121), parametrised by the set-iteration order `o` used for the
`tools` set. -/
def create_langgraph_code (o : List String → List String) (cfg : PyVal) :
    Except PyErr String := do
  let header :=
    "from langgraph.graph import StateGraph, END\n" ++
    "from langchain_core.messages import HumanMessage, AIMessage\n" ++
    "from langchain_openai import ChatOpenAI\n" ++
    "from langchain_core.tools import BaseTool\n" ++
    "from typing import Dict, List, Tuple, Any, TypedDict, Annotated\n" ++
    "import operator\n\n" ++
    "# Define state\n" ++
    "class AgentState(TypedDict):\n" ++
    "    messages: List[BaseMessage]\n" ++
    "    next: str\n\n"
  let agentsV ← pyGetItem cfg "agents"
  let agents ← pyIter agentsV
  let anyT ← lgAnyTools agents
  let toolsBlock ←
    if anyT then do
      let toolSet ← agents.foldlM lgCollectTools []
      let strs ← toolSet.mapM fun x =>
        match x with
        | .str s => Except.ok s
        | _ => Except.error PyErr.attributeError
      let ordered := o strs
      pure ("# Define tools\n" ++ String.join (ordered.map lgToolClassDef) ++
        "tools = [\n" ++
        String.join (ordered.map fun t => "    " ++ pyCapitalize t ++ "Tool(),\n") ++
        "]\n\n")
    else pure ""
  let agentBlocks ← agents.mapM lgAgentCode
  let router :=
    "# Define routing logic\n" ++
    "def router(state: AgentState) -> str:\n" ++
    "    \"\"\"Route to the next node.\"\"\"\n" ++
    "    return state.get(\"next\", \"END\")\n\n" ++
    "# Define the graph\n" ++ "workflow = StateGraph(AgentState)\n\n" ++
    "# Add nodes to the graph\n"
  let nodesV ← pyGetItem cfg "nodes"
  let nodes ← pyIter nodesV
  let nodeLines ← nodes.mapM lgNodeCode
  let edgesV ← pyGetItem cfg "edges"
  let edges ← pyIter edgesV
  let edgeLines ← edges.mapM lgEdgeCode
  let entry ←
    if nodesV.truthy then do
      let first ← pyIndex0 nodesV
      let nm ← pyGetItem first "name"
      pure ("\n# Set entry point\nworkflow.set_entry_point(\"" ++ pyToStr nm ++ "\")\n")
    else pure ""
  let footer :=
    "\n# Compile the graph\n" ++ "app = workflow.compile()\n\n" ++
    "# Run the graph\n" ++
    "def run_agent(query: str) -> List[BaseMessage]:\n" ++
    "    \"\"\"Run the agent on a query.\"\"\"\n" ++
    "    result = app.invoke(\x7b\n" ++
    "        \"messages\": [HumanMessage(content=query)],\n" ++
    "        \"next\": \"\"\n" ++
    "    \x7d)\n" ++
    "    return result[\"messages\"]\n\n" ++
    "# Example usage\n" ++
    "if __name__ == \"__main__\":\n" ++
    "    result = run_agent(\"Your query here\")\n" ++
    "    for message in result:\n" ++
    "        print(f\"\x7bmessage.type\x7d: \x7bmessage.content\x7d\")\n"
  pure (header ++ toolsBlock ++ String.join agentBlocks ++ router ++
    String.join nodeLines ++ "\n# Add conditional edges\n" ++
    String.join edgeLines ++ entry ++ footer)

/-! ## `generate_config_from_prompt` (src/framework/prompt_generator.py, lines 7–169)

The extractor is driven by five `re` patterns, specialised here to exact
scanning functions over character lists:

* block extraction
  `re.findall(r"KW[:\s]+([^#]+?)(?=\bAgent[:\s]+|\bTask[:\s]+|$)", prompt,
  re.IGNORECASE | re.DOTALL)` for `KW ∈ {Agent, Task}`;
* field extraction `re.search(r"label[:\s]+([^\n]+)", block, re.IGNORECASE)`
  for `label ∈ {name, role, goal, backstory, description, agent}`, plus the
  variants `tool(?:s)?` and `(expected_)?output`.

Character classes (`\s`, `\w`) and case folding are modelled on the
ASCII range. `$` (no `re.MULTILINE`) matches at the end of the string or
before a final newline. Backtracking order is preserved: `[:\s]+` is
greedy (longest first), `([^#]+?)` is lazy (shortest first), `(?:s)?`
and `(expected_)?` try the present alternative first. -/

/-- Python `\s` (ASCII range). -/
def isPySpace (c : Char) : Bool :=
  c = ' ' || c = '\t' || c = '\n' || c = '\r' || c = '\x0b' || c = '\x0c'

/-- The character class `[:\s]`. -/
def isSepCh (c : Char) : Bool := c = ':' || isPySpace c

/-- Python `\w` (ASCII range), for `\b` boundaries. -/
def isWordCh (c : Char) : Bool := c.isAlpha || c.isDigit || c = '_'

/-- Case-insensitive prefix test. -/
def ciPrefix : List Char → List Char → Bool
  | [], _ => true
  | _ :: _, [] => false
  | p :: ps, c :: cs => (pyLowerCh p = pyLowerCh c) && ciPrefix ps cs

/-- `$` at the position whose remaining suffix is `s` (end of input, or
just before a final newline). -/
def dollarHere : List Char → Bool
  | [] => true
  | ['\n'] => true
  | _ => false

/-- `\bKW[:\s]+` viewed as a lookahead at a position with preceding
character `prev` and remaining suffix `s`. -/
def kwHere (kw : List Char) (prev : Option Char) (s : List Char) : Bool :=
  (match prev with
   | Option.none => true
   | some c => !isWordCh c) &&
  ciPrefix kw s &&
  (match s.drop kw.length with
   | c :: _ => isSepCh c
   | [] => false)

/-- The lookahead `(?=\bAgent[:\s]+|\bTask[:\s]+|$)`. -/
def lookaheadHit (prev : Option Char) (s : List Char) : Bool :=
  kwHere ("agent".toList) prev s || kwHere ("task".toList) prev s || dollarHere s

/-- The lazy capture `([^#]+?)` followed by the lookahead: consume one
character at a time (failing on `#`), testing the lookahead after each.
Returns the capture, its last character, and the suffix at the match
end. -/
def lazyCap : List Char → Option (List Char × Char × List Char)
  | [] => Option.none
  | c :: rest =>
      if c = '#' then Option.none
      else if lookaheadHit (some c) rest then some ([c], c, rest)
      else
        match lazyCap rest with
        | some (cap, p, e) => some (c :: cap, p, e)
        | Option.none => Option.none

/-- Greedy `[:\s]+` with backtracking: `run` is the maximal separator
prefix, `restAfter` the text past it; try consuming `j` separator
characters for `j = run.length, …, 1`. -/
def tryConsume (run restAfter : List Char) : Nat → Option (List Char × Char × List Char)
  | 0 => Option.none
  | j + 1 =>
      match lazyCap (run.drop (j + 1) ++ restAfter) with
      | some r => some r
      | Option.none => tryConsume run restAfter j

/-- Attempt the block pattern `KW[:\s]+([^#]+?)(?=…)` at the current
position (the pattern itself has no leading `\b`). -/
def matchBlockAt (kw s : List Char) : Option (List Char × Char × List Char) :=
  if ciPrefix kw s then
    let rest0 := s.drop kw.length
    let run := rest0.takeWhile isSepCh
    let restAfter := rest0.drop run.length
    if run.isEmpty then Option.none
    else tryConsume run restAfter run.length
  else Option.none

/-- `re.findall` for the block pattern: try each start position from
left to right, resuming after the end of each match. The fuel is the
remaining length plus one; every step consumes at least one character. -/
def scanBlocks (kw : List Char) : List Char → Nat → List (List Char)
  | _, 0 => []
  | s, fuel + 1 =>
      match matchBlockAt kw s with
      | some (cap, _, e) => cap :: scanBlocks kw e fuel
      | Option.none =>
          match s with
          | [] => []
          | _ :: rest => scanBlocks kw rest fuel

/-- `[:\s]+([^\n]+)` after a matched label: the separator run is
consumed greedily; if nothing non-separator follows, backtrack into the
run (the capture must start with a non-newline character). -/
def backtrackRun (run : List Char) : Nat → Option (List Char)
  | 0 => Option.none
  | k + 1 =>
      match run.drop (k + 1) with
      | c :: tail =>
          if c = '\n' then backtrackRun run k
          else some (c :: tail.takeWhile (· ≠ '\n'))
      | [] => backtrackRun run k

/-- The separator-plus-capture tail of every field pattern. -/
def capAfterSep (rest0 : List Char) : Option (List Char) :=
  let run := rest0.takeWhile isSepCh
  let rest := rest0.drop run.length
  if run.isEmpty then Option.none
  else
    match rest with
    | _ :: _ => some (rest.takeWhile (· ≠ '\n'))
    | [] => backtrackRun run (run.length - 1)

/-- `label[:\s]+([^\n]+)` at the current position. -/
def labelFindAt (label : List Char) (s : List Char) : Option (List Char) :=
  if ciPrefix label s then capAfterSep (s.drop label.length) else Option.none

/-- `tool(?:s)?[:\s]+([^\n]+)` at the current position: the optional
`s` is tried first. -/
def toolsFindAt (s : List Char) : Option (List Char) :=
  if ciPrefix ("tool".toList) s then
    let after := s.drop 4
    match
      (match after with
       | c :: rest => if pyLowerCh c = 's' then capAfterSep rest else Option.none
       | [] => Option.none) with
    | some cap => some cap
    | Option.none => capAfterSep after
  else Option.none

/-- `(expected_)?output[:\s]+([^\n]+)` at the current position; the
inner capture `([^\n]+)` is group 2 and is always non-empty, so the
`if output_match.group(2)` in the source always takes group 2. -/
def outputFindAt (s : List Char) : Option (List Char) :=
  if ciPrefix ("expected_output".toList) s then capAfterSep (s.drop 15)
  else if ciPrefix ("output".toList) s then capAfterSep (s.drop 6)
  else Option.none

/-- `re.search`: first position, scanning left to right, at which the
positional matcher `f` succeeds. -/
def searchCap (f : List Char → Option (List Char)) : List Char → Option (List Char)
  | [] => Option.none
  | s :: rest =>
      match f (s :: rest) with
      | some r => some r
      | Option.none => searchCap f rest

/-- Python `str.strip()` (ASCII whitespace). -/
def stripChars (l : List Char) : List Char :=
  ((l.dropWhile isPySpace).reverse.dropWhile isPySpace).reverse

/-- `.replace(" ", "_")` on a character list. -/
def replSpace (l : List Char) : List Char :=
  l.map fun c => if c = ' ' then '_' else c

/-- `re.split(r"[,;]", text)`: split at every comma or semicolon,
keeping empty pieces. -/
def splitToks : List Char → List (List Char)
  | [] => [[]]
  | c :: rest =>
      if c = ',' || c = ';' then [] :: splitToks rest
      else
        match splitToks rest with
        | t :: ts => (c :: t) :: ts
        | [] => [[c]]

/-- `str.lower()` (ASCII range). -/
def lowerS (s : String) : String := String.mk (s.data.map pyLowerCh)

/-- Agent record assembled by the extractor (lines 87–95). -/
structure PAgent where
  name : String
  role : String
  goal : String
  backstory : String
  verbose : Bool
  allow_delegation : Bool
  tools : List String
deriving DecidableEq, Repr

/-- Task record assembled by the extractor (lines 160–165). -/
structure PTask where
  name : String
  description : String
  expected_output : String
  agent : String
deriving DecidableEq, Repr

/-- The configuration assembled by the extractor. -/
structure PConfig where
  agents : List PAgent
  tasks : List PTask
deriving DecidableEq, Repr

/-- Tool-token matching (lines 70–77): the first catalog id equal to the
token case-insensitively, or of which the token is a case-insensitive
prefix. -/
def matchToolToken (tok : String) : Option String :=
  availableToolNames.find? fun avail =>
    lowerS avail = lowerS tok || (lowerS tok).data.isPrefixOf (lowerS avail).data

/-- The tool-resolution loop (lines 68–84): resolved catalog ids in
order, plus one warning per unmatched token. -/
def resolveTools (agentName : String) : List String → List String × List String
  | [] => ([], [])
  | t :: rest =>
      let (ts, ws) := resolveTools agentName rest
      match matchToolToken t with
      | some m => (m :: ts, ws)
      | Option.none =>
          (ts, ("Unknown tool '" ++ t ++ "' for agent '" ++ agentName ++
                "'. Ignoring.") :: ws)

/-- One iteration of the agent loop (lines 34–97); `i` is the 0-based
block index. -/
def buildAgent (i : Nat) (block : List Char) : PAgent × List String :=
  let name :=
    match searchCap (labelFindAt ("name".toList)) block with
    | some cap => String.mk (replSpace (stripChars cap))
    | Option.none => "agent_" ++ toString (i + 1)
  let role :=
    match searchCap (labelFindAt ("role".toList)) block with
    | some cap => String.mk (stripChars cap)
    | Option.none => "Default Role"
  let goal :=
    match searchCap (labelFindAt ("goal".toList)) block with
    | some cap => String.mk (stripChars cap)
    | Option.none => "Default Goal"
  let backstory :=
    match searchCap (labelFindAt ("backstory".toList)) block with
    | some cap => String.mk (stripChars cap)
    | Option.none => ""
  let (tools, ws) :=
    match searchCap toolsFindAt block with
    | some cap =>
        let toks := (splitToks (stripChars cap)).map fun t => String.mk (stripChars t)
        resolveTools name toks
    | Option.none => ([], [])
  ({ name := name, role := role, goal := goal, backstory := backstory,
     verbose := true, allow_delegation := false, tools := tools }, ws)

/-- The agent loop. -/
def buildAgents (i : Nat) : List (List Char) → List PAgent × List String
  | [] => ([], [])
  | b :: rest =>
      let (a, w) := buildAgent i b
      let (as, ws) := buildAgents (i + 1) rest
      (a :: as, w ++ ws)

/-- One iteration of the task loop (lines 112–167): the assembled task,
or `none` (plus the warning) when no agent can be assigned. -/
def buildTask (agents : List PAgent) (i : Nat) (block : List Char) :
    Option PTask × List String :=
  let name :=
    match searchCap (labelFindAt ("name".toList)) block with
    | some cap => String.mk (replSpace (stripChars cap))
    | Option.none => "task_" ++ toString (i + 1)
  let description :=
    match searchCap (labelFindAt ("description".toList)) block with
    | some cap => String.mk (stripChars cap)
    | Option.none => "Default task description"
  let expected_output :=
    match searchCap outputFindAt block with
    | some cap => String.mk (stripChars cap)
    | Option.none => "Task completion report"
  let dflt :=
    match agents with
    | a :: _ => some a.name
    | [] => Option.none
  let assigned :=
    match searchCap (labelFindAt ("agent".toList)) block with
    | some cap =>
        let tok := String.mk (stripChars cap)
        match agents.find? (fun a => lowerS a.name = lowerS tok ||
                                     lowerS a.role = lowerS tok) with
        | some a => some a.name
        | Option.none => dflt
    | Option.none => dflt
  match assigned with
  | some ag =>
      (some { name := name, description := description,
              expected_output := expected_output, agent := ag }, [])
  | Option.none =>
      (Option.none,
       ["Could not assign task '" ++ name ++ "' to an agent. No agents available."])

/-- The task loop. -/
def buildTasks (agents : List PAgent) (i : Nat) :
    List (List Char) → List PTask × List String
  | [] => ([], [])
  | b :: rest =>
      let (t?, w) := buildTask agents i b
      let (ts, ws) := buildTasks agents (i + 1) rest
      match t? with
      | some t => (t :: ts, w ++ ws)
      | Option.none => (ts, w ++ ws)

/-- `generate_config_from_prompt(prompt)` (src/framework/prompt_generator.py,
lines 7–169). -/
def generate_config_from_prompt (prompt : String) : PConfig × List String :=
  let cs := prompt.data
  let agentBlocks := scanBlocks ("agent".toList) cs (cs.length + 1)
  let w0 :=
    if agentBlocks.isEmpty then ["No agents could be identified in your prompt."]
    else []
  let (agents, wA) := buildAgents 0 agentBlocks
  let taskBlocks := scanBlocks ("task".toList) cs (cs.length + 1)
  let w1 :=
    if taskBlocks.isEmpty && !agents.isEmpty then
      ["No tasks could be identified. At least one task is recommended."]
    else []
  let (tasks, wT) := buildTasks agents 0 taskBlocks
  ({ agents := agents, tasks := tasks }, w0 ++ wA ++ w1 ++ wT)

/-! ## `merge_configurations` (src/generators/prompt_builder.py, lines 55–74)

For agents and tasks independently, each incoming item is placed at the
first position whose current occupant has the same name
(`existing_names.index(...)`), or appended when no name matches. -/

/-- One merge step: replace the first item with a matching name in
place, else append (the source computes `existing_names.index(...)` and
assigns at that index, which replaces the first name-matching item and
leaves everything else where it was — exactly this recursion). -/
def writeFirst {α : Type} (nm : α → String) : List α → α → List α
  | [], x => [x]
  | a :: l, x => if nm a = nm x then x :: l else a :: writeFirst nm l x

/-- The per-list merge loop of `merge_configurations`. -/
def mergeByName {α : Type} (nm : α → String) (target source : List α) : List α :=
  source.foldl (writeFirst nm) target

/-- First item carrying a given name (`existing_names` membership and
`index` viewed together). -/
def findName {α : Type} (nm : α → String) (n : String) (l : List α) : Option α :=
  l.find? fun a => nm a = n

/-- `merge_configurations(target_config, source_config)`: merges the
agent and the task lists by name (the source mutates `target_config`;
the model returns the merged configuration). -/
def merge_configurations (target source : PConfig) : PConfig :=
  { agents := mergeByName PAgent.name target.agents source.agents,
    tasks := mergeByName PTask.name target.tasks source.tasks }

/-! ## `validate_tool_parameters` (src/framework/tool_utils.py, lines 812–861) -/

/-- One parameter declaration in the tool catalog: the declared type
string and the required flag. The `description`/`default` entries of the
source dictionaries are not read by any function under verification and
are elided. -/
structure ParamSpec where
  type : String
  required : Bool
deriving DecidableEq, Repr

/-- Generic first-binding lookup. -/
def lookupKey {β : Type} : List (String × β) → String → Option β
  | [], _ => Option.none
  | (k, v) :: rest, key => if k = key then some v else lookupKey rest key

/-- The tool catalog of `get_available_tools`
(src/framework/tool_utils.py, lines 42–793): every tool, in dict
insertion order, with every parameter's declared type and required flag
in insertion order. -/
def toolCatalog : List (String × List (String × ParamSpec)) :=
  [("SerperDevTool",
    [("api_key", ⟨"str", true⟩), ("search_type", ⟨"str", false⟩),
     ("include_answer", ⟨"bool", false⟩), ("include_images", ⟨"bool", false⟩),
     ("num_results", ⟨"int", false⟩)]),
   ("SearXSearchTool",
    [("searx_host", ⟨"str", true⟩), ("engines", ⟨"list", false⟩),
     ("num_results", ⟨"int", false⟩), ("language", ⟨"str", false⟩)]),
   ("GoogleSearchTool",
    [("api_key", ⟨"str", true⟩), ("cse_id", ⟨"str", true⟩),
     ("num_results", ⟨"int", false⟩)]),
   ("BrowserTool",
    [("headless", ⟨"bool", false⟩), ("browser_type", ⟨"str", false⟩),
     ("proxy", ⟨"str", false⟩)]),
   ("FileReadTool",
    [("file_path", ⟨"str", true⟩), ("encoding", ⟨"str", false⟩)]),
   ("FileWriteTool",
    [("directory_path", ⟨"str", true⟩), ("overwrite", ⟨"bool", false⟩)]),
   ("PythonREPLTool", [("timeout", ⟨"int", false⟩)]),
   ("TavilySearchTool",
    [("api_key", ⟨"str", true⟩), ("search_depth", ⟨"str", false⟩),
     ("max_results", ⟨"int", false⟩), ("include_answer", ⟨"bool", false⟩),
     ("include_images", ⟨"bool", false⟩), ("include_raw_content", ⟨"bool", false⟩)]),
   ("BrowserbaseLoadTool",
    [("url", ⟨"str", true⟩), ("browserbase_key", ⟨"str", true⟩)]),
   ("CodeDocsSearchTool",
    [("docs_path", ⟨"str", true⟩), ("top_k", ⟨"int", false⟩)]),
   ("CodeInterpreterTool",
    [("allow_filesystem_access", ⟨"bool", false⟩),
     ("allow_network_access", ⟨"bool", false⟩)]),
   ("ComposioTool",
    [("api_key", ⟨"str", true⟩), ("tool_name", ⟨"str", true⟩)]),
   ("CSVSearchTool",
    [("csv_file", ⟨"str", true⟩), ("top_k", ⟨"int", false⟩)]),
   ("DALL-E Tool",
    [("api_key", ⟨"str", true⟩), ("model", ⟨"str", false⟩),
     ("size", ⟨"str", false⟩), ("quality", ⟨"str", false⟩)]),
   ("DirectorySearchTool",
    [("directory_path", ⟨"str", true⟩), ("recursive", ⟨"bool", false⟩),
     ("top_k", ⟨"int", false⟩)]),
   ("DOCXSearchTool",
    [("docx_file", ⟨"str", true⟩), ("top_k", ⟨"int", false⟩)]),
   ("DirectoryReadTool",
    [("directory_path", ⟨"str", true⟩), ("recursive", ⟨"bool", false⟩),
     ("file_pattern", ⟨"str", false⟩)]),
   ("EXASearchTool",
    [("api_key", ⟨"str", true⟩), ("num_results", ⟨"int", false⟩),
     ("use_highlights", ⟨"bool", false⟩)]),
   ("FirecrawlSearchTool",
    [("api_key", ⟨"str", true⟩), ("max_results", ⟨"int", false⟩)]),
   ("FirecrawlCrawlWebsiteTool",
    [("api_key", ⟨"str", true⟩), ("url", ⟨"str", true⟩),
     ("max_pages_to_crawl", ⟨"int", false⟩), ("max_depth", ⟨"int", false⟩),
     ("enable_javascript", ⟨"bool", false⟩)]),
   ("FirecrawlScrapeWebsiteTool",
    [("api_key", ⟨"str", true⟩), ("url", ⟨"str", true⟩),
     ("enable_javascript", ⟨"bool", false⟩)]),
   ("GithubSearchTool",
    [("token", ⟨"str", true⟩), ("repo", ⟨"str", true⟩),
     ("branch", ⟨"str", false⟩), ("top_k", ⟨"int", false⟩)]),
   ("TXTSearchTool",
    [("txt_file", ⟨"str", true⟩), ("top_k", ⟨"int", false⟩)]),
   ("JSONSearchTool",
    [("json_file", ⟨"str", true⟩), ("top_k", ⟨"int", false⟩)]),
   ("LlamaIndexTool",
    [("index_path", ⟨"str", true⟩), ("query_engine_kwargs", ⟨"dict", false⟩)]),
   ("MDXSearchTool",
    [("mdx_file", ⟨"str", true⟩), ("top_k", ⟨"int", false⟩)]),
   ("PDFSearchTool",
    [("pdf_file", ⟨"str", true⟩), ("top_k", ⟨"int", false⟩)]),
   ("PGSearchTool",
    [("connection_string", ⟨"str", true⟩), ("table_name", ⟨"str", true⟩),
     ("top_k", ⟨"int", false⟩)]),
   ("Vision Tool",
    [("api_key", ⟨"str", true⟩), ("model", ⟨"str", false⟩)]),
   ("RagTool",
    [("data_source", ⟨"str", true⟩), ("embeddings_model", ⟨"str", false⟩),
     ("top_k", ⟨"int", false⟩)]),
   ("ScrapeElementFromWebsiteTool",
    [("url", ⟨"str", true⟩), ("selector", ⟨"str", true⟩),
     ("headless", ⟨"bool", false⟩), ("wait_for", ⟨"float", false⟩)]),
   ("ScrapeWebsiteTool",
    [("url", ⟨"str", true⟩), ("headless", ⟨"bool", false⟩),
     ("wait_for", ⟨"float", false⟩)]),
   ("WebsiteSearchTool",
    [("url", ⟨"str", true⟩), ("top_k", ⟨"int", false⟩),
     ("enable_javascript", ⟨"bool", false⟩)]),
   ("XMLSearchTool",
    [("xml_file", ⟨"str", true⟩), ("top_k", ⟨"int", false⟩)]),
   ("YoutubeChannelSearchTool",
    [("channel_id", ⟨"str", true⟩), ("api_key", ⟨"str", true⟩),
     ("max_results", ⟨"int", false⟩), ("caption_language", ⟨"str", false⟩)]),
   ("YoutubeVideoSearchTool",
    [("video_id", ⟨"str", true⟩), ("api_key", ⟨"str", true⟩),
     ("caption_language", ⟨"str", false⟩), ("top_k", ⟨"int", false⟩)])]

/-- Tail of a digit run: digits, with each underscore followed by a
digit. -/
def digitsUTail : List Char → Bool
  | [] => true
  | '_' :: c :: rest => c.isDigit && digitsUTail rest
  | '_' :: [] => false
  | c :: rest => c.isDigit && digitsUTail rest

/-- Nonempty digit run with single underscores between digits, as in
Python numeric literals accepted by `int`/`float`. -/
def digitsU : List Char → Bool
  | [] => false
  | c :: rest => c.isDigit && digitsUTail rest

/-- Can Python `int(s)` parse the string `s`? (surrounding whitespace,
optional sign, digit run with underscores). -/
def pyIntStrOk (s : String) : Bool :=
  match stripChars s.data with
  | '+' :: rest => digitsU rest
  | '-' :: rest => digitsU rest
  | t => digitsU t

/-- Does `int(value)` succeed (`True`/`False` and integers convert;
`None`, lists and dicts raise `TypeError`)? -/
def pyIntCoercionOk : PyVal → Bool
  | .int _ => true
  | .bool _ => true
  | .str s => pyIntStrOk s
  | _ => false

/-- Possibly-empty digit run. -/
def optDigitsU (l : List Char) : Bool := l.isEmpty || digitsU l

/-- Mantissa of a float literal: `digits`, `digits.`, `digits.digits`
or `.digits`. -/
def mantissaOk (l : List Char) : Bool :=
  let a := l.takeWhile (· ≠ '.')
  match l.drop a.length with
  | [] => digitsU a
  | '.' :: b =>
      (!b.any (· = '.')) &&
      ((digitsU a && optDigitsU b) || (a.isEmpty && digitsU b))
  | _ => false

/-- Exponent of a float literal (after `e`/`E`): optional sign and a
digit run. -/
def expOk : List Char → Bool
  | '+' :: r => digitsU r
  | '-' :: r => digitsU r
  | r => digitsU r

/-- Decimal form accepted by `float`. -/
def floatDecimalOk (l : List Char) : Bool :=
  let m := l.takeWhile fun c => c ≠ 'e' && c ≠ 'E'
  match l.drop m.length with
  | [] => mantissaOk m
  | _ :: rexp => mantissaOk m && expOk rexp

/-- Can Python `float(s)` parse the string `s`? -/
def pyFloatStrOk (s : String) : Bool :=
  let t := stripChars s.data
  let body :=
    match t with
    | '+' :: r => r
    | '-' :: r => r
    | r => r
  let lb := body.map pyLowerCh
  lb = "inf".toList || lb = "infinity".toList || lb = "nan".toList ||
    floatDecimalOk body

/-- Does `float(value)` succeed? -/
def pyFloatCoercionOk : PyVal → Bool
  | .int _ => true
  | .bool _ => true
  | .str s => pyFloatStrOk s
  | _ => false

/-- `isinstance(value, bool)`. -/
def isPyBool : PyVal → Bool
  | .bool _ => true
  | _ => false

/-- lines 833–836: the missing-required-parameter pass. -/
def requiredErrors (expected : List (String × ParamSpec))
    (params : List (String × PyVal)) : List String :=
  expected.filterMap fun ps =>
    if ps.2.required then
      match lookupKey params ps.1 with
      | some v => if v.truthy then Option.none
                  else some ("Missing required parameter: " ++ ps.1)
      | Option.none => some ("Missing required parameter: " ++ ps.1)
    else Option.none

/-- lines 847–859: the per-parameter type check. `isinstance(value, int)`
is true for booleans (`bool` subclasses `int`); no value of the modelled
universe is a CPython `float`, so `isinstance(value, float)` is false
and the `float(value)` coercion is always attempted in the `"float"`
branch. -/
def typeCheckError (ptype pname : String) (v : PyVal) : Option String :=
  if ptype = "int" then
    match v with
    | .int _ => Option.none
    | .bool _ => Option.none
    | _ => if pyIntCoercionOk v then Option.none
           else some ("Parameter " ++ pname ++ " must be an integer")
  else if ptype = "float" then
    if pyFloatCoercionOk v then Option.none
    else some ("Parameter " ++ pname ++ " must be a float")
  else if ptype = "bool" then
    match v with
    | .bool _ => Option.none
    | _ => some ("Parameter " ++ pname ++ " must be a boolean")
  else Option.none

/-- lines 839–859: the type-validation pass over the supplied
parameters (empty values of optional parameters are skipped). -/
def typeErrors (expected : List (String × ParamSpec))
    (params : List (String × PyVal)) : List String :=
  params.filterMap fun pv =>
    match lookupKey expected pv.1 with
    | some spec =>
        if !pv.2.truthy && !spec.required then Option.none
        else typeCheckError spec.type pv.1 pv.2
    | Option.none => Option.none

/-- `validate_tool_parameters(tool_name, parameters)`
(src/framework/tool_utils.py, lines 812–861). -/
def validate_tool_parameters (toolName : String)
    (params : List (String × PyVal)) : List String :=
  match lookupKey toolCatalog toolName with
  | Option.none => ["Invalid tool name"]
  | some expected => requiredErrors expected params ++ typeErrors expected params

/-! ## Well-typedness and readiness predicates

Sufficient shape conditions on raw configurations, used to state which
inputs the Validator and the flat generator process without raising. -/

/-- A raw agent entry the Validator can process: a dict whose `name`
value (when present) is a string and whose `tools` value (when present)
is a list of strings. -/
def wellTypedAgentB (a : PyVal) : Bool :=
  match a with
  | .dict kvs =>
      (match lookupStr kvs "name" with
       | some (.str _) => true
       | some _ => false
       | Option.none => true) &&
      (match lookupStr kvs "tools" with
       | some (.list ts) => ts.all fun t =>
           match t with
           | .str _ => true
           | _ => false
       | some _ => false
       | Option.none => true)
  | _ => false

/-- A raw task entry the Validator can process: a dict whose `name`
value (when present) is a string; the `agent` value may be anything. -/
def wellTypedTaskB (t : PyVal) : Bool :=
  match t with
  | .dict kvs =>
      match lookupStr kvs "name" with
      | some (.str _) => true
      | some _ => false
      | Option.none => true
  | _ => false

/-- A raw configuration the Validator can process: a dict whose
`agents`/`tasks` values, when present, are lists of well-typed
entries. -/
def wellTypedConfigB (cfg : PyVal) : Bool :=
  match cfg with
  | .dict kvs =>
      (match lookupStr kvs "agents" with
       | some (.list as) => as.all wellTypedAgentB
       | some _ => false
       | Option.none => true) &&
      (match lookupStr kvs "tasks" with
       | some (.list ts) => ts.all wellTypedTaskB
       | some _ => false
       | Option.none => true)
  | _ => false

/-- An agent entry on which the flat generator's unconditional field
accesses succeed: `name`, `role`, `goal`, `backstory`, `verbose` and
`allow_delegation` present, `tools` absent or a list of strings. -/
def createReadyAgentB (a : PyVal) : Bool :=
  match a with
  | .dict kvs =>
      (lookupStr kvs "name").isSome &&
      (lookupStr kvs "role").isSome &&
      (lookupStr kvs "goal").isSome &&
      (lookupStr kvs "backstory").isSome &&
      (lookupStr kvs "verbose").isSome &&
      (lookupStr kvs "allow_delegation").isSome &&
      (match lookupStr kvs "tools" with
       | some (.list ts) => ts.all fun t =>
           match t with
           | .str _ => true
           | _ => false
       | some _ => false
       | Option.none => true)
  | _ => false

/-- A task entry on which the flat generator's field accesses succeed. -/
def createReadyTaskB (t : PyVal) : Bool :=
  match t with
  | .dict kvs =>
      (lookupStr kvs "name").isSome &&
      (lookupStr kvs "description").isSome &&
      (lookupStr kvs "agent").isSome &&
      (lookupStr kvs "expected_output").isSome
  | _ => false

/-- A configuration on which `create_crewai_code` runs to completion. -/
def createReadyB (cfg : PyVal) : Bool :=
  match cfg with
  | .dict kvs =>
      (match lookupStr kvs "agents" with
       | some (.list as) => as.all createReadyAgentB
       | _ => false) &&
      (match lookupStr kvs "tasks" with
       | some (.list ts) => ts.all createReadyTaskB
       | _ => false)
  | _ => false

/-! ## Concrete inputs used in the counterexamples and witnesses -/

/-- The prompt of the specification's worked extractor example. -/
def c3Prompt : String :=
  "Agent: name: a1 role: R goal: G\nTask: name: t1 description: D agent: a1"

/-- A configuration with a task whose agent reference cannot be
repaired (no agents at all). -/
def cfgDanglingTask : PyVal :=
  .dict [("agents", .list []),
         ("tasks", .list [.dict [("name", .str "t"), ("agent", .str "ghost")]])]

/-- A configuration the Validator accepts whose repaired form still
lacks the fields the flat generator accesses. -/
def cfgBareAgent : PyVal :=
  .dict [("agents", .list [.dict [("name", .str "a")]]), ("tasks", .list [])]

/-- A mis-typed configuration: the `agents` entry is an integer. -/
def cfgIntAgents : PyVal := .dict [("agents", .int 5)]

/-- A configuration whose agent name contains a tab character. -/
def cfgTabName : PyVal :=
  .dict [("agents", .list [.dict [("name", .str "a\tb")]]),
         ("tasks", .list [.dict [("name", .str "x")]])]

/-- The agent entry of the repaired form of `cfgTabName`. -/
def tabAgentOut : PyVal :=
  .dict [("name", .str "a\tb"), ("tools", .list [])]

/-- The task entry of the repaired form of `cfgTabName`. -/
def tabTaskOut : PyVal :=
  .dict [("name", .str "x"), ("agent", .str "a\tb")]

/-- The repaired configuration the Validator returns for `cfgTabName`. -/
def cfgTabNameOut : PyVal :=
  .dict [("agents", .list [tabAgentOut]), ("tasks", .list [tabTaskOut])]

/-- A full configuration whose used tools require two environment
variables. -/
def cfgTwoEnvTools : PyVal :=
  .dict [("agents", .list [
    .dict [("name", .str "a1"), ("role", .str "R"), ("goal", .str "G"),
           ("backstory", .str "B"), ("verbose", .bool true),
           ("allow_delegation", .bool false),
           ("tools", .list [.str "SerperDevTool", .str "BrowserTool"])]]),
    ("tasks", .list [])]

/-- A full configuration whose single used tool requires one
environment variable. -/
def cfgOneEnvTool : PyVal :=
  .dict [("agents", .list [
    .dict [("name", .str "a1"), ("role", .str "R"), ("goal", .str "G"),
           ("backstory", .str "B"), ("verbose", .bool true),
           ("allow_delegation", .bool false),
           ("tools", .list [.str "SerperDevTool"])]]),
    ("tasks", .list [])]

/-! # Theorems -/

/-- Claim C3, counterexample: on the spec's worked example the
Natural-Language Extractor does not return exactly one agent named
`a1` — it returns two agents, and the first one's name is
`a1_role:_R_goal:_G` (the `name` capture runs to the end of the line
and spaces are replaced by underscores), not `a1`. -/
theorem extractor_example_two_agents :
    (generate_config_from_prompt c3Prompt).1.agents.length = 2 ∧
    (generate_config_from_prompt c3Prompt).1.agents.map PAgent.name ≠ ["a1"] := by
  constructor
  · rfl
  · decide

/-- Claim C3, amended: on the prompt
`"Agent: name: a1 role: R goal: G\nTask: name: t1 description: D agent: a1"`
the extractor returns two agents — the first with the mangled name
`a1_role:_R_goal:_G`, role `R goal: G`, goal `G`, empty backstory and
no tools (each label capture extends to the end of the line), the
second a spurious default agent `agent_2` produced because the task
line's `agent:` label also matches the `Agent` block pattern — and one
task named `t1_description:_D` with description `D`, the default
expected output, assigned to the first agent; the warning list is
empty. -/
theorem extractor_example_actual_output :
    generate_config_from_prompt c3Prompt =
      ({ agents := [
           { name := "a1_role:_R_goal:_G", role := "R goal: G", goal := "G",
             backstory := "", verbose := true, allow_delegation := false,
             tools := [] },
           { name := "agent_2", role := "Default Role", goal := "Default Goal",
             backstory := "", verbose := true, allow_delegation := false,
             tools := [] }],
         tasks := [
           { name := "t1_description:_D", description := "D",
             expected_output := "Task completion report",
             agent := "a1_role:_R_goal:_G" }] },
       []) := by
  rfl

/-- Claim C9: tool-token matching in the Natural-Language Extractor is
case-insensitive and accepts exact and prefix matches, first catalog
entry winning: `serper`, `SerperDevTool` and `SERPERDEV` all resolve to
`SerperDevTool`; `nonexistenttool` resolves to nothing and the tool
loop emits exactly one warning naming it. -/
theorem tool_matching_examples :
    matchToolToken "serper" = some "SerperDevTool" ∧
    matchToolToken "SerperDevTool" = some "SerperDevTool" ∧
    matchToolToken "SERPERDEV" = some "SerperDevTool" ∧
    matchToolToken "nonexistenttool" = Option.none ∧
    resolveTools "a1" ["nonexistenttool"] =
      ([], ["Unknown tool 'nonexistenttool' for agent 'a1'. Ignoring."]) := by
  refine ⟨rfl, rfl, rfl, ?_, rfl⟩
  decide

/-- Claim C10: an empty candidate tool token (as produced by a trailing
or doubled comma/semicolon in an agent's tools text) is a
case-insensitive prefix of every catalog id, so it silently resolves to
the first catalog tool `SerperDevTool` with no warning; on the tools
text `SerperDevTool,` the token list is `["SerperDevTool", ""]` and the
agent ends up with `SerperDevTool` twice. -/
theorem empty_token_matches_first_tool :
    matchToolToken "" = some "SerperDevTool" ∧
    availableToolNames.all (fun id => (lowerS "").data.isPrefixOf (lowerS id).data) = true ∧
    (splitToks (stripChars ("SerperDevTool,".data))).map (fun t => String.mk (stripChars t)) =
      ["SerperDevTool", ""] ∧
    resolveTools "a" ["SerperDevTool", ""] = (["SerperDevTool", "SerperDevTool"], []) ∧
    (generate_config_from_prompt "Agent: name: trail\ntools: SerperDevTool,\nTask: output: O").1.agents.map
      PAgent.tools = [["SerperDevTool", "SerperDevTool"]] := by
  refine ⟨rfl, ?_, rfl, rfl, rfl⟩
  decide

/-- Claim C1, counterexample: on a configuration with no agents and a
task referring to agent `ghost`, the Validator keeps the task in the
returned task list with its dangling `agent` value (emitting only a
warning); the task is not removed, and `ghost` matches no agent in the
(empty) returned agent list. -/
theorem validate_keeps_dangling_tasks :
    validate_crew_config cfgDanglingTask =
      .ok (.dict [("agents", .list []),
                  ("tasks", .list [.dict [("name", .str "t"), ("agent", .str "ghost")]])],
           ["Yapılandırmada agent bulunamadı.",
            "Task 't' için tanımlanan agent bulunamadı ve yapılandırmada hiç agent yok."]) ∧
    pyContains (.list []) (.str "ghost") = .ok false := by
  exact ⟨rfl, rfl⟩

/-- Claim C4, counterexample: the Validator raises (a `TypeError`, at
`len(config["agents"])`) on the mis-typed configuration
`{"agents": 5}` instead of returning a repaired configuration. -/
theorem validate_raises_on_mistyped :
    validate_crew_config cfgIntAgents = .error .typeError := by
  rfl

/-- Claim C2, counterexample: the Validator accepts
`{"agents": [{"name": "a"}], "tasks": []}`, but its repaired output
(the agent has gained only a `tools` entry) makes `create_crewai_code`
raise a `KeyError` on the agent's missing `role` field, so not every
validated configuration is a well-formed input to the flat generator. -/
theorem validate_output_not_create_ready :
    validate_crew_config cfgBareAgent =
      .ok (.dict [("agents", .list [.dict [("name", .str "a"), ("tools", .list [])]]),
                  ("tasks", .list [])],
           ["Yapılandırmada task bulunamadı.",
            "Agent 'a' için araç tanımlanmamış."]) ∧
    create_crewai_code id
      (.dict [("agents", .list [.dict [("name", .str "a"), ("tools", .list [])]]),
              ("tasks", .list [])]) = .error (.keyError "role") := by
  exact ⟨rfl, rfl⟩

/-- Claim C5, counterexample: the Validator only repairs the space
character. The agent name `a\tb` (and the resulting task `agent`
reference) passes through unchanged even though the tab is a whitespace
character, so validated identifiers can still contain whitespace. -/
theorem validate_keeps_tab_whitespace :
    validate_crew_config cfgTabName =
      .ok (.dict [("agents",
                   .list [.dict [("name", .str "a\tb"), ("tools", .list [])]]),
                  ("tasks",
                   .list [.dict [("name", .str "x"), ("agent", .str "a\tb")]])],
           ["Agent 'a\tb' için araç tanımlanmamış.",
            "Task 'x' için agent belirtilmemiş. İlk agent 'a\tb' atandı."]) ∧
    '\t' ∈ ("a\tb" : String).data ∧ '\t'.isWhitespace = true := by
  exact ⟨rfl, by decide, by decide⟩

/-- Claim C6, counterexample: the emitted text is not a function of the
configuration alone. With the tools `SerperDevTool` and `BrowserTool`
in use, two valid iteration orders of the `env_vars` set (CPython's set
order depends on the hash seed, not on the configuration) produce
different bytes from `create_crewai_code` — the two environment-variable
check blocks are emitted in set order, which is not sorted. -/
theorem generator_output_depends_on_set_order :
    SetOrderOK id ∧ SetOrderOK List.reverse ∧
    create_crewai_code id cfgTwoEnvTools ≠
      create_crewai_code List.reverse cfgTwoEnvTools := by
  refine ⟨fun l => List.Perm.refl l, fun l => List.reverse_perm l, ?_⟩
  intro h
  have h2 : (create_crewai_code id cfgTwoEnvTools).toOption =
      (create_crewai_code List.reverse cfgTwoEnvTools).toOption := by rw [h]
  exact (by decide : ¬ ((create_crewai_code id cfgTwoEnvTools).toOption =
      (create_crewai_code List.reverse cfgTwoEnvTools).toOption)) h2

theorem listCharLe_total : ∀ x y : List Char, listCharLe x y = true ∨ listCharLe y x = true := by
  intro x
  induction x with
  | nil => intro y; exact Or.inl rfl
  | cons a as ih =>
      intro y
      cases y with
      | nil => exact Or.inr rfl
      | cons b bs =>
          by_cases hab : a = b
          · subst hab
            rcases ih bs with h | h
            · exact Or.inl (by simp [listCharLe, h])
            · exact Or.inr (by simp [listCharLe, h])
          · rcases lt_trichotomy a b with hlt | heq | hgt
            · exact Or.inl (by simp [listCharLe, hab, hlt])
            · exact absurd heq hab
            · exact Or.inr (by simp [listCharLe, Ne.symm hab, hgt])

theorem listCharLe_trans : ∀ x y z : List Char,
    listCharLe x y = true → listCharLe y z = true → listCharLe x z = true := by
  intro x
  induction x with
  | nil => intro y z _ _; rfl
  | cons a as ih =>
      intro y z hxy hyz
      cases y with
      | nil => simp [listCharLe] at hxy
      | cons b bs =>
          cases z with
          | nil => simp [listCharLe] at hyz
          | cons c cs =>
              by_cases hab : a = b <;> by_cases hbc : b = c
              · subst hab; subst hbc
                simp only [listCharLe, if_pos rfl] at hxy hyz ⊢
                exact ih bs cs hxy hyz
              · subst hab
                simp only [listCharLe, if_pos rfl] at hxy
                simp only [listCharLe, if_neg hbc] at hyz ⊢
                exact hyz
              · subst hbc
                simp only [listCharLe, if_neg hab] at hxy ⊢
                exact hxy
              · simp only [listCharLe, if_neg hab] at hxy
                simp only [listCharLe, if_neg hbc] at hyz
                have hac : a < c := lt_trans (of_decide_eq_true hxy) (of_decide_eq_true hyz)
                have hane : a ≠ c := ne_of_lt hac
                simp [listCharLe, hane, hac]

theorem strLeB_total (a b : String) : strLeB a b = true ∨ strLeB b a = true :=
  listCharLe_total a.data b.data

theorem strLeB_trans {a b c : String} (h1 : strLeB a b = true) (h2 : strLeB b c = true) :
    strLeB a c = true :=
  listCharLe_trans a.data b.data c.data h1 h2

theorem mem_insertStr {x z : String} : ∀ {l : List String},
    z ∈ insertStr x l → z = x ∨ z ∈ l := by
  intro l
  induction l with
  | nil => intro h; simp [insertStr] at h; exact Or.inl h
  | cons y ys ih =>
      intro h
      rw [insertStr] at h
      by_cases hxy : strLeB x y
      · rw [if_pos hxy] at h
        rcases List.mem_cons.mp h with rfl | h'
        · exact Or.inl rfl
        · exact Or.inr h'
      · rw [if_neg hxy] at h
        rcases List.mem_cons.mp h with rfl | h'
        · exact Or.inr (List.mem_cons_self _ _)
        · rcases ih h' with h'' | h''
          · exact Or.inl h''
          · exact Or.inr (List.mem_cons_of_mem _ h'')

theorem pairwise_insertStr {x : String} : ∀ {l : List String},
    l.Pairwise (fun a b => strLeB a b = true) →
    (insertStr x l).Pairwise (fun a b => strLeB a b = true) := by
  intro l
  induction l with
  | nil => intro _; simp [insertStr]
  | cons y ys ih =>
      intro h
      rw [List.pairwise_cons] at h
      rw [insertStr]
      by_cases hxy : strLeB x y
      · rw [if_pos hxy]
        refine List.pairwise_cons.mpr ⟨?_, List.pairwise_cons.mpr h⟩
        intro z hz
        rcases List.mem_cons.mp hz with rfl | hz'
        · exact hxy
        · exact strLeB_trans hxy (h.1 z hz')
      · rw [if_neg hxy]
        refine List.pairwise_cons.mpr ⟨?_, ih h.2⟩
        intro z hz
        rcases mem_insertStr hz with rfl | hz'
        · rcases strLeB_total z y with h' | h'
          · exact absurd h' hxy
          · exact h'
        · exact h.1 z hz'

theorem sortStrs_sorted : ∀ l : List String,
    (sortStrs l).Pairwise (fun a b => strLeB a b = true) := by
  intro l
  induction l with
  | nil => simp [sortStrs]
  | cons x xs ih => exact pairwise_insertStr ih

/-- Claim C6, amended: given a fixed set-iteration order each generator
is deterministic, and the flat generator's tool import list is sorted;
moreover, when the used tools require at most one environment variable,
the flat generator's output does not depend on the set order at all
(outputs under any two valid orders are byte-identical). -/
theorem crewai_sorted_imports_and_env_invariance
    (o1 o2 : List String → List String) {cfg agentsV : PyVal}
    {agents ut : List PyVal} {ss : List String}
    (ho1 : SetOrderOK o1) (ho2 : SetOrderOK o2)
    (hag : pyGetItem cfg "agents" = .ok agentsV)
    (hit : pyIter agentsV = .ok agents)
    (hut : agents.foldlM addAgentTools [] = .ok ut)
    (hss : pySortedStrs ut = .ok ss)
    (henv : (crewaiEnvVarsInsert ut).length ≤ 1) :
    ss.Pairwise (fun a b => strLeB a b = true) ∧
    create_crewai_code o1 cfg = create_crewai_code o2 cfg := by
  constructor
  · unfold pySortedStrs at hss
    cases hmap : ut.mapM (fun x => match x with | .str s => some s | _ => Option.none) with
    | none => rw [hmap] at hss; exact absurd hss (by simp)
    | some l =>
        rw [hmap] at hss
        simp only at hss
        have hl : sortStrs l = ss := by
          injection hss
        rw [← hl]
        exact sortStrs_sorted l
  · have henvEq : ∀ o : List String → List String, SetOrderOK o →
        o (crewaiEnvVarsInsert ut) = crewaiEnvVarsInsert ut := by
      intro o ho
      have hp := ho (crewaiEnvVarsInsert ut)
      cases hl : crewaiEnvVarsInsert ut with
      | nil => rw [hl] at hp; exact hp.eq_nil
      | cons a t =>
          cases t with
          | nil => rw [hl] at hp; exact List.perm_singleton.mp hp
          | cons b t2 => rw [hl] at henv; simp at henv
    have hh : crewaiHeader o1 ut = crewaiHeader o2 ut := by
      unfold crewaiHeader
      by_cases hemp : ut.isEmpty
      · simp [hemp]
      · simp only [hemp, Bool.false_eq_true, if_false, hss, bind, Except.bind]
        rw [henvEq o1 ho1, henvEq o2 ho2]
    simp only [create_crewai_code, hag, hit, hut, hh, bind, Except.bind]

/-- Claim C6, amended — witness: the theorem applied at a configuration
with the single tool `SerperDevTool`, both orders the identity. -/
theorem crewai_sorted_imports_and_env_invariance_witness :
    (["SerperDevTool"].Pairwise (fun a b => strLeB a b = true)) ∧
    create_crewai_code id cfgOneEnvTool = create_crewai_code id cfgOneEnvTool :=
  crewai_sorted_imports_and_env_invariance id id
    (fun l => List.Perm.refl l) (fun l => List.Perm.refl l)
    rfl rfl rfl rfl (by decide)

theorem mem_names_writeFirst {α : Type} (nm : α → String) {l : List α} {s : String}
    (h : s ∈ l.map nm) (y : α) : s ∈ (writeFirst nm l y).map nm := by
  induction l with
  | nil => simp at h
  | cons a l ih =>
      rw [writeFirst]
      by_cases hay : nm a = nm y
      · simp only [if_pos hay, List.map_cons, List.mem_cons]
        simp only [List.map_cons, List.mem_cons] at h
        rcases h with h | h
        · exact Or.inl (h.trans hay)
        · exact Or.inr h
      · simp only [if_neg hay, List.map_cons, List.mem_cons]
        simp only [List.map_cons, List.mem_cons] at h
        rcases h with h | h
        · exact Or.inl h
        · exact Or.inr (ih h)

theorem mem_names_writeFirst_self {α : Type} (nm : α → String) (l : List α) (x : α) :
    nm x ∈ (writeFirst nm l x).map nm := by
  induction l with
  | nil => simp [writeFirst]
  | cons a l ih =>
      rw [writeFirst]
      by_cases hax : nm a = nm x
      · simp [if_pos hax]
      · simp only [if_neg hax, List.map_cons, List.mem_cons]
        exact Or.inr ih

theorem mem_names_mergeFold {α : Type} (nm : α → String) {s : String} :
    ∀ (B : List α) (acc : List α), s ∈ acc.map nm →
      s ∈ (List.foldl (writeFirst nm) acc B).map nm := by
  intro B
  induction B with
  | nil => intro acc h; exact h
  | cons y B ih =>
      intro acc h
      exact ih (writeFirst nm acc y) (mem_names_writeFirst nm h y)

theorem findName_writeFirst_self {α : Type} (nm : α → String) (l : List α) (b : α) :
    findName nm (nm b) (writeFirst nm l b) = some b := by
  induction l with
  | nil => simp [writeFirst, findName]
  | cons a l ih =>
      rw [writeFirst]
      by_cases hab : nm a = nm b
      · simp [if_pos hab, findName]
      · rw [if_neg hab]
        simp only [findName] at ih ⊢
        rw [List.find?_cons_of_neg _ (by simp [hab]), ih]

theorem findName_writeFirst_other {α : Type} (nm : α → String) {y : α} {n : String}
    (h : nm y ≠ n) (l : List α) :
    findName nm n (writeFirst nm l y) = findName nm n l := by
  induction l with
  | nil => simp [writeFirst, findName, h]
  | cons a l ih =>
      rw [writeFirst]
      by_cases hay : nm a = nm y
      · have han : nm a ≠ n := fun hc => h (hay ▸ hc)
        simp only [findName] at ih ⊢
        rw [if_pos hay, List.find?_cons_of_neg _ (by simp [h]),
            List.find?_cons_of_neg _ (by simp [han])]
      · rw [if_neg hay]
        simp only [findName] at ih ⊢
        by_cases han : nm a = n
        · rw [List.find?_cons_of_pos _ (by simp [han]),
              List.find?_cons_of_pos _ (by simp [han])]
        · rw [List.find?_cons_of_neg _ (by simp [han]),
              List.find?_cons_of_neg _ (by simp [han]), ih]

theorem findName_mergeFold {α : Type} (nm : α → String) {n : String} :
    ∀ (B : List α), (∀ y ∈ B, nm y ≠ n) → ∀ acc : List α,
      findName nm n (List.foldl (writeFirst nm) acc B) = findName nm n acc := by
  intro B
  induction B with
  | nil => intro _ acc; rfl
  | cons y B ih =>
      intro h acc
      have hy : nm y ≠ n := h y (List.mem_cons_self y B)
      have hB : ∀ z ∈ B, nm z ≠ n := fun z hz => h z (List.mem_cons_of_mem y hz)
      calc findName nm n (List.foldl (writeFirst nm) (writeFirst nm acc y) B)
          = findName nm n (writeFirst nm acc y) := ih hB (writeFirst nm acc y)
        _ = findName nm n acc := findName_writeFirst_other nm hy acc

theorem writeFirst_absorb {α : Type} (nm : α → String) {x y : α}
    (h : nm x = nm y) (l : List α) :
    writeFirst nm (writeFirst nm l x) y = writeFirst nm l y := by
  induction l with
  | nil => simp [writeFirst, h]
  | cons a l ih =>
      by_cases hax : nm a = nm x
      · simp [writeFirst, hax, h]
      · have hay : nm a ≠ nm y := fun hc => hax (hc.trans h.symm)
        simp [writeFirst, hax, hay, ih]

theorem writeFirst_comm {α : Type} (nm : α → String) {x y : α}
    (hxy : nm x ≠ nm y) :
    ∀ l : List α, nm x ∈ l.map nm →
      writeFirst nm (writeFirst nm l x) y = writeFirst nm (writeFirst nm l y) x := by
  intro l
  induction l with
  | nil => intro h; simp at h
  | cons a l ih =>
      intro hx
      by_cases hax : nm a = nm x
      · have hay : nm a ≠ nm y := fun hc => hxy (hax.symm.trans hc)
        have e1 : writeFirst nm (a :: l) x = x :: l := by rw [writeFirst, if_pos hax]
        have e2 : writeFirst nm (a :: l) y = a :: writeFirst nm l y := by
          rw [writeFirst, if_neg hay]
        rw [e1, e2, writeFirst, if_neg hxy, writeFirst, if_pos hax]
      · simp only [List.map_cons, List.mem_cons] at hx
        have hx' : nm x ∈ l.map nm := by
          rcases hx with hx | hx
          · exact absurd hx.symm hax
          · exact hx
        by_cases hay : nm a = nm y
        · have hya : nm y ≠ nm x := fun hc => hxy hc.symm
          simp [writeFirst, hax, hay, hya]
        · simp [writeFirst, hax, hay, ih hx']

theorem mergeFold_absorb_write {α : Type} (nm : α → String) {b : α} :
    ∀ (B : List α) (acc : List α), nm b ∈ acc.map nm →
      (∃ y ∈ B, nm y = nm b) →
      List.foldl (writeFirst nm) (writeFirst nm acc b) B =
        List.foldl (writeFirst nm) acc B := by
  intro B
  induction B with
  | nil =>
      intro acc _ hex
      rcases hex with ⟨y, hy, _⟩
      exact absurd hy (List.not_mem_nil y)
  | cons y B ih =>
      intro acc hb hex
      by_cases hy : nm y = nm b
      · show List.foldl (writeFirst nm) (writeFirst nm (writeFirst nm acc b) y) B =
            List.foldl (writeFirst nm) (writeFirst nm acc y) B
        rw [writeFirst_absorb nm (hy.symm) acc]
      · have hex' : ∃ z ∈ B, nm z = nm b := by
          rcases hex with ⟨z, hz, hzz⟩
          rcases List.mem_cons.mp hz with rfl | hz'
          · exact absurd hzz hy
          · exact ⟨z, hz', hzz⟩
        show List.foldl (writeFirst nm) (writeFirst nm (writeFirst nm acc b) y) B =
            List.foldl (writeFirst nm) (writeFirst nm acc y) B
        rw [writeFirst_comm nm (fun hc => hy hc.symm) acc hb]
        exact ih (writeFirst nm acc y) (mem_names_writeFirst nm hb y) hex'

theorem writeFirst_of_findName {α : Type} (nm : α → String) {b : α} :
    ∀ l : List α, findName nm (nm b) l = some b → writeFirst nm l b = l := by
  intro l
  induction l with
  | nil => intro h; simp [findName] at h
  | cons a l ih =>
      intro h
      by_cases hab : nm a = nm b
      · simp only [findName] at h
        rw [List.find?_cons_of_pos _ (by simp [hab])] at h
        injection h with h
        rw [writeFirst, if_pos hab, h]
      · simp only [findName] at h
        rw [List.find?_cons_of_neg _ (by simp [hab])] at h
        rw [writeFirst, if_neg hab, ih h]

theorem mergeByName_idem {α : Type} (nm : α → String) :
    ∀ (B A : List α), mergeByName nm (mergeByName nm A B) B = mergeByName nm A B := by
  intro B
  induction B with
  | nil => intro A; rfl
  | cons b B ih =>
      intro A
      show List.foldl (writeFirst nm)
          (writeFirst nm (List.foldl (writeFirst nm) (writeFirst nm A b) B) b) B =
        List.foldl (writeFirst nm) (writeFirst nm A b) B
      by_cases hex : ∃ y ∈ B, nm y = nm b
      · rw [mergeFold_absorb_write nm B
            (List.foldl (writeFirst nm) (writeFirst nm A b) B)
            (mem_names_mergeFold nm B (writeFirst nm A b)
              (mem_names_writeFirst_self nm A b)) hex]
        exact ih (writeFirst nm A b)
      · push_neg at hex
        have hfind : findName nm (nm b)
            (List.foldl (writeFirst nm) (writeFirst nm A b) B) = some b := by
          rw [findName_mergeFold nm B hex (writeFirst nm A b)]
          exact findName_writeFirst_self nm A b
        rw [writeFirst_of_findName nm _ hfind]
        exact ih (writeFirst nm A b)

/-- Strings with equal character data are equal. -/
theorem string_ext_of_data {x y : String} (h : x.data = y.data) : x = y := by
  cases x
  cases y
  exact congrArg String.mk h

/-- Left cancellation for string append. -/
theorem append_cancel_left_str {a x y : String} (h : a ++ x = a ++ y) : x = y := by
  have hd := congrArg String.data h
  rw [String.data_append, String.data_append, List.append_right_inj] at hd
  exact string_ext_of_data hd

/-- Right cancellation for string append. -/
theorem append_cancel_right_str {x y a : String} (h : x ++ a = y ++ a) : x = y := by
  have hd := congrArg String.data h
  rw [String.data_append, String.data_append, List.append_left_inj] at hd
  exact string_ext_of_data hd

/-- Last character of the integer type-error suffix. -/
theorem msg_last_int (x : String) :
    ((x ++ " must be an integer").data.reverse.head?) = some 'r' := by
  rw [String.data_append, List.reverse_append]
  rfl

/-- Last character of the float type-error suffix. -/
theorem msg_last_float (x : String) :
    ((x ++ " must be a float").data.reverse.head?) = some 't' := by
  rw [String.data_append, List.reverse_append]
  rfl

/-- Last character of the boolean type-error suffix. -/
theorem msg_last_bool (x : String) :
    ((x ++ " must be a boolean").data.reverse.head?) = some 'n' := by
  rw [String.data_append, List.reverse_append]
  rfl

/-- Type-error messages start with `P`. -/
theorem msg_head_param (p S : String) :
    (("Parameter " ++ p ++ S).data.head?) = some 'P' := by
  rw [String.data_append, String.data_append]
  rfl

/-- Missing-required messages start with `M`. -/
theorem msg_head_missing (x : String) :
    (("Missing required parameter: " ++ x).data.head?) = some 'M' := by
  rw [String.data_append]
  rfl

/-- A missing-required message never coincides with a type-error
message. -/
theorem missing_ne_param (x p S : String) :
    "Missing required parameter: " ++ x ≠ "Parameter " ++ p ++ S := by
  intro h
  have h1 := msg_head_missing x
  rw [h, msg_head_param] at h1
  exact absurd h1 (by decide)

/-- Type-error messages determine the parameter name and the suffix. -/
theorem param_msg_inj {p q S T : String}
    (hS : S = " must be an integer" ∨ S = " must be a float" ∨ S = " must be a boolean")
    (hT : T = " must be an integer" ∨ T = " must be a float" ∨ T = " must be a boolean")
    (h : "Parameter " ++ p ++ S = "Parameter " ++ q ++ T) : p = q ∧ S = T := by
  have hST : S = T := by
    rcases hS with rfl | rfl | rfl <;> rcases hT with rfl | rfl | rfl
    · rfl
    · have h1 := msg_last_int ("Parameter " ++ p)
      rw [h, msg_last_float] at h1
      exact absurd h1 (by decide)
    · have h1 := msg_last_int ("Parameter " ++ p)
      rw [h, msg_last_bool] at h1
      exact absurd h1 (by decide)
    · have h1 := msg_last_float ("Parameter " ++ p)
      rw [h, msg_last_int] at h1
      exact absurd h1 (by decide)
    · rfl
    · have h1 := msg_last_float ("Parameter " ++ p)
      rw [h, msg_last_bool] at h1
      exact absurd h1 (by decide)
    · have h1 := msg_last_bool ("Parameter " ++ p)
      rw [h, msg_last_int] at h1
      exact absurd h1 (by decide)
    · have h1 := msg_last_bool ("Parameter " ++ p)
      rw [h, msg_last_float] at h1
      exact absurd h1 (by decide)
    · rfl
  subst hST
  exact ⟨append_cancel_left_str (append_cancel_right_str h), rfl⟩

/-- With duplicate-free keys, a key determines its value. -/
theorem nodup_keys_val_eq {β : Type} {l : List (String × β)}
    (h : (l.map Prod.fst).Nodup) {k : String} {a b : β}
    (ha : (k, a) ∈ l) (hb : (k, b) ∈ l) : a = b := by
  induction l with
  | nil => simp at ha
  | cons x l ih =>
      rw [List.map_cons, List.nodup_cons] at h
      rcases List.mem_cons.mp ha with rfl | ha'
      · rcases List.mem_cons.mp hb with hb' | hb'
        · exact ((Prod.mk.injEq _ _ _ _).mp hb'.symm).2
        · exact absurd (List.mem_map_of_mem Prod.fst hb') h.1
      · rcases List.mem_cons.mp hb with rfl | hb'
        · exact absurd (List.mem_map_of_mem Prod.fst ha') h.1
        · exact ih h.2 ha' hb'

/-- Every missing-required error has the `Missing required parameter:`
shape. -/
theorem mem_requiredErrors {expected : List (String × ParamSpec)}
    {params : List (String × PyVal)} {e : String}
    (h : e ∈ requiredErrors expected params) :
    ∃ x, e = "Missing required parameter: " ++ x := by
  unfold requiredErrors at h
  rcases List.mem_filterMap.mp h with ⟨ps, _, hf⟩
  by_cases hr : ps.2.required
  · simp only [hr, if_true] at hf
    cases hlk : lookupKey params ps.1 with
    | none =>
        rw [hlk] at hf
        exact ⟨ps.1, (Option.some.inj hf).symm⟩
    | some v =>
        rw [hlk] at hf
        by_cases ht : v.truthy
        · simp [ht] at hf
        · simp only [ht, Bool.false_eq_true, if_false] at hf
          exact ⟨ps.1, (Option.some.inj hf).symm⟩
  · simp [hr] at hf

/-- Characterisation of a produced type-error message. -/
theorem typeCheckError_some {t p : String} {v : PyVal} {m : String}
    (h : typeCheckError t p v = some m) :
    (t = "int" ∧ m = "Parameter " ++ p ++ " must be an integer" ∧
      pyIntCoercionOk v = false) ∨
    (t = "float" ∧ m = "Parameter " ++ p ++ " must be a float" ∧
      pyFloatCoercionOk v = false) ∨
    (t = "bool" ∧ m = "Parameter " ++ p ++ " must be a boolean" ∧
      isPyBool v = false) := by
  unfold typeCheckError at h
  by_cases h1 : t = "int"
  · rw [if_pos h1] at h
    left
    refine ⟨h1, ?_⟩
    cases v with
    | int n => exact absurd h (by simp)
    | bool b => exact absurd h (by simp)
    | str s =>
        cases hc : pyIntCoercionOk (.str s) with
        | true => rw [hc] at h; simp at h
        | false =>
            rw [hc] at h
            simp only [Bool.false_eq_true, if_false] at h
            exact ⟨(Option.some.inj h).symm, rfl⟩
    | none => exact ⟨(Option.some.inj h).symm, rfl⟩
    | list xs => exact ⟨(Option.some.inj h).symm, rfl⟩
    | dict kvs => exact ⟨(Option.some.inj h).symm, rfl⟩
  · rw [if_neg h1] at h
    by_cases h2 : t = "float"
    · rw [if_pos h2] at h
      right; left
      refine ⟨h2, ?_⟩
      cases hc : pyFloatCoercionOk v with
      | true => rw [hc] at h; simp at h
      | false =>
          rw [hc] at h
          simp only [Bool.false_eq_true, if_false] at h
          exact ⟨(Option.some.inj h).symm, rfl⟩
    · rw [if_neg h2] at h
      by_cases h3 : t = "bool"
      · rw [if_pos h3] at h
        right; right
        refine ⟨h3, ?_⟩
        cases v with
        | bool b => exact absurd h (by simp)
        | none => exact ⟨(Option.some.inj h).symm, rfl⟩
        | int n => exact ⟨(Option.some.inj h).symm, rfl⟩
        | str s => exact ⟨(Option.some.inj h).symm, rfl⟩
        | list xs => exact ⟨(Option.some.inj h).symm, rfl⟩
        | dict kvs => exact ⟨(Option.some.inj h).symm, rfl⟩
      · rw [if_neg h3] at h
        simp at h

/-- The `int` branch produces its message exactly on coercion
failure. -/
theorem typeCheckError_int_of {p : String} {v : PyVal}
    (h : pyIntCoercionOk v = false) :
    typeCheckError "int" p v = some ("Parameter " ++ p ++ " must be an integer") := by
  unfold typeCheckError
  rw [if_pos rfl]
  cases v with
  | int n => simp [pyIntCoercionOk] at h
  | bool b => simp [pyIntCoercionOk] at h
  | str s => rw [h]; simp
  | none => rfl
  | list xs => rfl
  | dict kvs => rfl

/-- The `float` branch produces its message exactly on coercion
failure. -/
theorem typeCheckError_float_of {p : String} {v : PyVal}
    (h : pyFloatCoercionOk v = false) :
    typeCheckError "float" p v = some ("Parameter " ++ p ++ " must be a float") := by
  unfold typeCheckError
  rw [if_neg (by decide), if_pos rfl, h]
  simp

/-- The `bool` branch produces its message exactly on non-booleans. -/
theorem typeCheckError_bool_of {p : String} {v : PyVal}
    (h : isPyBool v = false) :
    typeCheckError "bool" p v = some ("Parameter " ++ p ++ " must be a boolean") := by
  unfold typeCheckError
  rw [if_neg (by decide), if_neg (by decide), if_pos rfl]
  cases v with
  | bool b => simp [isPyBool] at h
  | none => rfl
  | int n => rfl
  | str s => rfl
  | list xs => rfl
  | dict kvs => rfl

/-- Skip-condition of the type-validation pass, as a disjunction. -/
theorem skip_false_iff (a b : Bool) : (!a && !b) = false ↔ (a || b) = true := by
  cases a <;> cases b <;> decide

/-- Forward extraction: a type-error message about `pname` in the
type-validation pass comes from `pname`'s own entry, past the
empty-optional skip. -/
theorem typeErrors_extract {expected : List (String × ParamSpec)}
    {params : List (String × PyVal)} {pname : String} {v : PyVal} {spec : ParamSpec}
    (hnodup : (params.map Prod.fst).Nodup)
    (hmem : (pname, v) ∈ params)
    (hspec : lookupKey expected pname = some spec)
    {S : String}
    (hSshape : S = " must be an integer" ∨ S = " must be a float" ∨
               S = " must be a boolean")
    (hmem' : ("Parameter " ++ pname ++ S) ∈ typeErrors expected params) :
    (!v.truthy && !spec.required) = false ∧
    typeCheckError spec.type pname v = some ("Parameter " ++ pname ++ S) := by
  unfold typeErrors at hmem'
  rcases List.mem_filterMap.mp hmem' with ⟨pw, hpw, hG⟩
  rcases pw with ⟨p, w⟩
  cases hlk : lookupKey expected p with
  | none => rw [hlk] at hG; simp at hG
  | some sp =>
      rw [hlk] at hG
      simp only at hG
      by_cases hskip : (!w.truthy && !sp.required) = true
      · rw [hskip] at hG; simp at hG
      · have hskip' : (!w.truthy && !sp.required) = false :=
          Bool.eq_false_iff.mpr hskip
        rw [hskip'] at hG
        simp only [Bool.false_eq_true, if_false] at hG
        have hshape := typeCheckError_some hG
        have hpq : p = pname := by
          rcases hshape with ⟨_, hmeq, _⟩ | ⟨_, hmeq, _⟩ | ⟨_, hmeq, _⟩
          · exact (param_msg_inj hSshape (Or.inl rfl) hmeq).1.symm
          · exact (param_msg_inj hSshape (Or.inr (Or.inl rfl)) hmeq).1.symm
          · exact (param_msg_inj hSshape (Or.inr (Or.inr rfl)) hmeq).1.symm
        subst hpq
        have hw : w = v := nodup_keys_val_eq hnodup hpw hmem
        subst hw
        have hsp : sp = spec := Option.some.inj (hlk.symm.trans hspec)
        subst hsp
        exact ⟨hskip', hG⟩

/-- Claim C7: in tool-parameter validation, for a supplied parameter
that appears in the tool's schema, the typed error message for that
parameter is produced exactly when the type coercion of the code's
corresponding branch fails on it — `int(value)` for `int` (booleans
count as integers), `float(value)` for `float`, an `isinstance` test
for `bool` — and the check is skipped when the value is empty (falsy)
and the parameter optional; declared types without a checking branch
(`str`, `list`, `dict`) never produce a typed error for the
parameter. -/
theorem validate_tool_parameters_type_errors
    {tool : String} {expected : List (String × ParamSpec)}
    {params : List (String × PyVal)} {pname : String} {v : PyVal} {spec : ParamSpec}
    (hcat : lookupKey toolCatalog tool = some expected)
    (hnodup : (params.map Prod.fst).Nodup)
    (hmem : (pname, v) ∈ params)
    (hspec : lookupKey expected pname = some spec) :
    (spec.type = "int" →
      (("Parameter " ++ pname ++ " must be an integer") ∈
          validate_tool_parameters tool params ↔
        (v.truthy || spec.required) = true ∧ pyIntCoercionOk v = false)) ∧
    (spec.type = "float" →
      (("Parameter " ++ pname ++ " must be a float") ∈
          validate_tool_parameters tool params ↔
        (v.truthy || spec.required) = true ∧ pyFloatCoercionOk v = false)) ∧
    (spec.type = "bool" →
      (("Parameter " ++ pname ++ " must be a boolean") ∈
          validate_tool_parameters tool params ↔
        (v.truthy || spec.required) = true ∧ isPyBool v = false)) ∧
    (spec.type ≠ "int" → spec.type ≠ "float" → spec.type ≠ "bool" →
      ("Parameter " ++ pname ++ " must be an integer") ∉
          validate_tool_parameters tool params ∧
      ("Parameter " ++ pname ++ " must be a float") ∉
          validate_tool_parameters tool params ∧
      ("Parameter " ++ pname ++ " must be a boolean") ∉
          validate_tool_parameters tool params) := by
  have hout : validate_tool_parameters tool params =
      requiredErrors expected params ++ typeErrors expected params := by
    unfold validate_tool_parameters
    rw [hcat]
  have hback : ∀ m, typeCheckError spec.type pname v = some m →
      (v.truthy || spec.required) = true → m ∈ validate_tool_parameters tool params := by
    intro m htce hcond
    rw [hout]
    refine List.mem_append.mpr (Or.inr ?_)
    unfold typeErrors
    refine List.mem_filterMap.mpr ⟨(pname, v), hmem, ?_⟩
    simp only
    rw [hspec]
    change (if (!v.truthy && !spec.required) = true then Option.none
            else typeCheckError spec.type pname v) = some m
    rw [(skip_false_iff _ _).mpr hcond]
    simpa using htce
  refine ⟨?_, ?_, ?_, ?_⟩
  · intro hint
    constructor
    · intro hm
      rw [hout] at hm
      rcases List.mem_append.mp hm with hreq | htyp
      · rcases mem_requiredErrors hreq with ⟨x, hx⟩
        exact absurd hx.symm (missing_ne_param x pname " must be an integer")
      · obtain ⟨hskip, htce⟩ :=
          typeErrors_extract hnodup hmem hspec (Or.inl rfl) htyp
        refine ⟨(skip_false_iff _ _).mp hskip, ?_⟩
        rcases typeCheckError_some htce with ⟨_, _, hc⟩ | ⟨ht, _, _⟩ | ⟨ht, _, _⟩
        · exact hc
        · exact absurd (hint ▸ ht) (by decide)
        · exact absurd (hint ▸ ht) (by decide)
    · rintro ⟨hcond, hcoerce⟩
      exact hback _ (hint ▸ typeCheckError_int_of hcoerce) hcond
  · intro hfl
    constructor
    · intro hm
      rw [hout] at hm
      rcases List.mem_append.mp hm with hreq | htyp
      · rcases mem_requiredErrors hreq with ⟨x, hx⟩
        exact absurd hx.symm (missing_ne_param x pname " must be a float")
      · obtain ⟨hskip, htce⟩ :=
          typeErrors_extract hnodup hmem hspec (Or.inr (Or.inl rfl)) htyp
        refine ⟨(skip_false_iff _ _).mp hskip, ?_⟩
        rcases typeCheckError_some htce with ⟨ht, _, _⟩ | ⟨_, _, hc⟩ | ⟨ht, _, _⟩
        · exact absurd (hfl ▸ ht) (by decide)
        · exact hc
        · exact absurd (hfl ▸ ht) (by decide)
    · rintro ⟨hcond, hcoerce⟩
      exact hback _ (hfl ▸ typeCheckError_float_of hcoerce) hcond
  · intro hbl
    constructor
    · intro hm
      rw [hout] at hm
      rcases List.mem_append.mp hm with hreq | htyp
      · rcases mem_requiredErrors hreq with ⟨x, hx⟩
        exact absurd hx.symm (missing_ne_param x pname " must be a boolean")
      · obtain ⟨hskip, htce⟩ :=
          typeErrors_extract hnodup hmem hspec (Or.inr (Or.inr rfl)) htyp
        refine ⟨(skip_false_iff _ _).mp hskip, ?_⟩
        rcases typeCheckError_some htce with ⟨ht, _, _⟩ | ⟨ht, _, _⟩ | ⟨_, _, hc⟩
        · exact absurd (hbl ▸ ht) (by decide)
        · exact absurd (hbl ▸ ht) (by decide)
        · exact hc
    · rintro ⟨hcond, hcoerce⟩
      exact hback _ (hbl ▸ typeCheckError_bool_of hcoerce) hcond
  · intro h1 h2 h3
    refine ⟨?_, ?_, ?_⟩
    all_goals intro hm
    · rw [hout] at hm
      rcases List.mem_append.mp hm with hreq | htyp
      · rcases mem_requiredErrors hreq with ⟨x, hx⟩
        exact absurd hx.symm (missing_ne_param x pname " must be an integer")
      · obtain ⟨_, htce⟩ :=
          typeErrors_extract hnodup hmem hspec (Or.inl rfl) htyp
        rcases typeCheckError_some htce with ⟨ht, _, _⟩ | ⟨ht, _, _⟩ | ⟨ht, _, _⟩
        · exact h1 ht
        · exact h2 ht
        · exact h3 ht
    · rw [hout] at hm
      rcases List.mem_append.mp hm with hreq | htyp
      · rcases mem_requiredErrors hreq with ⟨x, hx⟩
        exact absurd hx.symm (missing_ne_param x pname " must be a float")
      · obtain ⟨_, htce⟩ :=
          typeErrors_extract hnodup hmem hspec (Or.inr (Or.inl rfl)) htyp
        rcases typeCheckError_some htce with ⟨ht, _, _⟩ | ⟨ht, _, _⟩ | ⟨ht, _, _⟩
        · exact h1 ht
        · exact h2 ht
        · exact h3 ht
    · rw [hout] at hm
      rcases List.mem_append.mp hm with hreq | htyp
      · rcases mem_requiredErrors hreq with ⟨x, hx⟩
        exact absurd hx.symm (missing_ne_param x pname " must be a boolean")
      · obtain ⟨_, htce⟩ :=
          typeErrors_extract hnodup hmem hspec (Or.inr (Or.inr rfl)) htyp
        rcases typeCheckError_some htce with ⟨ht, _, _⟩ | ⟨ht, _, _⟩ | ⟨ht, _, _⟩
        · exact h1 ht
        · exact h2 ht
        · exact h3 ht

/-- Claim C7, witness: `SerperDevTool`'s `num_results` is an optional
`int` parameter; the non-empty unparsable value `"abc"` produces the
integer error, exercising the theorem at a concrete input. -/
theorem validate_tool_parameters_type_errors_witness :
    ("Parameter " ++ "num_results" ++ " must be an integer") ∈
      validate_tool_parameters "SerperDevTool"
        [("api_key", .str "k"), ("num_results", .str "abc")] :=
  have hcat : lookupKey toolCatalog "SerperDevTool" =
      some [("api_key", ⟨"str", true⟩), ("search_type", ⟨"str", false⟩),
            ("include_answer", ⟨"bool", false⟩), ("include_images", ⟨"bool", false⟩),
            ("num_results", ⟨"int", false⟩)] := rfl
  have hmem : ("num_results", PyVal.str "abc") ∈
      ([("api_key", PyVal.str "k"), ("num_results", PyVal.str "abc")] :
        List (String × PyVal)) :=
    List.mem_cons_of_mem _ (List.mem_cons_self _ _)
  have hspec : lookupKey
      [(("api_key" : String), (⟨"str", true⟩ : ParamSpec)),
       ("search_type", ⟨"str", false⟩), ("include_answer", ⟨"bool", false⟩),
       ("include_images", ⟨"bool", false⟩), ("num_results", ⟨"int", false⟩)]
      "num_results" = some ⟨"int", false⟩ := rfl
  ((validate_tool_parameters_type_errors hcat (by decide) hmem hspec).1 rfl).mpr
    (by decide)

/-- Claim C8: configuration merge is idempotent in its second argument —
after `merge(A, B)`, merging the same `B` again changes neither the
agent list nor the task list (each incoming item replaces the first
item with its name in place, or is appended; nothing is deleted). -/
theorem merge_configurations_idempotent (A B : PConfig) :
    merge_configurations (merge_configurations A B) B = merge_configurations A B := by
  unfold merge_configurations
  simp only [PConfig.mk.injEq]
  exact ⟨mergeByName_idem PAgent.name B.agents A.agents,
         mergeByName_idem PTask.name B.tasks A.tasks⟩

theorem lookup_of_contains {kvs : List (String × PyVal)} {k : String}
    (h : (kvs.any fun kv => kv.1 = k) = true) : ∃ v, lookupStr kvs k = some v := by
  induction kvs with
  | nil => simp at h
  | cons x l ih =>
      obtain ⟨k1, v1⟩ := x
      rw [List.any_cons] at h
      by_cases hx : k1 = k
      · exact ⟨v1, by simp [lookupStr, hx]⟩
      · have h' : (l.any fun kv => kv.1 = k) = true := by
          rcases Bool.or_eq_true_iff.mp h with h1 | h1
          · exact absurd (of_decide_eq_true h1) hx
          · exact h1
        obtain ⟨v, hv⟩ := ih h'
        exact ⟨v, by simp [lookupStr, hx, hv]⟩

theorem pyGetItem_dict {kvs : List (String × PyVal)} {k : String} {v : PyVal}
    (h : lookupStr kvs k = some v) : pyGetItem (.dict kvs) k = .ok v := by
  simp [pyGetItem, h]

theorem foldl_pySetAdd_ok :
    ∀ (ts : List PyVal) (acc : List PyVal),
    (∀ t ∈ ts, ∃ s, t = .str s) → (∀ x ∈ acc, ∃ s, x = .str s) →
    ∃ r, ts.foldlM pySetAdd acc = .ok r ∧ ∀ x ∈ r, ∃ s, x = .str s := by
  intro ts
  induction ts with
  | nil => intro acc _ hacc; exact ⟨acc, rfl, hacc⟩
  | cons t ts ih =>
      intro acc hts hacc
      obtain ⟨s, rfl⟩ := hts t (List.mem_cons_self t ts)
      have hacc'str : ∀ x ∈ (if acc.any (fun y => pyEq y (.str s)) then acc
          else acc ++ [.str s]), ∃ s', x = .str s' := by
        by_cases hmem : acc.any (fun y => pyEq y (.str s)) = true
        · rw [if_pos hmem]; exact hacc
        · rw [if_neg hmem]
          intro x hx
          rcases List.mem_append.mp hx with hx' | hx'
          · exact hacc x hx'
          · exact ⟨s, by simpa using hx'⟩
      obtain ⟨r, hr, hrstr⟩ := ih _ (fun t' ht' => hts t' (List.mem_cons_of_mem _ ht')) hacc'str
      refine ⟨r, ?_, hrstr⟩
      rw [List.foldlM_cons]
      show (pySetAdd acc (.str s)) >>= _ = _
      rw [show pySetAdd acc (.str s) = .ok (if acc.any (fun y => pyEq y (.str s)) then acc
          else acc ++ [.str s]) from rfl]
      simpa using hr

theorem mapM_ok_of_forall {α β : Type} (f : α → Except PyErr β) :
    ∀ l : List α, (∀ x ∈ l, ∃ y, f x = .ok y) → ∃ r, l.mapM f = .ok r := by
  intro l
  induction l with
  | nil => exact fun _ => ⟨[], rfl⟩
  | cons x l ih =>
      intro h
      obtain ⟨y, hy⟩ := h x (List.mem_cons_self x l)
      obtain ⟨r, hr⟩ := ih fun z hz => h z (List.mem_cons_of_mem _ hz)
      refine ⟨y :: r, ?_⟩
      rw [List.mapM_cons, hy, hr]
      rfl

theorem mapM_str_some {ut : List PyVal} (h : ∀ x ∈ ut, ∃ s, x = .str s) :
    ∃ ss, ut.mapM (fun x => match x with | .str s => some s | _ => Option.none) = some ss := by
  induction ut with
  | nil => exact ⟨[], rfl⟩
  | cons x l ih =>
      obtain ⟨s, rfl⟩ := h x (List.mem_cons_self x l)
      obtain ⟨ss, hss⟩ := ih fun z hz => h z (List.mem_cons_of_mem _ hz)
      refine ⟨s :: ss, ?_⟩
      rw [List.mapM_cons, hss]
      rfl

theorem pySortedStrs_ok {ut : List PyVal} (h : ∀ x ∈ ut, ∃ s, x = .str s) :
    ∃ ss, pySortedStrs ut = .ok ss := by
  obtain ⟨ss, hss⟩ := mapM_str_some h
  refine ⟨sortStrs ss, ?_⟩
  unfold pySortedStrs
  rw [hss]

theorem crewaiHeader_ok (o : List String → List String) {ut : List PyVal}
    (h : ∀ x ∈ ut, ∃ s, x = .str s) : ∃ s, crewaiHeader o ut = .ok s := by
  unfold crewaiHeader
  by_cases hemp : ut.isEmpty
  · rw [if_pos hemp]
    exact ⟨_, rfl⟩
  · obtain ⟨ss, hss⟩ := pySortedStrs_ok h
    rw [if_neg hemp, hss]
    exact ⟨_, rfl⟩

theorem addAgentTools_ok {acc : List PyVal} {a : PyVal}
    (ha : createReadyAgentB a = true) (hacc : ∀ x ∈ acc, ∃ s, x = .str s) :
    ∃ r, addAgentTools acc a = .ok r ∧ ∀ x ∈ r, ∃ s, x = .str s := by
  cases a with
  | dict kvs =>
      unfold createReadyAgentB at ha
      have htools := (Bool.and_eq_true_iff.mp ha).2
      unfold addAgentTools
      have hcont : pyContains (.dict kvs) (.str "tools") = .ok (kvs.any fun kv => kv.1 = "tools") := rfl
      rw [hcont]
      simp only [bind, Except.bind]
      by_cases hb : (kvs.any fun kv => kv.1 = "tools") = true
      · obtain ⟨tv, htv⟩ := lookup_of_contains hb
        rw [htv] at htools
        cases tv with
        | list ts =>
            have hts : ∀ t ∈ ts, ∃ s, t = .str s := by
              intro t ht
              have := (List.all_eq_true.mp htools) t ht
              cases t with
              | str s => exact ⟨s, rfl⟩
              | none => simp at this
              | bool b => simp at this
              | int n => simp at this
              | list l2 => simp at this
              | dict d2 => simp at this
            obtain ⟨r, hr, hrstr⟩ := foldl_pySetAdd_ok ts acc hts hacc
            rw [hb]
            simp only [if_true]
            rw [show pyGetItem (.dict kvs) "tools" = .ok (.list ts) from pyGetItem_dict htv]
            simp only [bind, Except.bind]
            by_cases htr : (PyVal.list ts).truthy = true
            · refine ⟨r, ?_, hrstr⟩
              rw [htr]
              simp only [if_true]
              rw [show pyIter (.list ts) = .ok ts from rfl]
              simpa using hr
            · refine ⟨acc, ?_, hacc⟩
              rw [Bool.eq_false_iff.mpr htr]
              rfl
        | str s => simp at htools
        | none => simp at htools
        | bool b => simp at htools
        | int n => simp at htools
        | dict d => simp at htools
      · rw [Bool.eq_false_iff.mpr hb]
        exact ⟨acc, rfl, hacc⟩
  | none => simp [createReadyAgentB] at ha
  | bool b => simp [createReadyAgentB] at ha
  | int n => simp [createReadyAgentB] at ha
  | str s => simp [createReadyAgentB] at ha
  | list l => simp [createReadyAgentB] at ha


theorem crewaiAgentCode_ok {a : PyVal} (ha : createReadyAgentB a = true) :
    ∃ s, crewaiAgentCode a = .ok s := by
  cases a with
  | dict kvs =>
      unfold createReadyAgentB at ha
      simp only [Bool.and_eq_true] at ha
      obtain ⟨⟨⟨⟨⟨⟨hn, hr⟩, hg⟩, hbk⟩, hv⟩, had⟩, htl⟩ := ha
      obtain ⟨nv, hnv⟩ := Option.isSome_iff_exists.mp hn
      obtain ⟨rv, hrv⟩ := Option.isSome_iff_exists.mp hr
      obtain ⟨gv, hgv⟩ := Option.isSome_iff_exists.mp hg
      obtain ⟨bv, hbv⟩ := Option.isSome_iff_exists.mp hbk
      obtain ⟨vv, hvv⟩ := Option.isSome_iff_exists.mp hv
      obtain ⟨av, hav⟩ := Option.isSome_iff_exists.mp had
      have hcont : pyContains (PyVal.dict kvs) (.str "tools") =
          .ok (kvs.any fun kv => kv.1 = "tools") := rfl
      by_cases hb2 : (kvs.any fun kv => kv.1 = "tools") = true
      · obtain ⟨tv, htv⟩ := lookup_of_contains hb2
        rw [htv] at htl
        cases tv with
        | list ts =>
            by_cases htr : (PyVal.list ts).truthy = true
            · simp only [crewaiAgentCode, pyGetItem_dict hnv, pyGetItem_dict htv,
                pyGetItem_dict hrv, pyGetItem_dict hgv, pyGetItem_dict hbv,
                pyGetItem_dict hvv, pyGetItem_dict hav, hcont, hb2, htr,
                show pyIter (PyVal.list ts) = Except.ok ts from rfl,
                bind, Except.bind, pure, Except.pure, reduceIte]
              exact ⟨_, rfl⟩
            · simp only [crewaiAgentCode, pyGetItem_dict hnv, pyGetItem_dict htv,
                pyGetItem_dict hrv, pyGetItem_dict hgv, pyGetItem_dict hbv,
                pyGetItem_dict hvv, pyGetItem_dict hav, hcont, hb2,
                Bool.eq_false_iff.mpr htr,
                bind, Except.bind, pure, Except.pure, reduceIte]
              exact ⟨_, rfl⟩
        | str s => simp at htl
        | none => simp at htl
        | bool b => simp at htl
        | int n => simp at htl
        | dict d => simp at htl
      · simp only [crewaiAgentCode, pyGetItem_dict hnv,
          pyGetItem_dict hrv, pyGetItem_dict hgv, pyGetItem_dict hbv,
          pyGetItem_dict hvv, pyGetItem_dict hav, hcont,
          Bool.eq_false_iff.mpr hb2,
          bind, Except.bind, pure, Except.pure, reduceIte]
        exact ⟨_, rfl⟩
  | none => simp [createReadyAgentB] at ha
  | bool b => simp [createReadyAgentB] at ha
  | int n => simp [createReadyAgentB] at ha
  | str s => simp [createReadyAgentB] at ha
  | list l => simp [createReadyAgentB] at ha

theorem crewaiTaskCode_ok {t : PyVal} (ht : createReadyTaskB t = true) :
    ∃ s, crewaiTaskCode t = .ok s := by
  cases t with
  | dict kvs =>
      unfold createReadyTaskB at ht
      simp only [Bool.and_eq_true] at ht
      obtain ⟨⟨⟨hn, hd⟩, hag⟩, heo⟩ := ht
      obtain ⟨nv, hnv⟩ := Option.isSome_iff_exists.mp hn
      obtain ⟨dv, hdv⟩ := Option.isSome_iff_exists.mp hd
      obtain ⟨av, hav⟩ := Option.isSome_iff_exists.mp hag
      obtain ⟨ev, hev⟩ := Option.isSome_iff_exists.mp heo
      unfold crewaiTaskCode
      rw [pyGetItem_dict hnv, pyGetItem_dict hdv, pyGetItem_dict hav, pyGetItem_dict hev]
      exact ⟨_, rfl⟩
  | none => simp [createReadyTaskB] at ht
  | bool b => simp [createReadyTaskB] at ht
  | int n => simp [createReadyTaskB] at ht
  | str s => simp [createReadyTaskB] at ht
  | list l => simp [createReadyTaskB] at ht

theorem ready_agent_name_ok {a : PyVal} (h : createReadyAgentB a = true) :
    ∃ y, pyGetItem a "name" = .ok y := by
  cases a with
  | dict kvs =>
      unfold createReadyAgentB at h
      simp only [Bool.and_eq_true] at h
      obtain ⟨nv, hnv⟩ := Option.isSome_iff_exists.mp h.1.1.1.1.1.1
      exact ⟨nv, pyGetItem_dict hnv⟩
  | none => simp [createReadyAgentB] at h
  | bool b => simp [createReadyAgentB] at h
  | int n => simp [createReadyAgentB] at h
  | str s => simp [createReadyAgentB] at h
  | list l => simp [createReadyAgentB] at h

theorem ready_task_name_ok {t : PyVal} (h : createReadyTaskB t = true) :
    ∃ y, pyGetItem t "name" = .ok y := by
  cases t with
  | dict kvs =>
      unfold createReadyTaskB at h
      simp only [Bool.and_eq_true] at h
      obtain ⟨nv, hnv⟩ := Option.isSome_iff_exists.mp h.1.1.1
      exact ⟨nv, pyGetItem_dict hnv⟩
  | none => simp [createReadyTaskB] at h
  | bool b => simp [createReadyTaskB] at h
  | int n => simp [createReadyTaskB] at h
  | str s => simp [createReadyTaskB] at h
  | list l => simp [createReadyTaskB] at h

theorem foldlM_addAgentTools_ok :
    ∀ (as acc : List PyVal), (∀ a ∈ as, createReadyAgentB a = true) →
    (∀ x ∈ acc, ∃ s, x = .str s) →
    ∃ ut, as.foldlM addAgentTools acc = .ok ut ∧ ∀ x ∈ ut, ∃ s, x = .str s := by
  intro as
  induction as with
  | nil => intro acc _ hacc; exact ⟨acc, rfl, hacc⟩
  | cons a as ih =>
      intro acc has hacc
      obtain ⟨acc', hstep, hacc'⟩ :=
        addAgentTools_ok (has a (List.mem_cons_self a as)) hacc
      obtain ⟨ut, hut, hutstr⟩ :=
        ih acc' (fun a' ha' => has a' (List.mem_cons_of_mem _ ha')) hacc'
      refine ⟨ut, ?_, hutstr⟩
      rw [List.foldlM_cons, hstep]
      simpa using hut

theorem create_crewai_code_ok (o : List String → List String) {cfg : PyVal}
    (h : createReadyB cfg = true) : (create_crewai_code o cfg).isOk = true := by
  cases cfg with
  | dict kvs =>
      unfold createReadyB at h
      simp only [Bool.and_eq_true] at h
      obtain ⟨hag, hts⟩ := h
      cases hlag : lookupStr kvs "agents" with
      | none => rw [hlag] at hag; simp at hag
      | some agv =>
          rw [hlag] at hag
          cases agv with
          | list as =>
              cases hlts : lookupStr kvs "tasks" with
              | none => rw [hlts] at hts; simp at hts
              | some tsv =>
                  rw [hlts] at hts
                  cases tsv with
                  | list ts =>
                      have hasReady : ∀ a ∈ as, createReadyAgentB a = true :=
                        List.all_eq_true.mp hag
                      have htsReady : ∀ t ∈ ts, createReadyTaskB t = true :=
                        List.all_eq_true.mp hts
                      obtain ⟨ut, hut, hutstr⟩ :=
                        foldlM_addAgentTools_ok as [] hasReady (by simp)
                      obtain ⟨hd, hhd⟩ := crewaiHeader_ok o hutstr
                      obtain ⟨ablocks, hab⟩ := mapM_ok_of_forall crewaiAgentCode as
                        (fun a ha => crewaiAgentCode_ok (hasReady a ha))
                      obtain ⟨tblocks, htb⟩ := mapM_ok_of_forall crewaiTaskCode ts
                        (fun t ht => crewaiTaskCode_ok (htsReady t ht))
                      obtain ⟨an, han⟩ := mapM_ok_of_forall (fun a => pyGetItem a "name") as
                        (fun a ha => ready_agent_name_ok (hasReady a ha))
                      obtain ⟨tn, htn⟩ := mapM_ok_of_forall (fun t => pyGetItem t "name") ts
                        (fun t ht => ready_task_name_ok (htsReady t ht))
                      simp only [create_crewai_code, pyGetItem_dict hlag,
                        pyGetItem_dict hlts,
                        show pyIter (.list as) = .ok as from rfl,
                        show pyIter (.list ts) = .ok ts from rfl,
                        hut, hhd, hab, htb, han, htn, bind, Except.bind]
                      rfl
                  | str s => simp at hts
                  | none => simp at hts
                  | bool b => simp at hts
                  | int n => simp at hts
                  | dict d => simp at hts
          | str s => simp at hag
          | none => simp at hag
          | bool b => simp at hag
          | int n => simp at hag
          | dict d => simp at hag
  | none => simp [createReadyB] at h
  | bool b => simp [createReadyB] at h
  | int n => simp [createReadyB] at h
  | str s => simp [createReadyB] at h
  | list l => simp [createReadyB] at h

/-- C2 (amended): on every configuration that carries the fields the
flat generator reads — `name`, `role`, `goal`, `backstory`, `verbose`
and `allow_delegation` on each agent (with `tools`, when present and
truthy, a list of strings) and `name`, `description`, `agent` and
`expected_output` on each task — `create_crewai_code` succeeds without
raising, under any set iteration order; in particular it succeeds on
every Validator output that carries those fields. -/
theorem create_crewai_succeeds_on_ready (o : List String → List String)
    {cfg out : PyVal} {ws : List String}
    (hval : validate_crew_config cfg = .ok (out, ws))
    (hready : createReadyB out = true) :
    (create_crewai_code o out).isOk = true :=
  create_crewai_code_ok o hready

/-- Witness for C2 (amended): the Validator maps `cfgTwoEnvTools` to
itself (with one warning), the output is create-ready, and the flat
generator succeeds on it. -/
theorem create_crewai_succeeds_on_ready_witness :
    (create_crewai_code id cfgTwoEnvTools).isOk = true :=
  create_crewai_succeeds_on_ready id
    (show validate_crew_config cfgTwoEnvTools =
      .ok (cfgTwoEnvTools, ["Yapılandırmada task bulunamadı."]) from rfl)
    (by decide)


mutual

/-- Python `==` is reflexive on the modelled values. -/
theorem pyEq_refl : ∀ v, pyEq v v = true
  | .none => rfl
  | .bool b => by cases b <;> rfl
  | .int n => by simp [pyEq, PyVal.toNum?]
  | .str s => by simp [pyEq]
  | .list xs => by simp only [pyEq]; exact pyEqList_refl xs
  | .dict kvs => by simp only [pyEq]; exact pyEqDict_refl kvs
termination_by structural v => v

theorem pyEqList_refl : ∀ l, pyEqList l l = true
  | [] => rfl
  | x :: xs => by
      simp only [pyEqList, Bool.and_eq_true]
      exact ⟨pyEq_refl x, pyEqList_refl xs⟩
termination_by structural l => l

theorem pyEqDict_refl : ∀ kvs, pyEqDict kvs kvs = true
  | [] => rfl
  | (k, v) :: rest => by
      have h1 : lookupStr ((k, v) :: rest) k = some v := by simp [lookupStr]
      have h2 : removeKey ((k, v) :: rest) k = rest := by simp [removeKey]
      simp only [pyEqDict, h1, h2, Bool.and_eq_true]
      exact ⟨pyEq_refl v, pyEqDict_refl rest⟩
termination_by structural l => l

end

theorem strIn_space_false {l : List Char} (h : strIn [' '] l = false) : ' ' ∉ l := by
  induction l with
  | nil => simp
  | cons c rest ih =>
      simp only [strIn, Bool.or_eq_false_iff] at h
      obtain ⟨h1, h2⟩ := h
      intro hmem
      rcases List.mem_cons.mp hmem with hc | hc
      · rw [← hc] at h1
        have hp : ([' '].isPrefixOf (' ' :: rest)) = true := by
          simp [List.isPrefixOf]
        rw [hp] at h1
        exact absurd h1 (by decide)
      · exact ih h2 hc

theorem any_eq_isSome (kvs : List (String × PyVal)) (k : String) :
    (kvs.any fun kv => kv.1 = k) = (lookupStr kvs k).isSome := by
  induction kvs with
  | nil => rfl
  | cons x rest ih =>
      obtain ⟨k1, v1⟩ := x
      by_cases hk : k1 = k
      · subst hk
        simp [lookupStr]
      · simp only [List.any_cons, lookupStr, if_neg hk, ih]
        simp [hk]

theorem lookup_map_self {kvs : List (String × PyVal)} {k : String} {w : PyVal}
    (h : lookupStr kvs k = some w) (v : PyVal) :
    lookupStr (kvs.map fun kv => if kv.1 = k then (k, v) else kv) k = some v := by
  induction kvs with
  | nil => simp [lookupStr] at h
  | cons x rest ih =>
      obtain ⟨k1, v1⟩ := x
      rw [List.map_cons]
      by_cases hk : k1 = k
      · subst hk
        rw [if_pos rfl]
        simp [lookupStr]
      · simp only [lookupStr, if_neg hk] at h
        rw [if_neg hk]
        simp only [lookupStr, if_neg hk]
        exact ih h

theorem lookup_map_ne {k k' : String} (hne : k' ≠ k)
    (kvs : List (String × PyVal)) (v : PyVal) :
    lookupStr (kvs.map fun kv => if kv.1 = k then (k, v) else kv) k' =
      lookupStr kvs k' := by
  induction kvs with
  | nil => rfl
  | cons x rest ih =>
      obtain ⟨k1, v1⟩ := x
      rw [List.map_cons]
      by_cases hk : k1 = k
      · subst hk
        rw [if_pos rfl]
        simp only [lookupStr, if_neg (Ne.symm hne)]
        exact ih
      · rw [if_neg hk]
        by_cases hk' : k1 = k'
        · subst hk'
          simp [lookupStr]
        · simp only [lookupStr, if_neg hk']
          exact ih

theorem lookup_append_self {kvs : List (String × PyVal)} {k : String}
    (h : lookupStr kvs k = Option.none) (v : PyVal) :
    lookupStr (kvs ++ [(k, v)]) k = some v := by
  induction kvs with
  | nil => simp [lookupStr]
  | cons x rest ih =>
      obtain ⟨k1, v1⟩ := x
      by_cases hk : k1 = k
      · simp [lookupStr, hk] at h
      · simp only [lookupStr, if_neg hk] at h
        rw [List.cons_append]
        simp only [lookupStr, if_neg hk]
        exact ih h

theorem lookup_append_ne {k k' : String} (hne : k' ≠ k)
    (kvs : List (String × PyVal)) (v : PyVal) :
    lookupStr (kvs ++ [(k, v)]) k' = lookupStr kvs k' := by
  induction kvs with
  | nil => simp [lookupStr, if_neg (Ne.symm hne)]
  | cons x rest ih =>
      obtain ⟨k1, v1⟩ := x
      rw [List.cons_append]
      by_cases hk' : k1 = k'
      · subst hk'
        simp [lookupStr]
      · simp only [lookupStr, if_neg hk']
        exact ih

theorem pySetItem_dict_ok (kvs : List (String × PyVal)) (k : String) (v : PyVal) :
    ∃ c', pySetItem (.dict kvs) k v = .ok c' := by
  cases hl : lookupStr kvs k <;> simp [pySetItem, hl]

theorem pySetItem_out_dict {c : PyVal} {k : String} {v c' : PyVal}
    (h : pySetItem c k v = .ok c') : ∃ kvs', c' = .dict kvs' := by
  cases c with
  | dict kvs =>
      simp only [pySetItem] at h
      cases hl : lookupStr kvs k <;> rw [hl] at h <;> cases h <;> exact ⟨_, rfl⟩
  | none => cases h
  | bool b => cases h
  | int n => cases h
  | str s => cases h
  | list l => cases h

theorem pySetItem_get_eq {c : PyVal} {k : String} {v c' : PyVal}
    (h : pySetItem c k v = .ok c') : pyGetItem c' k = .ok v := by
  cases c with
  | dict kvs =>
      simp only [pySetItem] at h
      cases hl : lookupStr kvs k with
      | none =>
          rw [hl] at h
          cases h
          simp [pyGetItem, lookup_append_self hl]
      | some w =>
          rw [hl] at h
          cases h
          simp [pyGetItem, lookup_map_self hl]
  | none => cases h
  | bool b => cases h
  | int n => cases h
  | str s => cases h
  | list l => cases h

theorem pySetItem_get_ne {c : PyVal} {k : String} {v c' : PyVal} {k' : String}
    (hne : k' ≠ k) (h : pySetItem c k v = .ok c') :
    pyGetItem c' k' = pyGetItem c k' := by
  cases c with
  | dict kvs =>
      simp only [pySetItem] at h
      cases hl : lookupStr kvs k with
      | none =>
          rw [hl] at h
          cases h
          simp [pyGetItem, lookup_append_ne hne]
      | some w =>
          rw [hl] at h
          cases h
          simp [pyGetItem, lookup_map_ne hne]
  | none => cases h
  | bool b => cases h
  | int n => cases h
  | str s => cases h
  | list l => cases h

theorem pyGetItem_to_dictGet {c : PyVal} {k : String} {v : PyVal}
    (h : pyGetItem c k = .ok v) (d : PyVal) : pyDictGet c k d = .ok v := by
  cases c with
  | dict kvs =>
      simp only [pyGetItem] at h
      cases hl : lookupStr kvs k <;> rw [hl] at h <;> cases h
      simp [pyDictGet, hl]
  | none => cases h
  | bool b => cases h
  | int n => cases h
  | str s => cases h
  | list l => cases h

theorem pyReplaceSpace_free {v v' : PyVal} (h : pyReplaceSpace v = .ok v') :
    ∀ s, v' = .str s → ' ' ∉ s.data := by
  cases v with
  | str s0 =>
      simp only [pyReplaceSpace] at h
      cases h
      intro s hs
      cases hs
      intro hmem
      simp only [String.data] at hmem
      obtain ⟨c0, _, hc0⟩ := List.mem_map.mp hmem
      by_cases hc : c0 = ' '
      · rw [if_pos hc] at hc0; exact absurd hc0 (by decide)
      · rw [if_neg hc] at hc0; exact hc hc0
  | none => cases h
  | bool b => cases h
  | int n => cases h
  | list l => cases h
  | dict d => cases h



theorem pyDictGet_cases {c : PyVal} {k : String} {d v : PyVal}
    (h : pyDictGet c k d = .ok v) : pyGetItem c k = .ok v ∨ v = d := by
  cases c with
  | dict kvs =>
      simp only [pyDictGet] at h
      cases hl : lookupStr kvs k with
      | none => rw [hl] at h; cases h; exact Or.inr rfl
      | some w => rw [hl] at h; cases h; exact Or.inl (by simp [pyGetItem, hl])
  | none => cases h
  | bool b => cases h
  | int n => cases h
  | str s => cases h
  | list l => cases h

theorem set_tools_name {ag tv a3 nv : PyVal}
    (hset : pySetItem ag "tools" tv = .ok a3)
    (hn : pyGetItem ag "name" = .ok nv) : pyGetItem a3 "name" = .ok nv := by
  rw [pySetItem_get_ne (by decide) hset]
  exact hn

theorem contains_space_false_free {nv : PyVal}
    (hsp : pyContains nv (.str " ") = .ok false) :
    ∀ s, nv = .str s → ' ' ∉ s.data := by
  intro s hs
  subst hs
  simp only [pyContains, Except.ok.injEq] at hsp
  exact strIn_space_false hsp

theorem mapM_name_head {a0 nv0 : PyVal} {as1 names : List PyVal}
    (hnv0 : pyGetItem a0 "name" = .ok nv0)
    (hmapM : (a0 :: as1).mapM (fun a => pyGetItem a "name") = .ok names) :
    ∃ ns, names = nv0 :: ns := by
  rw [List.mapM_cons, hnv0] at hmapM
  simp only [bind, Except.bind, pure, Except.pure] at hmapM
  cases hrest : List.mapM (fun a => pyGetItem a "name") as1 with
  | error e => simp only [hrest] at hmapM; cases hmapM
  | ok ns =>
      simp only [hrest] at hmapM
      cases hmapM
      exact ⟨ns, rfl⟩

theorem processAgent_name {a a' : PyVal} {w : List String}
    (h : processAgent a = .ok (a', w)) :
    ∃ nv, pyGetItem a' "name" = .ok nv ∧ ∀ s, nv = .str s → ' ' ∉ s.data := by
  simp only [processAgent, bind, Except.bind, pure, Except.pure] at h
  cases hc1 : pyContains a (.str "name") with
  | error e => simp only [hc1] at h; cases h
  | ok hasName =>
    simp only [hc1] at h
    cases hasName with
    | true =>
      rw [if_pos (rfl : true = true)] at h
      cases hn : pyGetItem a "name" with
      | error e => simp only [hn] at h; cases h
      | ok nameV =>
        simp only [hn] at h
        cases hsp : pyContains nameV (.str " ") with
        | error e => simp only [hsp] at h; cases h
        | ok hasSpace =>
          simp only [hsp] at h
          cases hasSpace with
          | true =>
            rw [if_pos (rfl : true = true)] at h
            cases hrp : pyReplaceSpace nameV with
            | error e => simp only [hrp] at h; cases h
            | ok newName =>
              simp only [hrp] at h
              cases hst : pySetItem a "name" newName with
              | error e => simp only [hst] at h; cases h
              | ok a2 =>
                simp only [hst] at h
                have KN : pyGetItem a2 "name" = .ok newName := pySetItem_get_eq hst
                have KF : ∀ s, newName = .str s → ' ' ∉ s.data := pyReplaceSpace_free hrp
                cases htl : pyContains a2 (.str "tools") with
                | error e => simp only [htl] at h; cases h
                | ok hasTools =>
                  simp only [htl] at h
                  cases hasTools with
                  | false =>
                    rw [if_neg (by decide : ¬false = true)] at h
                    cases hs4 : pySetItem a2 "tools" (.list []) with
                    | error e => simp only [hs4] at h; cases h
                    | ok a3 =>
                      simp only [hs4] at h
                      cases hg4 : pyGetItem a3 "name" with
                      | error e => simp only [hg4] at h; cases h
                      | ok nm2 =>
                        simp only [hg4] at h
                        cases h
                        exact ⟨newName, set_tools_name hs4 KN, KF⟩
                  | true =>
                    rw [if_pos (rfl : true = true)] at h
                    cases hgt : pyGetItem a2 "tools" with
                    | error e => simp only [hgt] at h; cases h
                    | ok tv =>
                      simp only [hgt] at h
                      cases htt : tv.truthy with
                      | false =>
                        rw [htt] at h
                        rw [if_pos (by decide : (!false) = true)] at h
                        cases hs4 : pySetItem a2 "tools" (.list []) with
                        | error e => simp only [hs4] at h; cases h
                        | ok a3 =>
                          simp only [hs4] at h
                          cases hg4 : pyGetItem a3 "name" with
                          | error e => simp only [hg4] at h; cases h
                          | ok nm2 =>
                            simp only [hg4] at h
                            cases h
                            exact ⟨newName, set_tools_name hs4 KN, KF⟩
                      | true =>
                        rw [htt] at h
                        rw [if_neg (by decide : ¬(!true) = true)] at h
                        cases hit : pyIter tv with
                        | error e => simp only [hit] at h; cases h
                        | ok items =>
                          simp only [hit] at h
                          try simp only [KN] at h
                          cases hvt : validateAgentTools (pyToStr newName) items with
                          | error e => simp only [hvt] at h; cases h
                          | ok pr3 =>
                            obtain ⟨valid, ws3⟩ := pr3
                            simp only [hvt] at h
                            cases hs5 : pySetItem a2 "tools" (.list valid) with
                            | error e => simp only [hs5] at h; cases h
                            | ok a4 =>
                              simp only [hs5] at h
                              cases h
                              exact ⟨newName, set_tools_name hs5 KN, KF⟩
          | false =>
            rw [if_neg (by decide : ¬false = true)] at h
            have KN : pyGetItem a "name" = .ok nameV := hn
            have KF : ∀ s, nameV = .str s → ' ' ∉ s.data := contains_space_false_free hsp
            cases htl : pyContains a (.str "tools") with
            | error e => simp only [htl] at h; cases h
            | ok hasTools =>
              simp only [htl] at h
              cases hasTools with
              | false =>
                rw [if_neg (by decide : ¬false = true)] at h
                cases hs4 : pySetItem a "tools" (.list []) with
                | error e => simp only [hs4] at h; cases h
                | ok a3 =>
                  simp only [hs4] at h
                  cases hg4 : pyGetItem a3 "name" with
                  | error e => simp only [hg4] at h; cases h
                  | ok nm2 =>
                    simp only [hg4] at h
                    cases h
                    exact ⟨nameV, set_tools_name hs4 KN, KF⟩
              | true =>
                rw [if_pos (rfl : true = true)] at h
                cases hgt : pyGetItem a "tools" with
                | error e => simp only [hgt] at h; cases h
                | ok tv =>
                  simp only [hgt] at h
                  cases htt : tv.truthy with
                  | false =>
                    rw [htt] at h
                    rw [if_pos (by decide : (!false) = true)] at h
                    cases hs4 : pySetItem a "tools" (.list []) with
                    | error e => simp only [hs4] at h; cases h
                    | ok a3 =>
                      simp only [hs4] at h
                      cases hg4 : pyGetItem a3 "name" with
                      | error e => simp only [hg4] at h; cases h
                      | ok nm2 =>
                        simp only [hg4] at h
                        cases h
                        exact ⟨nameV, set_tools_name hs4 KN, KF⟩
                  | true =>
                    rw [htt] at h
                    rw [if_neg (by decide : ¬(!true) = true)] at h
                    cases hit : pyIter tv with
                    | error e => simp only [hit] at h; cases h
                    | ok items =>
                      simp only [hit] at h
                      try simp only [KN] at h
                      cases hvt : validateAgentTools (pyToStr nameV) items with
                      | error e => simp only [hvt] at h; cases h
                      | ok pr3 =>
                        obtain ⟨valid, ws3⟩ := pr3
                        simp only [hvt] at h
                        cases hs5 : pySetItem a "tools" (.list valid) with
                        | error e => simp only [hs5] at h; cases h
                        | ok a4 =>
                          simp only [hs5] at h
                          cases h
                          exact ⟨nameV, set_tools_name hs5 KN, KF⟩
    | false =>
      rw [if_neg (by decide : ¬false = true)] at h
      cases hsu : pySetItem a "name" (.str "unnamed_agent") with
      | error e => simp only [hsu] at h; cases h
      | ok a1 =>
        simp only [hsu] at h
        cases hnm : pyGetItem a1 "name" with
        | error e => simp only [hnm] at h; cases h
        | ok nameV =>
          simp only [hnm] at h
          cases hsp : pyContains nameV (.str " ") with
          | error e => simp only [hsp] at h; cases h
          | ok hasSpace =>
            simp only [hsp] at h
            cases hasSpace with
            | true =>
              rw [if_pos (rfl : true = true)] at h
              cases hrp : pyReplaceSpace nameV with
              | error e => simp only [hrp] at h; cases h
              | ok newName =>
                simp only [hrp] at h
                cases hst : pySetItem a1 "name" newName with
                | error e => simp only [hst] at h; cases h
                | ok a2 =>
                  simp only [hst] at h
                  have KN : pyGetItem a2 "name" = .ok newName := pySetItem_get_eq hst
                  have KF : ∀ s, newName = .str s → ' ' ∉ s.data := pyReplaceSpace_free hrp
                  cases htl : pyContains a2 (.str "tools") with
                  | error e => simp only [htl] at h; cases h
                  | ok hasTools =>
                    simp only [htl] at h
                    cases hasTools with
                    | false =>
                      rw [if_neg (by decide : ¬false = true)] at h
                      cases hs4 : pySetItem a2 "tools" (.list []) with
                      | error e => simp only [hs4] at h; cases h
                      | ok a3 =>
                        simp only [hs4] at h
                        cases hg4 : pyGetItem a3 "name" with
                        | error e => simp only [hg4] at h; cases h
                        | ok nm2 =>
                          simp only [hg4] at h
                          cases h
                          exact ⟨newName, set_tools_name hs4 KN, KF⟩
                    | true =>
                      rw [if_pos (rfl : true = true)] at h
                      cases hgt : pyGetItem a2 "tools" with
                      | error e => simp only [hgt] at h; cases h
                      | ok tv =>
                        simp only [hgt] at h
                        cases htt : tv.truthy with
                        | false =>
                          rw [htt] at h
                          rw [if_pos (by decide : (!false) = true)] at h
                          cases hs4 : pySetItem a2 "tools" (.list []) with
                          | error e => simp only [hs4] at h; cases h
                          | ok a3 =>
                            simp only [hs4] at h
                            cases hg4 : pyGetItem a3 "name" with
                            | error e => simp only [hg4] at h; cases h
                            | ok nm2 =>
                              simp only [hg4] at h
                              cases h
                              exact ⟨newName, set_tools_name hs4 KN, KF⟩
                        | true =>
                          rw [htt] at h
                          rw [if_neg (by decide : ¬(!true) = true)] at h
                          cases hit : pyIter tv with
                          | error e => simp only [hit] at h; cases h
                          | ok items =>
                            simp only [hit] at h
                            try simp only [KN] at h
                            cases hvt : validateAgentTools (pyToStr newName) items with
                            | error e => simp only [hvt] at h; cases h
                            | ok pr3 =>
                              obtain ⟨valid, ws3⟩ := pr3
                              simp only [hvt] at h
                              cases hs5 : pySetItem a2 "tools" (.list valid) with
                              | error e => simp only [hs5] at h; cases h
                              | ok a4 =>
                                simp only [hs5] at h
                                cases h
                                exact ⟨newName, set_tools_name hs5 KN, KF⟩
            | false =>
              rw [if_neg (by decide : ¬false = true)] at h
              have KN : pyGetItem a1 "name" = .ok nameV := hnm
              have KF : ∀ s, nameV = .str s → ' ' ∉ s.data := contains_space_false_free hsp
              cases htl : pyContains a1 (.str "tools") with
              | error e => simp only [htl] at h; cases h
              | ok hasTools =>
                simp only [htl] at h
                cases hasTools with
                | false =>
                  rw [if_neg (by decide : ¬false = true)] at h
                  cases hs4 : pySetItem a1 "tools" (.list []) with
                  | error e => simp only [hs4] at h; cases h
                  | ok a3 =>
                    simp only [hs4] at h
                    cases hg4 : pyGetItem a3 "name" with
                    | error e => simp only [hg4] at h; cases h
                    | ok nm2 =>
                      simp only [hg4] at h
                      cases h
                      exact ⟨nameV, set_tools_name hs4 KN, KF⟩
                | true =>
                  rw [if_pos (rfl : true = true)] at h
                  cases hgt : pyGetItem a1 "tools" with
                  | error e => simp only [hgt] at h; cases h
                  | ok tv =>
                    simp only [hgt] at h
                    cases htt : tv.truthy with
                    | false =>
                      rw [htt] at h
                      rw [if_pos (by decide : (!false) = true)] at h
                      cases hs4 : pySetItem a1 "tools" (.list []) with
                      | error e => simp only [hs4] at h; cases h
                      | ok a3 =>
                        simp only [hs4] at h
                        cases hg4 : pyGetItem a3 "name" with
                        | error e => simp only [hg4] at h; cases h
                        | ok nm2 =>
                          simp only [hg4] at h
                          cases h
                          exact ⟨nameV, set_tools_name hs4 KN, KF⟩
                    | true =>
                      rw [htt] at h
                      rw [if_neg (by decide : ¬(!true) = true)] at h
                      cases hit : pyIter tv with
                      | error e => simp only [hit] at h; cases h
                      | ok items =>
                        simp only [hit] at h
                        try simp only [KN] at h
                        cases hvt : validateAgentTools (pyToStr nameV) items with
                        | error e => simp only [hvt] at h; cases h
                        | ok pr3 =>
                          obtain ⟨valid, ws3⟩ := pr3
                          simp only [hvt] at h
                          cases hs5 : pySetItem a1 "tools" (.list valid) with
                          | error e => simp only [hs5] at h; cases h
                          | ok a4 =>
                            simp only [hs5] at h
                            cases h
                            exact ⟨nameV, set_tools_name hs5 KN, KF⟩

theorem processTask_name {cfg t t' : PyVal} {w : List String}
    (h : processTask cfg t = .ok (t', w)) :
    ∃ nv, pyGetItem t' "name" = .ok nv ∧ ∀ s, nv = .str s → ' ' ∉ s.data := by
  simp only [processTask, bind, Except.bind, pure, Except.pure] at h
  cases hc1 : pyContains t (.str "name") with
  | error e => simp only [hc1] at h; cases h
  | ok hasName =>
    simp only [hc1] at h
    cases hasName with
    | true =>
      rw [if_pos (rfl : true = true)] at h
      cases hn : pyGetItem t "name" with
      | error e => simp only [hn] at h; cases h
      | ok nameV =>
        simp only [hn] at h
        cases hsp : pyContains nameV (.str " ") with
        | error e => simp only [hsp] at h; cases h
        | ok hasSpace =>
          simp only [hsp] at h
          cases hasSpace with
          | true =>
            rw [if_pos (rfl : true = true)] at h
            cases hrp : pyReplaceSpace nameV with
            | error e => simp only [hrp] at h; cases h
            | ok newName =>
              simp only [hrp] at h
              cases hst : pySetItem t "name" newName with
              | error e => simp only [hst] at h; cases h
              | ok a2 =>
                simp only [hst] at h
                have KN : pyGetItem a2 "name" = .ok newName := pySetItem_get_eq hst
                have KF : ∀ s, newName = .str s → ' ' ∉ s.data := pyReplaceSpace_free hrp
                cases hha : pyContains a2 (.str "agent") with
                | error e => simp only [hha] at h; cases h
                | ok hasAgent =>
                  simp only [hha] at h
                  cases hasAgent with
                  | true =>
                    rw [if_pos (rfl : true = true)] at h
                    cases hdg : pyDictGet cfg "agents" (.list []) with
                    | error e => simp only [hdg] at h; cases h
                    | ok agentsV =>
                      simp only [hdg] at h
                      cases hitA : pyIter agentsV with
                      | error e => simp only [hitA] at h; cases h
                      | ok items =>
                        simp only [hitA] at h
                        cases hmm2 : List.mapM (fun a => pyGetItem a "name") items with
                        | error e => simp only [hmm2] at h; cases h
                        | ok names =>
                          simp only [hmm2] at h
                          cases htv : pyGetItem a2 "agent" with
                          | error e => simp only [htv] at h; cases h
                          | ok tv =>
                            simp only [htv] at h
                            cases hpc : pyContains (.list names) tv with
                            | error e => simp only [hpc] at h; cases h
                            | ok mem =>
                              simp only [hpc] at h
                              cases mem with
                              | true =>
                                rw [if_pos (rfl : true = true)] at h
                                cases h
                                exact ⟨newName, KN, KF⟩
                              | false =>
                                rw [if_neg (by decide : ¬false = true)] at h
                                cases names with
                                | nil =>
                                  try simp only [KN] at h
                                  cases h
                                  exact ⟨newName, KN, KF⟩
                                | cons n ns =>
                                  cases hsa : pySetItem a2 "agent" n with
                                  | error e => simp only [hsa] at h; cases h
                                  | ok t3 =>
                                    simp only [hsa] at h
                                    cases hg3 : pyGetItem t3 "name" with
                                    | error e => simp only [hg3] at h; cases h
                                    | ok tn =>
                                      simp only [hg3] at h
                                      simp only [pySetItem_get_eq hsa] at h
                                      cases h
                                      refine ⟨newName, ?_, KF⟩
                                      rw [pySetItem_get_ne (by decide) hsa]
                                      exact KN
                  | false =>
                    rw [if_neg (by decide : ¬false = true)] at h
                    cases hdg : pyDictGet cfg "agents" PyVal.none with
                    | error e => simp only [hdg] at h; cases h
                    | ok agentsV =>
                      simp only [hdg] at h
                      cases htr : agentsV.truthy with
                      | false =>
                        rw [htr] at h
                        rw [if_neg (by decide : ¬false = true)] at h
                        try simp only [KN] at h
                        cases h
                        exact ⟨newName, KN, KF⟩
                      | true =>
                        rw [htr] at h
                        rw [if_pos (rfl : true = true)] at h
                        cases hgl : pyGetItem cfg "agents" with
                        | error e => simp only [hgl] at h; cases h
                        | ok agentsList =>
                          simp only [hgl] at h
                          cases hix : pyIndex0 agentsList with
                          | error e => simp only [hix] at h; cases h
                          | ok first =>
                            simp only [hix] at h
                            cases hnm0 : pyGetItem first "name" with
                            | error e => simp only [hnm0] at h; cases h
                            | ok nm0 =>
                              simp only [hnm0] at h
                              cases hsa : pySetItem a2 "agent" nm0 with
                              | error e => simp only [hsa] at h; cases h
                              | ok t3 =>
                                simp only [hsa] at h
                                cases hg3 : pyGetItem t3 "name" with
                                | error e => simp only [hg3] at h; cases h
                                | ok tn =>
                                  simp only [hg3] at h
                                  simp only [pySetItem_get_eq hsa] at h
                                  cases h
                                  refine ⟨newName, ?_, KF⟩
                                  rw [pySetItem_get_ne (by decide) hsa]
                                  exact KN
          | false =>
            rw [if_neg (by decide : ¬false = true)] at h
            have KN : pyGetItem t "name" = .ok nameV := hn
            have KF : ∀ s, nameV = .str s → ' ' ∉ s.data := contains_space_false_free hsp
            cases hha : pyContains t (.str "agent") with
            | error e => simp only [hha] at h; cases h
            | ok hasAgent =>
              simp only [hha] at h
              cases hasAgent with
              | true =>
                rw [if_pos (rfl : true = true)] at h
                cases hdg : pyDictGet cfg "agents" (.list []) with
                | error e => simp only [hdg] at h; cases h
                | ok agentsV =>
                  simp only [hdg] at h
                  cases hitA : pyIter agentsV with
                  | error e => simp only [hitA] at h; cases h
                  | ok items =>
                    simp only [hitA] at h
                    cases hmm2 : List.mapM (fun a => pyGetItem a "name") items with
                    | error e => simp only [hmm2] at h; cases h
                    | ok names =>
                      simp only [hmm2] at h
                      cases htv : pyGetItem t "agent" with
                      | error e => simp only [htv] at h; cases h
                      | ok tv =>
                        simp only [htv] at h
                        cases hpc : pyContains (.list names) tv with
                        | error e => simp only [hpc] at h; cases h
                        | ok mem =>
                          simp only [hpc] at h
                          cases mem with
                          | true =>
                            rw [if_pos (rfl : true = true)] at h
                            cases h
                            exact ⟨nameV, KN, KF⟩
                          | false =>
                            rw [if_neg (by decide : ¬false = true)] at h
                            cases names with
                            | nil =>
                              try simp only [KN] at h
                              cases h
                              exact ⟨nameV, KN, KF⟩
                            | cons n ns =>
                              cases hsa : pySetItem t "agent" n with
                              | error e => simp only [hsa] at h; cases h
                              | ok t3 =>
                                simp only [hsa] at h
                                cases hg3 : pyGetItem t3 "name" with
                                | error e => simp only [hg3] at h; cases h
                                | ok tn =>
                                  simp only [hg3] at h
                                  simp only [pySetItem_get_eq hsa] at h
                                  cases h
                                  refine ⟨nameV, ?_, KF⟩
                                  rw [pySetItem_get_ne (by decide) hsa]
                                  exact KN
              | false =>
                rw [if_neg (by decide : ¬false = true)] at h
                cases hdg : pyDictGet cfg "agents" PyVal.none with
                | error e => simp only [hdg] at h; cases h
                | ok agentsV =>
                  simp only [hdg] at h
                  cases htr : agentsV.truthy with
                  | false =>
                    rw [htr] at h
                    rw [if_neg (by decide : ¬false = true)] at h
                    try simp only [KN] at h
                    cases h
                    exact ⟨nameV, KN, KF⟩
                  | true =>
                    rw [htr] at h
                    rw [if_pos (rfl : true = true)] at h
                    cases hgl : pyGetItem cfg "agents" with
                    | error e => simp only [hgl] at h; cases h
                    | ok agentsList =>
                      simp only [hgl] at h
                      cases hix : pyIndex0 agentsList with
                      | error e => simp only [hix] at h; cases h
                      | ok first =>
                        simp only [hix] at h
                        cases hnm0 : pyGetItem first "name" with
                        | error e => simp only [hnm0] at h; cases h
                        | ok nm0 =>
                          simp only [hnm0] at h
                          cases hsa : pySetItem t "agent" nm0 with
                          | error e => simp only [hsa] at h; cases h
                          | ok t3 =>
                            simp only [hsa] at h
                            cases hg3 : pyGetItem t3 "name" with
                            | error e => simp only [hg3] at h; cases h
                            | ok tn =>
                              simp only [hg3] at h
                              simp only [pySetItem_get_eq hsa] at h
                              cases h
                              refine ⟨nameV, ?_, KF⟩
                              rw [pySetItem_get_ne (by decide) hsa]
                              exact KN
    | false =>
      rw [if_neg (by decide : ¬false = true)] at h
      cases hsu : pySetItem t "name" (.str "unnamed_task") with
      | error e => simp only [hsu] at h; cases h
      | ok a1 =>
        simp only [hsu] at h
        cases hnm : pyGetItem a1 "name" with
        | error e => simp only [hnm] at h; cases h
        | ok nameV =>
          simp only [hnm] at h
          cases hsp : pyContains nameV (.str " ") with
          | error e => simp only [hsp] at h; cases h
          | ok hasSpace =>
            simp only [hsp] at h
            cases hasSpace with
            | true =>
              rw [if_pos (rfl : true = true)] at h
              cases hrp : pyReplaceSpace nameV with
              | error e => simp only [hrp] at h; cases h
              | ok newName =>
                simp only [hrp] at h
                cases hst : pySetItem a1 "name" newName with
                | error e => simp only [hst] at h; cases h
                | ok a2 =>
                  simp only [hst] at h
                  have KN : pyGetItem a2 "name" = .ok newName := pySetItem_get_eq hst
                  have KF : ∀ s, newName = .str s → ' ' ∉ s.data := pyReplaceSpace_free hrp
                  cases hha : pyContains a2 (.str "agent") with
                  | error e => simp only [hha] at h; cases h
                  | ok hasAgent =>
                    simp only [hha] at h
                    cases hasAgent with
                    | true =>
                      rw [if_pos (rfl : true = true)] at h
                      cases hdg : pyDictGet cfg "agents" (.list []) with
                      | error e => simp only [hdg] at h; cases h
                      | ok agentsV =>
                        simp only [hdg] at h
                        cases hitA : pyIter agentsV with
                        | error e => simp only [hitA] at h; cases h
                        | ok items =>
                          simp only [hitA] at h
                          cases hmm2 : List.mapM (fun a => pyGetItem a "name") items with
                          | error e => simp only [hmm2] at h; cases h
                          | ok names =>
                            simp only [hmm2] at h
                            cases htv : pyGetItem a2 "agent" with
                            | error e => simp only [htv] at h; cases h
                            | ok tv =>
                              simp only [htv] at h
                              cases hpc : pyContains (.list names) tv with
                              | error e => simp only [hpc] at h; cases h
                              | ok mem =>
                                simp only [hpc] at h
                                cases mem with
                                | true =>
                                  rw [if_pos (rfl : true = true)] at h
                                  cases h
                                  exact ⟨newName, KN, KF⟩
                                | false =>
                                  rw [if_neg (by decide : ¬false = true)] at h
                                  cases names with
                                  | nil =>
                                    try simp only [KN] at h
                                    cases h
                                    exact ⟨newName, KN, KF⟩
                                  | cons n ns =>
                                    cases hsa : pySetItem a2 "agent" n with
                                    | error e => simp only [hsa] at h; cases h
                                    | ok t3 =>
                                      simp only [hsa] at h
                                      cases hg3 : pyGetItem t3 "name" with
                                      | error e => simp only [hg3] at h; cases h
                                      | ok tn =>
                                        simp only [hg3] at h
                                        simp only [pySetItem_get_eq hsa] at h
                                        cases h
                                        refine ⟨newName, ?_, KF⟩
                                        rw [pySetItem_get_ne (by decide) hsa]
                                        exact KN
                    | false =>
                      rw [if_neg (by decide : ¬false = true)] at h
                      cases hdg : pyDictGet cfg "agents" PyVal.none with
                      | error e => simp only [hdg] at h; cases h
                      | ok agentsV =>
                        simp only [hdg] at h
                        cases htr : agentsV.truthy with
                        | false =>
                          rw [htr] at h
                          rw [if_neg (by decide : ¬false = true)] at h
                          try simp only [KN] at h
                          cases h
                          exact ⟨newName, KN, KF⟩
                        | true =>
                          rw [htr] at h
                          rw [if_pos (rfl : true = true)] at h
                          cases hgl : pyGetItem cfg "agents" with
                          | error e => simp only [hgl] at h; cases h
                          | ok agentsList =>
                            simp only [hgl] at h
                            cases hix : pyIndex0 agentsList with
                            | error e => simp only [hix] at h; cases h
                            | ok first =>
                              simp only [hix] at h
                              cases hnm0 : pyGetItem first "name" with
                              | error e => simp only [hnm0] at h; cases h
                              | ok nm0 =>
                                simp only [hnm0] at h
                                cases hsa : pySetItem a2 "agent" nm0 with
                                | error e => simp only [hsa] at h; cases h
                                | ok t3 =>
                                  simp only [hsa] at h
                                  cases hg3 : pyGetItem t3 "name" with
                                  | error e => simp only [hg3] at h; cases h
                                  | ok tn =>
                                    simp only [hg3] at h
                                    simp only [pySetItem_get_eq hsa] at h
                                    cases h
                                    refine ⟨newName, ?_, KF⟩
                                    rw [pySetItem_get_ne (by decide) hsa]
                                    exact KN
            | false =>
              rw [if_neg (by decide : ¬false = true)] at h
              have KN : pyGetItem a1 "name" = .ok nameV := hnm
              have KF : ∀ s, nameV = .str s → ' ' ∉ s.data := contains_space_false_free hsp
              cases hha : pyContains a1 (.str "agent") with
              | error e => simp only [hha] at h; cases h
              | ok hasAgent =>
                simp only [hha] at h
                cases hasAgent with
                | true =>
                  rw [if_pos (rfl : true = true)] at h
                  cases hdg : pyDictGet cfg "agents" (.list []) with
                  | error e => simp only [hdg] at h; cases h
                  | ok agentsV =>
                    simp only [hdg] at h
                    cases hitA : pyIter agentsV with
                    | error e => simp only [hitA] at h; cases h
                    | ok items =>
                      simp only [hitA] at h
                      cases hmm2 : List.mapM (fun a => pyGetItem a "name") items with
                      | error e => simp only [hmm2] at h; cases h
                      | ok names =>
                        simp only [hmm2] at h
                        cases htv : pyGetItem a1 "agent" with
                        | error e => simp only [htv] at h; cases h
                        | ok tv =>
                          simp only [htv] at h
                          cases hpc : pyContains (.list names) tv with
                          | error e => simp only [hpc] at h; cases h
                          | ok mem =>
                            simp only [hpc] at h
                            cases mem with
                            | true =>
                              rw [if_pos (rfl : true = true)] at h
                              cases h
                              exact ⟨nameV, KN, KF⟩
                            | false =>
                              rw [if_neg (by decide : ¬false = true)] at h
                              cases names with
                              | nil =>
                                try simp only [KN] at h
                                cases h
                                exact ⟨nameV, KN, KF⟩
                              | cons n ns =>
                                cases hsa : pySetItem a1 "agent" n with
                                | error e => simp only [hsa] at h; cases h
                                | ok t3 =>
                                  simp only [hsa] at h
                                  cases hg3 : pyGetItem t3 "name" with
                                  | error e => simp only [hg3] at h; cases h
                                  | ok tn =>
                                    simp only [hg3] at h
                                    simp only [pySetItem_get_eq hsa] at h
                                    cases h
                                    refine ⟨nameV, ?_, KF⟩
                                    rw [pySetItem_get_ne (by decide) hsa]
                                    exact KN
                | false =>
                  rw [if_neg (by decide : ¬false = true)] at h
                  cases hdg : pyDictGet cfg "agents" PyVal.none with
                  | error e => simp only [hdg] at h; cases h
                  | ok agentsV =>
                    simp only [hdg] at h
                    cases htr : agentsV.truthy with
                    | false =>
                      rw [htr] at h
                      rw [if_neg (by decide : ¬false = true)] at h
                      try simp only [KN] at h
                      cases h
                      exact ⟨nameV, KN, KF⟩
                    | true =>
                      rw [htr] at h
                      rw [if_pos (rfl : true = true)] at h
                      cases hgl : pyGetItem cfg "agents" with
                      | error e => simp only [hgl] at h; cases h
                      | ok agentsList =>
                        simp only [hgl] at h
                        cases hix : pyIndex0 agentsList with
                        | error e => simp only [hix] at h; cases h
                        | ok first =>
                          simp only [hix] at h
                          cases hnm0 : pyGetItem first "name" with
                          | error e => simp only [hnm0] at h; cases h
                          | ok nm0 =>
                            simp only [hnm0] at h
                            cases hsa : pySetItem a1 "agent" nm0 with
                            | error e => simp only [hsa] at h; cases h
                            | ok t3 =>
                              simp only [hsa] at h
                              cases hg3 : pyGetItem t3 "name" with
                              | error e => simp only [hg3] at h; cases h
                              | ok tn =>
                                simp only [hg3] at h
                                simp only [pySetItem_get_eq hsa] at h
                                cases h
                                refine ⟨nameV, ?_, KF⟩
                                rw [pySetItem_get_ne (by decide) hsa]
                                exact KN

theorem processTask_agent {cfg t t' : PyVal} {w : List String} {a0 : PyVal}
    {as1 : List PyVal}
    (hag : pyGetItem cfg "agents" = .ok (.list (a0 :: as1)))
    (hnames : ∀ a ∈ a0 :: as1, ∃ nv, pyGetItem a "name" = .ok nv)
    (h : processTask cfg t = .ok (t', w)) :
    ∃ tv names, pyGetItem t' "agent" = .ok tv ∧
      (a0 :: as1).mapM (fun a => pyGetItem a "name") = .ok names ∧
      names.any (fun n => pyEq n tv) = true := by
  simp only [processTask, bind, Except.bind, pure, Except.pure] at h
  cases hc1 : pyContains t (.str "name") with
  | error e => simp only [hc1] at h; cases h
  | ok hasName =>
    simp only [hc1] at h
    cases hasName with
    | true =>
      rw [if_pos (rfl : true = true)] at h
      cases hn : pyGetItem t "name" with
      | error e => simp only [hn] at h; cases h
      | ok nameV =>
        simp only [hn] at h
        cases hsp : pyContains nameV (.str " ") with
        | error e => simp only [hsp] at h; cases h
        | ok hasSpace =>
          simp only [hsp] at h
          cases hasSpace with
          | true =>
            rw [if_pos (rfl : true = true)] at h
            cases hrp : pyReplaceSpace nameV with
            | error e => simp only [hrp] at h; cases h
            | ok newName =>
              simp only [hrp] at h
              cases hst : pySetItem t "name" newName with
              | error e => simp only [hst] at h; cases h
              | ok a2 =>
                simp only [hst] at h
                cases hha : pyContains a2 (.str "agent") with
                | error e => simp only [hha] at h; cases h
                | ok hasAgent =>
                  simp only [hha] at h
                  cases hasAgent with
                  | true =>
                    rw [if_pos (rfl : true = true)] at h
                    simp only [pyGetItem_to_dictGet hag (PyVal.list []),
                      show pyIter (PyVal.list (a0 :: as1)) = Except.ok (a0 :: as1) from rfl] at h
                    obtain ⟨names, hmapM⟩ :=
                      mapM_ok_of_forall (fun a => pyGetItem a "name") (a0 :: as1) hnames
                    simp only [hmapM] at h
                    cases htv : pyGetItem a2 "agent" with
                    | error e => simp only [htv] at h; cases h
                    | ok tv =>
                      simp only [htv] at h
                      simp only [show pyContains (.list names) tv =
                        Except.ok (names.any fun x => pyEq x tv) from rfl] at h
                      by_cases hmem : (names.any fun x => pyEq x tv) = true
                      · rw [hmem, if_pos (rfl : true = true)] at h
                        cases h
                        exact ⟨tv, names, htv, hmapM, hmem⟩
                      · rw [Bool.eq_false_iff.mpr hmem] at h
                        rw [if_neg (by decide : ¬false = true)] at h
                        obtain ⟨nv0, hnv0⟩ := hnames a0 (List.mem_cons_self a0 as1)
                        obtain ⟨ns, hns⟩ := mapM_name_head hnv0 hmapM
                        subst hns
                        cases hsa : pySetItem a2 "agent" nv0 with
                        | error e => simp only [hsa] at h; cases h
                        | ok t3 =>
                          simp only [hsa] at h
                          cases hg3 : pyGetItem t3 "name" with
                          | error e => simp only [hg3] at h; cases h
                          | ok tn =>
                            simp only [hg3] at h
                            simp only [pySetItem_get_eq hsa] at h
                            cases h
                            refine ⟨nv0, nv0 :: ns, pySetItem_get_eq hsa, hmapM, ?_⟩
                            simp [List.any_cons, pyEq_refl]
                  | false =>
                    rw [if_neg (by decide : ¬false = true)] at h
                    simp only [pyGetItem_to_dictGet hag PyVal.none] at h
                    rw [show (PyVal.list (a0 :: as1)).truthy = true from rfl] at h
                    rw [if_pos (rfl : true = true)] at h
                    simp only [hag,
                      show pyIndex0 (PyVal.list (a0 :: as1)) = Except.ok a0 from rfl] at h
                    obtain ⟨nv0, hnv0⟩ := hnames a0 (List.mem_cons_self a0 as1)
                    simp only [hnv0] at h
                    cases hsa : pySetItem a2 "agent" nv0 with
                    | error e => simp only [hsa] at h; cases h
                    | ok t3 =>
                      simp only [hsa] at h
                      cases hg3 : pyGetItem t3 "name" with
                      | error e => simp only [hg3] at h; cases h
                      | ok tn =>
                        simp only [hg3] at h
                        simp only [pySetItem_get_eq hsa] at h
                        cases h
                        obtain ⟨names, hmapM⟩ :=
                          mapM_ok_of_forall (fun a => pyGetItem a "name") (a0 :: as1) hnames
                        obtain ⟨ns, hns⟩ := mapM_name_head hnv0 hmapM
                        refine ⟨nv0, names, pySetItem_get_eq hsa, hmapM, ?_⟩
                        subst hns
                        simp [List.any_cons, pyEq_refl]
          | false =>
            rw [if_neg (by decide : ¬false = true)] at h
            cases hha : pyContains t (.str "agent") with
            | error e => simp only [hha] at h; cases h
            | ok hasAgent =>
              simp only [hha] at h
              cases hasAgent with
              | true =>
                rw [if_pos (rfl : true = true)] at h
                simp only [pyGetItem_to_dictGet hag (PyVal.list []),
                  show pyIter (PyVal.list (a0 :: as1)) = Except.ok (a0 :: as1) from rfl] at h
                obtain ⟨names, hmapM⟩ :=
                  mapM_ok_of_forall (fun a => pyGetItem a "name") (a0 :: as1) hnames
                simp only [hmapM] at h
                cases htv : pyGetItem t "agent" with
                | error e => simp only [htv] at h; cases h
                | ok tv =>
                  simp only [htv] at h
                  simp only [show pyContains (.list names) tv =
                    Except.ok (names.any fun x => pyEq x tv) from rfl] at h
                  by_cases hmem : (names.any fun x => pyEq x tv) = true
                  · rw [hmem, if_pos (rfl : true = true)] at h
                    cases h
                    exact ⟨tv, names, htv, hmapM, hmem⟩
                  · rw [Bool.eq_false_iff.mpr hmem] at h
                    rw [if_neg (by decide : ¬false = true)] at h
                    obtain ⟨nv0, hnv0⟩ := hnames a0 (List.mem_cons_self a0 as1)
                    obtain ⟨ns, hns⟩ := mapM_name_head hnv0 hmapM
                    subst hns
                    cases hsa : pySetItem t "agent" nv0 with
                    | error e => simp only [hsa] at h; cases h
                    | ok t3 =>
                      simp only [hsa] at h
                      cases hg3 : pyGetItem t3 "name" with
                      | error e => simp only [hg3] at h; cases h
                      | ok tn =>
                        simp only [hg3] at h
                        simp only [pySetItem_get_eq hsa] at h
                        cases h
                        refine ⟨nv0, nv0 :: ns, pySetItem_get_eq hsa, hmapM, ?_⟩
                        simp [List.any_cons, pyEq_refl]
              | false =>
                rw [if_neg (by decide : ¬false = true)] at h
                simp only [pyGetItem_to_dictGet hag PyVal.none] at h
                rw [show (PyVal.list (a0 :: as1)).truthy = true from rfl] at h
                rw [if_pos (rfl : true = true)] at h
                simp only [hag,
                  show pyIndex0 (PyVal.list (a0 :: as1)) = Except.ok a0 from rfl] at h
                obtain ⟨nv0, hnv0⟩ := hnames a0 (List.mem_cons_self a0 as1)
                simp only [hnv0] at h
                cases hsa : pySetItem t "agent" nv0 with
                | error e => simp only [hsa] at h; cases h
                | ok t3 =>
                  simp only [hsa] at h
                  cases hg3 : pyGetItem t3 "name" with
                  | error e => simp only [hg3] at h; cases h
                  | ok tn =>
                    simp only [hg3] at h
                    simp only [pySetItem_get_eq hsa] at h
                    cases h
                    obtain ⟨names, hmapM⟩ :=
                      mapM_ok_of_forall (fun a => pyGetItem a "name") (a0 :: as1) hnames
                    obtain ⟨ns, hns⟩ := mapM_name_head hnv0 hmapM
                    refine ⟨nv0, names, pySetItem_get_eq hsa, hmapM, ?_⟩
                    subst hns
                    simp [List.any_cons, pyEq_refl]
    | false =>
      rw [if_neg (by decide : ¬false = true)] at h
      cases hsu : pySetItem t "name" (.str "unnamed_task") with
      | error e => simp only [hsu] at h; cases h
      | ok a1 =>
        simp only [hsu] at h
        cases hnm : pyGetItem a1 "name" with
        | error e => simp only [hnm] at h; cases h
        | ok nameV =>
          simp only [hnm] at h
          cases hsp : pyContains nameV (.str " ") with
          | error e => simp only [hsp] at h; cases h
          | ok hasSpace =>
            simp only [hsp] at h
            cases hasSpace with
            | true =>
              rw [if_pos (rfl : true = true)] at h
              cases hrp : pyReplaceSpace nameV with
              | error e => simp only [hrp] at h; cases h
              | ok newName =>
                simp only [hrp] at h
                cases hst : pySetItem a1 "name" newName with
                | error e => simp only [hst] at h; cases h
                | ok a2 =>
                  simp only [hst] at h
                  cases hha : pyContains a2 (.str "agent") with
                  | error e => simp only [hha] at h; cases h
                  | ok hasAgent =>
                    simp only [hha] at h
                    cases hasAgent with
                    | true =>
                      rw [if_pos (rfl : true = true)] at h
                      simp only [pyGetItem_to_dictGet hag (PyVal.list []),
                        show pyIter (PyVal.list (a0 :: as1)) = Except.ok (a0 :: as1) from rfl] at h
                      obtain ⟨names, hmapM⟩ :=
                        mapM_ok_of_forall (fun a => pyGetItem a "name") (a0 :: as1) hnames
                      simp only [hmapM] at h
                      cases htv : pyGetItem a2 "agent" with
                      | error e => simp only [htv] at h; cases h
                      | ok tv =>
                        simp only [htv] at h
                        simp only [show pyContains (.list names) tv =
                          Except.ok (names.any fun x => pyEq x tv) from rfl] at h
                        by_cases hmem : (names.any fun x => pyEq x tv) = true
                        · rw [hmem, if_pos (rfl : true = true)] at h
                          cases h
                          exact ⟨tv, names, htv, hmapM, hmem⟩
                        · rw [Bool.eq_false_iff.mpr hmem] at h
                          rw [if_neg (by decide : ¬false = true)] at h
                          obtain ⟨nv0, hnv0⟩ := hnames a0 (List.mem_cons_self a0 as1)
                          obtain ⟨ns, hns⟩ := mapM_name_head hnv0 hmapM
                          subst hns
                          cases hsa : pySetItem a2 "agent" nv0 with
                          | error e => simp only [hsa] at h; cases h
                          | ok t3 =>
                            simp only [hsa] at h
                            cases hg3 : pyGetItem t3 "name" with
                            | error e => simp only [hg3] at h; cases h
                            | ok tn =>
                              simp only [hg3] at h
                              simp only [pySetItem_get_eq hsa] at h
                              cases h
                              refine ⟨nv0, nv0 :: ns, pySetItem_get_eq hsa, hmapM, ?_⟩
                              simp [List.any_cons, pyEq_refl]
                    | false =>
                      rw [if_neg (by decide : ¬false = true)] at h
                      simp only [pyGetItem_to_dictGet hag PyVal.none] at h
                      rw [show (PyVal.list (a0 :: as1)).truthy = true from rfl] at h
                      rw [if_pos (rfl : true = true)] at h
                      simp only [hag,
                        show pyIndex0 (PyVal.list (a0 :: as1)) = Except.ok a0 from rfl] at h
                      obtain ⟨nv0, hnv0⟩ := hnames a0 (List.mem_cons_self a0 as1)
                      simp only [hnv0] at h
                      cases hsa : pySetItem a2 "agent" nv0 with
                      | error e => simp only [hsa] at h; cases h
                      | ok t3 =>
                        simp only [hsa] at h
                        cases hg3 : pyGetItem t3 "name" with
                        | error e => simp only [hg3] at h; cases h
                        | ok tn =>
                          simp only [hg3] at h
                          simp only [pySetItem_get_eq hsa] at h
                          cases h
                          obtain ⟨names, hmapM⟩ :=
                            mapM_ok_of_forall (fun a => pyGetItem a "name") (a0 :: as1) hnames
                          obtain ⟨ns, hns⟩ := mapM_name_head hnv0 hmapM
                          refine ⟨nv0, names, pySetItem_get_eq hsa, hmapM, ?_⟩
                          subst hns
                          simp [List.any_cons, pyEq_refl]
            | false =>
              rw [if_neg (by decide : ¬false = true)] at h
              cases hha : pyContains a1 (.str "agent") with
              | error e => simp only [hha] at h; cases h
              | ok hasAgent =>
                simp only [hha] at h
                cases hasAgent with
                | true =>
                  rw [if_pos (rfl : true = true)] at h
                  simp only [pyGetItem_to_dictGet hag (PyVal.list []),
                    show pyIter (PyVal.list (a0 :: as1)) = Except.ok (a0 :: as1) from rfl] at h
                  obtain ⟨names, hmapM⟩ :=
                    mapM_ok_of_forall (fun a => pyGetItem a "name") (a0 :: as1) hnames
                  simp only [hmapM] at h
                  cases htv : pyGetItem a1 "agent" with
                  | error e => simp only [htv] at h; cases h
                  | ok tv =>
                    simp only [htv] at h
                    simp only [show pyContains (.list names) tv =
                      Except.ok (names.any fun x => pyEq x tv) from rfl] at h
                    by_cases hmem : (names.any fun x => pyEq x tv) = true
                    · rw [hmem, if_pos (rfl : true = true)] at h
                      cases h
                      exact ⟨tv, names, htv, hmapM, hmem⟩
                    · rw [Bool.eq_false_iff.mpr hmem] at h
                      rw [if_neg (by decide : ¬false = true)] at h
                      obtain ⟨nv0, hnv0⟩ := hnames a0 (List.mem_cons_self a0 as1)
                      obtain ⟨ns, hns⟩ := mapM_name_head hnv0 hmapM
                      subst hns
                      cases hsa : pySetItem a1 "agent" nv0 with
                      | error e => simp only [hsa] at h; cases h
                      | ok t3 =>
                        simp only [hsa] at h
                        cases hg3 : pyGetItem t3 "name" with
                        | error e => simp only [hg3] at h; cases h
                        | ok tn =>
                          simp only [hg3] at h
                          simp only [pySetItem_get_eq hsa] at h
                          cases h
                          refine ⟨nv0, nv0 :: ns, pySetItem_get_eq hsa, hmapM, ?_⟩
                          simp [List.any_cons, pyEq_refl]
                | false =>
                  rw [if_neg (by decide : ¬false = true)] at h
                  simp only [pyGetItem_to_dictGet hag PyVal.none] at h
                  rw [show (PyVal.list (a0 :: as1)).truthy = true from rfl] at h
                  rw [if_pos (rfl : true = true)] at h
                  simp only [hag,
                    show pyIndex0 (PyVal.list (a0 :: as1)) = Except.ok a0 from rfl] at h
                  obtain ⟨nv0, hnv0⟩ := hnames a0 (List.mem_cons_self a0 as1)
                  simp only [hnv0] at h
                  cases hsa : pySetItem a1 "agent" nv0 with
                  | error e => simp only [hsa] at h; cases h
                  | ok t3 =>
                    simp only [hsa] at h
                    cases hg3 : pyGetItem t3 "name" with
                    | error e => simp only [hg3] at h; cases h
                    | ok tn =>
                      simp only [hg3] at h
                      simp only [pySetItem_get_eq hsa] at h
                      cases h
                      obtain ⟨names, hmapM⟩ :=
                        mapM_ok_of_forall (fun a => pyGetItem a "name") (a0 :: as1) hnames
                      obtain ⟨ns, hns⟩ := mapM_name_head hnv0 hmapM
                      refine ⟨nv0, names, pySetItem_get_eq hsa, hmapM, ?_⟩
                      subst hns
                      simp [List.any_cons, pyEq_refl]

theorem processAgents_name :
    ∀ {l l' : List PyVal} {ws : List String}, processAgents l = .ok (l', ws) →
    ∀ a' ∈ l', ∃ nv, pyGetItem a' "name" = .ok nv ∧
      ∀ s, nv = .str s → ' ' ∉ s.data := by
  intro l
  induction l with
  | nil =>
      intro l' ws h a' ha'
      simp only [processAgents] at h
      cases h
      simp at ha'
  | cons a rest ih =>
      intro l' ws h a' ha'
      simp only [processAgents, bind, Except.bind, pure, Except.pure] at h
      cases hpa : processAgent a with
      | error e => simp only [hpa] at h; cases h
      | ok pr =>
          obtain ⟨a1, w1⟩ := pr
          simp only [hpa] at h
          cases hrest : processAgents rest with
          | error e => simp only [hrest] at h; cases h
          | ok pr2 =>
              obtain ⟨rest', ws2⟩ := pr2
              simp only [hrest] at h
              cases h
              rcases List.mem_cons.mp ha' with hh | hh
              · subst hh; exact processAgent_name hpa
              · exact ih hrest a' hh

theorem processTasks_name {cfg : PyVal} :
    ∀ {l l' : List PyVal} {ws : List String}, processTasks cfg l = .ok (l', ws) →
    ∀ t' ∈ l', ∃ nv, pyGetItem t' "name" = .ok nv ∧
      ∀ s, nv = .str s → ' ' ∉ s.data := by
  intro l
  induction l with
  | nil =>
      intro l' ws h t' ht'
      simp only [processTasks] at h
      cases h
      simp at ht'
  | cons t rest ih =>
      intro l' ws h t' ht'
      simp only [processTasks, bind, Except.bind, pure, Except.pure] at h
      cases hpt : processTask cfg t with
      | error e => simp only [hpt] at h; cases h
      | ok pr =>
          obtain ⟨t1, w1⟩ := pr
          simp only [hpt] at h
          cases hrest : processTasks cfg rest with
          | error e => simp only [hrest] at h; cases h
          | ok pr2 =>
              obtain ⟨rest', ws2⟩ := pr2
              simp only [hrest] at h
              cases h
              rcases List.mem_cons.mp ht' with hh | hh
              · subst hh; exact processTask_name hpt
              · exact ih hrest t' hh

theorem processTasks_agent {cfg : PyVal} {a0 : PyVal} {as1 : List PyVal}
    (hag : pyGetItem cfg "agents" = .ok (.list (a0 :: as1)))
    (hnames : ∀ a ∈ a0 :: as1, ∃ nv, pyGetItem a "name" = .ok nv) :
    ∀ {l l' : List PyVal} {ws : List String}, processTasks cfg l = .ok (l', ws) →
    ∀ t' ∈ l', ∃ tv names, pyGetItem t' "agent" = .ok tv ∧
      (a0 :: as1).mapM (fun a => pyGetItem a "name") = .ok names ∧
      names.any (fun n => pyEq n tv) = true := by
  intro l
  induction l with
  | nil =>
      intro l' ws h t' ht'
      simp only [processTasks] at h
      cases h
      simp at ht'
  | cons t rest ih =>
      intro l' ws h t' ht'
      simp only [processTasks, bind, Except.bind, pure, Except.pure] at h
      cases hpt : processTask cfg t with
      | error e => simp only [hpt] at h; cases h
      | ok pr =>
          obtain ⟨t1, w1⟩ := pr
          simp only [hpt] at h
          cases hrest : processTasks cfg rest with
          | error e => simp only [hrest] at h; cases h
          | ok pr2 =>
              obtain ⟨rest', ws2⟩ := pr2
              simp only [hrest] at h
              cases h
              rcases List.mem_cons.mp ht' with hh | hh
              · subst hh; exact processTask_agent hag hnames hpt
              · exact ih hrest t' hh



theorem validate_components {cfg out : PyVal} {ws : List String} {as ts : List PyVal}
    (h : validate_crew_config cfg = .ok (out, ws))
    (hago : pyGetItem out "agents" = .ok (.list as))
    (htso : pyGetItem out "tasks" = .ok (.list ts)) :
    ∃ cfg3 as0 wA ts0 wT,
      processAgents as0 = .ok (as, wA) ∧
      pyGetItem cfg3 "agents" = .ok (.list as) ∧
      processTasks cfg3 ts0 = .ok (ts, wT) := by
  simp only [validate_crew_config, bind, Except.bind, pure, Except.pure] at h
  split at h
  · cases h
  rename_i xek prek heqek
  split at h
  · cases h
  rename_i xdg agentsV hdg
  split at h
  · cases h
  rename_i xit items hit
  split at h
  · cases h
  rename_i xpa prA hpa
  split at h
  case _ copyA asIn =>
    split at h
    · cases h
    rename_i xs1 cfg3 hset
    split at h
    · cases h
    rename_i xdg2 tasksV hdg2
    split at h
    · cases h
    rename_i xit2 ts0 hit2
    split at h
    · cases h
    rename_i xpt prT hpt
    split at h
    case _ copyT tsIn =>
      split at h
      · cases h
      rename_i xs2 cfg4 hset2
      cases h
      rw [pySetItem_get_ne (by decide) hset2, pySetItem_get_eq hset] at hago
      cases hago
      rw [pySetItem_get_eq hset2] at htso
      cases htso
      exact ⟨cfg3, items, prA.2, ts0, prT.2, by rw [hpa], pySetItem_get_eq hset,
             by rw [hpt]⟩
    case _ copyT hneT =>
      cases h
      rcases pyDictGet_cases hdg2 with hg | hd
      · rw [hg] at htso
        cases htso
        exact absurd rfl (hneT ts)
      · exact absurd hd (hneT [])
  case _ copyA hneA =>
    split at h
    · cases h
    rename_i xdg2 tasksV hdg2
    split at h
    · cases h
    rename_i xit2 ts0 hit2
    split at h
    · cases h
    rename_i xpt prT hpt
    split at h
    case _ copyT tsIn =>
      split at h
      · cases h
      rename_i xs2 cfg4 hset2
      cases h
      rw [pySetItem_get_ne (by decide) hset2] at hago
      rcases pyDictGet_cases hdg with hg | hd
      · rw [hg] at hago
        cases hago
        exact absurd rfl (hneA as)
      · exact absurd hd (hneA [])
    case _ copyT hneT =>
      cases h
      rcases pyDictGet_cases hdg with hg | hd
      · rw [hg] at hago
        cases hago
        exact absurd rfl (hneA as)
      · exact absurd hd (hneA [])

/-- Claim C5 (amended): in every configuration returned by the Validator,
no agent name and no task name that is a string contains the space
character (U+0020) — a space in the input identifier is repaired by
substitution with underscores, while other whitespace (tab, newline,
carriage return) passes through unrepaired. -/
theorem validate_names_space_free {cfg out : PyVal} {ws : List String}
    {as ts : List PyVal}
    (h : validate_crew_config cfg = .ok (out, ws))
    (hago : pyGetItem out "agents" = .ok (.list as))
    (htso : pyGetItem out "tasks" = .ok (.list ts)) :
    (∀ a ∈ as, ∀ s, pyGetItem a "name" = .ok (.str s) → ' ' ∉ s.data) ∧
    (∀ t ∈ ts, ∀ s, pyGetItem t "name" = .ok (.str s) → ' ' ∉ s.data) := by
  obtain ⟨cfg3, as0, wA, ts0, wT, hpa, hcfg3, hpt⟩ := validate_components h hago htso
  constructor
  · intro a ha s hname
    obtain ⟨nv, hnv, hfree⟩ := processAgents_name hpa a ha
    rw [hname] at hnv
    cases hnv
    exact hfree s rfl
  · intro t ht s hname
    obtain ⟨nv, hnv, hfree⟩ := processTasks_name hpt t ht
    rw [hname] at hnv
    cases hnv
    exact hfree s rfl

/-- Witness for C5 (amended): the Validator maps `cfgTabName` to
`cfgTabNameOut`; the surviving agent name `a\tb` (tab intact) contains
no space. -/
theorem validate_names_space_free_witness : ' ' ∉ ("a\tb").data :=
  (validate_names_space_free
    (show validate_crew_config cfgTabName = .ok (cfgTabNameOut,
      ["Agent 'a\tb' için araç tanımlanmamış.",
       "Task 'x' için agent belirtilmemiş. İlk agent 'a\tb' atandı."]) from rfl)
    (show pyGetItem cfgTabNameOut "agents" = .ok (.list [tabAgentOut]) from rfl)
    (show pyGetItem cfgTabNameOut "tasks" = .ok (.list [tabTaskOut]) from rfl)).1
    tabAgentOut (List.mem_cons_self _ _) "a\tb" rfl

/-- Claim C1 (amended): in every configuration returned by the Validator
whose returned agent list is non-empty, every returned task carries an
`agent` field equal (under Python `==`) to the `name` of some agent in the
returned agent list. -/
theorem validate_task_agents_resolve {cfg out : PyVal} {ws : List String}
    {as ts : List PyVal}
    (h : validate_crew_config cfg = .ok (out, ws))
    (hago : pyGetItem out "agents" = .ok (.list as))
    (htso : pyGetItem out "tasks" = .ok (.list ts))
    (hne : as ≠ []) :
    ∀ t ∈ ts, ∃ tv names, pyGetItem t "agent" = .ok tv ∧
      as.mapM (fun a => pyGetItem a "name") = .ok names ∧
      names.any (fun n => pyEq n tv) = true := by
  obtain ⟨cfg3, as0, wA, ts0, wT, hpa, hcfg3, hpt⟩ := validate_components h hago htso
  cases as with
  | nil => exact absurd rfl hne
  | cons a0 as1 =>
      have hnames : ∀ a ∈ a0 :: as1, ∃ nv, pyGetItem a "name" = .ok nv :=
        fun a ha => (processAgents_name hpa a ha).imp fun nv hv => hv.1
      exact processTasks_agent hcfg3 hnames hpt

/-- Witness for C1 (amended): on `cfgTabName` the returned task's `agent`
field resolves to the name of the single returned agent. -/
theorem validate_task_agents_resolve_witness :
    ∃ tv names, pyGetItem tabTaskOut "agent" = .ok tv ∧
      [tabAgentOut].mapM (fun a => pyGetItem a "name") = .ok names ∧
      names.any (fun n => pyEq n tv) = true :=
  validate_task_agents_resolve
    (show validate_crew_config cfgTabName = .ok (cfgTabNameOut,
      ["Agent 'a\tb' için araç tanımlanmamış.",
       "Task 'x' için agent belirtilmemiş. İlk agent 'a\tb' atandı."]) from rfl)
    (show pyGetItem cfgTabNameOut "agents" = .ok (.list [tabAgentOut]) from rfl)
    (show pyGetItem cfgTabNameOut "tasks" = .ok (.list [tabTaskOut]) from rfl)
    (List.cons_ne_nil _ _)
    tabTaskOut (List.mem_cons_self _ _)



theorem pySetItem_dict_spec (kvs : List (String × PyVal)) (k : String) (v : PyVal) :
    ∃ kvs', pySetItem (.dict kvs) k v = .ok (.dict kvs') ∧
      lookupStr kvs' k = some v ∧
      ∀ k', k' ≠ k → lookupStr kvs' k' = lookupStr kvs k' := by
  cases hl : lookupStr kvs k with
  | none =>
      refine ⟨kvs ++ [(k, v)], ?_, lookup_append_self hl v, ?_⟩
      · simp [pySetItem, hl]
      · intro k' hk'
        exact lookup_append_ne hk' kvs v
  | some w =>
      refine ⟨kvs.map fun kv => if kv.1 = k then (k, v) else kv, ?_,
        lookup_map_self hl v, ?_⟩
      · simp [pySetItem, hl]
      · intro k' hk'
        exact lookup_map_ne hk' kvs v

theorem validateAgentTools_ok (nm : String) :
    ∀ l : List PyVal, (∀ x ∈ l, ∃ s, x = .str s) →
    ∃ r, validateAgentTools nm l = .ok r := by
  intro l
  induction l with
  | nil => exact fun _ => ⟨([], []), rfl⟩
  | cons x rest ih =>
      intro hall
      obtain ⟨s, hs⟩ := hall x (List.mem_cons_self x rest)
      subst hs
      obtain ⟨r, hr⟩ := ih fun y hy => hall y (List.mem_cons_of_mem _ hy)
      obtain ⟨valid, ws2⟩ := r
      simp only [validateAgentTools, bind, Except.bind, pure, Except.pure,
        show availContains (.str s) =
          .ok (availableToolNames.any fun n => n = s) from rfl, hr]
      by_cases hb : (availableToolNames.any fun n => n = s) = true
      · rw [if_pos hb]
        exact ⟨_, rfl⟩
      · rw [if_neg hb]
        exact ⟨_, rfl⟩

theorem all_str_of_wt {l : List PyVal}
    (h : (l.all fun t => match t with | PyVal.str xs => true | x => false) = true) :
    ∀ x ∈ l, ∃ s, x = .str s := by
  intro x hx
  have hx2 := List.all_eq_true.mp h x hx
  cases x with
  | str s => exact ⟨s, rfl⟩
  | none => simp at hx2
  | bool b => simp at hx2
  | int n => simp at hx2
  | list l2 => simp at hx2
  | dict d => simp at hx2

theorem processAgent_ok {a : PyVal} (hwt : wellTypedAgentB a = true) :
    ∃ r, processAgent a = .ok r := by
  cases a with
  | dict kvs =>
      simp only [wellTypedAgentB, Bool.and_eq_true] at hwt
      obtain ⟨wtn, wtt⟩ := hwt
      cases hn : lookupStr kvs "name" with
      | some nv =>
          rw [hn] at wtn
          cases nv with
          | str s =>
              have e1 : pyContains (.dict kvs) (.str "name") = .ok true := by
                simp [pyContains, any_eq_isSome, hn]
              have e2 : pyGetItem (.dict kvs) "name" = .ok (.str s) := by
                simp [pyGetItem, hn]
              have e3 : pyContains (.str s) (.str " ") =
                  .ok (strIn [' '] s.data) := rfl
              by_cases hsp : strIn [' '] s.data = true
              · obtain ⟨kvs2, hset2, hlkn2, hlk2⟩ := pySetItem_dict_spec kvs "name"
                  (.str (String.mk (s.data.map fun c => if c = ' ' then '_' else c)))
                have e4 : pyReplaceSpace (.str s) = .ok (.str (String.mk
                    (s.data.map fun c => if c = ' ' then '_' else c))) := rfl
                have hlkT : lookupStr kvs2 "tools" = lookupStr kvs "tools" :=
                  hlk2 "tools" (by decide)
                have KN2 : pyGetItem (.dict kvs2) "name" = .ok (.str (String.mk (s.data.map fun c => if c = ' ' then '_' else c))) := by simp [pyGetItem, hlkn2]
                cases htl : lookupStr kvs "tools" with
                | none =>
                    have c1 : pyContains (.dict kvs2) (.str "tools") = .ok false := by
                      simp [pyContains, any_eq_isSome, hlkT, htl]
                    obtain ⟨a3, hset3⟩ := pySetItem_dict_ok kvs2 "tools" (.list [])
                    have c2 : pyGetItem a3 "name" = .ok (.str (String.mk (s.data.map fun c => if c = ' ' then '_' else c))) := by
                      rw [pySetItem_get_ne (by decide) hset3]
                      exact KN2
                    simp only [processAgent, bind, Except.bind, pure, Except.pure,
                      e1, e2, e3, hsp, e4, hset2, c1, hset3, c2, Bool.not_true, Bool.not_false, reduceIte]
                    exact ⟨_, rfl⟩
                | some tv =>
                    rw [htl] at wtt
                    have c1 : pyContains (.dict kvs2) (.str "tools") = .ok true := by
                      simp [pyContains, any_eq_isSome, hlkT, htl]
                    cases tv with
                    | list ts =>
                        have c2 : pyGetItem (.dict kvs2) "tools" = .ok (.list ts) := by
                          simp [pyGetItem, hlkT, htl]
                        cases ts with
                        | nil =>
                            obtain ⟨a3, hset3⟩ := pySetItem_dict_ok kvs2 "tools" (.list [])
                            have c2n : pyGetItem a3 "name" = .ok (.str (String.mk (s.data.map fun c => if c = ' ' then '_' else c))) := by
                              rw [pySetItem_get_ne (by decide) hset3]
                              exact KN2
                            simp only [processAgent, bind, Except.bind, pure, Except.pure,
                              e1, e2, e3, hsp, e4, hset2, c1, c2,
                              show (PyVal.list ([] : List PyVal)).truthy = false from rfl,
                              hset3, c2n, Bool.not_true, Bool.not_false, reduceIte]
                            exact ⟨_, rfl⟩
                        | cons t0 ts1 =>
                            have hstr : ∀ x ∈ t0 :: ts1, ∃ s2, x = .str s2 := all_str_of_wt wtt
                            obtain ⟨prv, hvt⟩ := validateAgentTools_ok (pyToStr (.str (String.mk (s.data.map fun c => if c = ' ' then '_' else c)))) (t0 :: ts1) hstr
                            obtain ⟨valid, ws2⟩ := prv
                            obtain ⟨a4, hset4⟩ := pySetItem_dict_ok kvs2 "tools" (.list valid)
                            simp only [processAgent, bind, Except.bind, pure, Except.pure,
                              e1, e2, e3, hsp, e4, hset2, c1, c2,
                              show (PyVal.list (t0 :: ts1)).truthy = true from rfl,
                              show pyIter (PyVal.list (t0 :: ts1)) = Except.ok (t0 :: ts1) from rfl,
                              KN2, hvt, hset4, Bool.not_true, Bool.not_false, reduceIte]
                            exact ⟨_, rfl⟩
                    | none => simp at wtt
                    | bool b => simp at wtt
                    | int n => simp at wtt
                    | str s2 => simp at wtt
                    | dict d => simp at wtt
              · have hspf : strIn [' '] s.data = false := Bool.eq_false_iff.mpr hsp
                have hlkT : lookupStr kvs "tools" = lookupStr kvs "tools" := rfl
                have KN2 : pyGetItem (.dict kvs) "name" = .ok (.str s) := e2
                cases htl : lookupStr kvs "tools" with
                | none =>
                    have c1 : pyContains (.dict kvs) (.str "tools") = .ok false := by
                      simp [pyContains, any_eq_isSome, hlkT, htl]
                    obtain ⟨a3, hset3⟩ := pySetItem_dict_ok kvs "tools" (.list [])
                    have c2 : pyGetItem a3 "name" = .ok (.str s) := by
                      rw [pySetItem_get_ne (by decide) hset3]
                      exact KN2
                    simp only [processAgent, bind, Except.bind, pure, Except.pure,
                      e1, e2, e3, hspf, c1, hset3, c2, Bool.not_true, Bool.not_false, reduceIte]
                    exact ⟨_, rfl⟩
                | some tv =>
                    rw [htl] at wtt
                    have c1 : pyContains (.dict kvs) (.str "tools") = .ok true := by
                      simp [pyContains, any_eq_isSome, hlkT, htl]
                    cases tv with
                    | list ts =>
                        have c2 : pyGetItem (.dict kvs) "tools" = .ok (.list ts) := by
                          simp [pyGetItem, hlkT, htl]
                        cases ts with
                        | nil =>
                            obtain ⟨a3, hset3⟩ := pySetItem_dict_ok kvs "tools" (.list [])
                            have c2n : pyGetItem a3 "name" = .ok (.str s) := by
                              rw [pySetItem_get_ne (by decide) hset3]
                              exact KN2
                            simp only [processAgent, bind, Except.bind, pure, Except.pure,
                              e1, e2, e3, hspf, c1, c2,
                              show (PyVal.list ([] : List PyVal)).truthy = false from rfl,
                              hset3, c2n, Bool.not_true, Bool.not_false, reduceIte]
                            exact ⟨_, rfl⟩
                        | cons t0 ts1 =>
                            have hstr : ∀ x ∈ t0 :: ts1, ∃ s2, x = .str s2 := all_str_of_wt wtt
                            obtain ⟨prv, hvt⟩ := validateAgentTools_ok (pyToStr (.str s)) (t0 :: ts1) hstr
                            obtain ⟨valid, ws2⟩ := prv
                            obtain ⟨a4, hset4⟩ := pySetItem_dict_ok kvs "tools" (.list valid)
                            simp only [processAgent, bind, Except.bind, pure, Except.pure,
                              e1, e2, e3, hspf, c1, c2,
                              show (PyVal.list (t0 :: ts1)).truthy = true from rfl,
                              show pyIter (PyVal.list (t0 :: ts1)) = Except.ok (t0 :: ts1) from rfl,
                              KN2, hvt, hset4, Bool.not_true, Bool.not_false, reduceIte]
                            exact ⟨_, rfl⟩
                    | none => simp at wtt
                    | bool b => simp at wtt
                    | int n => simp at wtt
                    | str s2 => simp at wtt
                    | dict d => simp at wtt
          | none => simp at wtn
          | bool b => simp at wtn
          | int n => simp at wtn
          | list l2 => simp at wtn
          | dict d => simp at wtn
      | none =>
          have e1 : pyContains (.dict kvs) (.str "name") = .ok false := by
            simp [pyContains, any_eq_isSome, hn]
          obtain ⟨kvs1, hsetU, hlknU, hlkU⟩ :=
            pySetItem_dict_spec kvs "name" (.str "unnamed_agent")
          have eU : pyGetItem (.dict kvs1) "name" = .ok (.str "unnamed_agent") := by
            simp [pyGetItem, hlknU]
          have e3 : pyContains (.str "unnamed_agent") (.str " ") = .ok false := rfl
          have hlkT : lookupStr kvs1 "tools" = lookupStr kvs "tools" :=
            hlkU "tools" (by decide)
          have KN2 : pyGetItem (.dict kvs1) "name" = .ok (.str "unnamed_agent") := eU
          cases htl : lookupStr kvs "tools" with
          | none =>
              have c1 : pyContains (.dict kvs1) (.str "tools") = .ok false := by
                simp [pyContains, any_eq_isSome, hlkT, htl]
              obtain ⟨a3, hset3⟩ := pySetItem_dict_ok kvs1 "tools" (.list [])
              have c2 : pyGetItem a3 "name" = .ok (.str "unnamed_agent") := by
                rw [pySetItem_get_ne (by decide) hset3]
                exact KN2
              simp only [processAgent, bind, Except.bind, pure, Except.pure,
                e1, hsetU, eU, e3, c1, hset3, c2, Bool.not_true, Bool.not_false, reduceIte]
              exact ⟨_, rfl⟩
          | some tv =>
              rw [htl] at wtt
              have c1 : pyContains (.dict kvs1) (.str "tools") = .ok true := by
                simp [pyContains, any_eq_isSome, hlkT, htl]
              cases tv with
              | list ts =>
                  have c2 : pyGetItem (.dict kvs1) "tools" = .ok (.list ts) := by
                    simp [pyGetItem, hlkT, htl]
                  cases ts with
                  | nil =>
                      obtain ⟨a3, hset3⟩ := pySetItem_dict_ok kvs1 "tools" (.list [])
                      have c2n : pyGetItem a3 "name" = .ok (.str "unnamed_agent") := by
                        rw [pySetItem_get_ne (by decide) hset3]
                        exact KN2
                      simp only [processAgent, bind, Except.bind, pure, Except.pure,
                        e1, hsetU, eU, e3, c1, c2,
                        show (PyVal.list ([] : List PyVal)).truthy = false from rfl,
                        hset3, c2n, Bool.not_true, Bool.not_false, reduceIte]
                      exact ⟨_, rfl⟩
                  | cons t0 ts1 =>
                      have hstr : ∀ x ∈ t0 :: ts1, ∃ s2, x = .str s2 := all_str_of_wt wtt
                      obtain ⟨prv, hvt⟩ := validateAgentTools_ok (pyToStr (.str "unnamed_agent")) (t0 :: ts1) hstr
                      obtain ⟨valid, ws2⟩ := prv
                      obtain ⟨a4, hset4⟩ := pySetItem_dict_ok kvs1 "tools" (.list valid)
                      simp only [processAgent, bind, Except.bind, pure, Except.pure,
                        e1, hsetU, eU, e3, c1, c2,
                        show (PyVal.list (t0 :: ts1)).truthy = true from rfl,
                        show pyIter (PyVal.list (t0 :: ts1)) = Except.ok (t0 :: ts1) from rfl,
                        KN2, hvt, hset4, Bool.not_true, Bool.not_false, reduceIte]
                      exact ⟨_, rfl⟩
              | none => simp at wtt
              | bool b => simp at wtt
              | int n => simp at wtt
              | str s2 => simp at wtt
              | dict d => simp at wtt
  | none => simp [wellTypedAgentB] at hwt
  | bool b => simp [wellTypedAgentB] at hwt
  | int n => simp [wellTypedAgentB] at hwt
  | str s => simp [wellTypedAgentB] at hwt
  | list l => simp [wellTypedAgentB] at hwt

theorem processTask_ok {cfg t : PyVal} {as : List PyVal}
    (hcfg : pyGetItem cfg "agents" = .ok (.list as))
    (hnames : ∀ x ∈ as, ∃ nv, pyGetItem x "name" = .ok nv)
    (hwt : wellTypedTaskB t = true) :
    ∃ r, processTask cfg t = .ok r := by
  cases t with
  | dict kvs =>
      simp only [wellTypedTaskB] at hwt
      cases hn : lookupStr kvs "name" with
      | some nv =>
          rw [hn] at hwt
          cases nv with
          | str s =>
              have e1 : pyContains (.dict kvs) (.str "name") = .ok true := by
                simp [pyContains, any_eq_isSome, hn]
              have e2 : pyGetItem (.dict kvs) "name" = .ok (.str s) := by
                simp [pyGetItem, hn]
              have e3 : pyContains (.str s) (.str " ") =
                  .ok (strIn [' '] s.data) := rfl
              by_cases hsp : strIn [' '] s.data = true
              · obtain ⟨kvs2, hset2, hlkn2, hlk2⟩ := pySetItem_dict_spec kvs "name"
                  (.str (String.mk (s.data.map fun c => if c = ' ' then '_' else c)))
                have e4 : pyReplaceSpace (.str s) = .ok (.str (String.mk
                    (s.data.map fun c => if c = ' ' then '_' else c))) := rfl
                have hlkA : lookupStr kvs2 "agent" = lookupStr kvs "agent" :=
                  hlk2 "agent" (by decide)
                have KN2 : pyGetItem (.dict kvs2) "name" = .ok (.str (String.mk (s.data.map fun c => if c = ' ' then '_' else c))) := by simp [pyGetItem, hlkn2]
                cases hla : lookupStr kvs2 "agent" with
                | some av =>
                    have d1 : pyContains (.dict kvs2) (.str "agent") = .ok true := by
                      simp [pyContains, any_eq_isSome, hla]
                    have d2 : pyDictGet cfg "agents" (.list []) = .ok (.list as) :=
                      pyGetItem_to_dictGet hcfg (.list [])
                    obtain ⟨names, hmapM⟩ :=
                      mapM_ok_of_forall (fun x => pyGetItem x "name") as hnames
                    have d4 : pyGetItem (.dict kvs2) "agent" = .ok av := by
                      simp [pyGetItem, hla]
                    by_cases hm : (names.any fun x => pyEq x av) = true
                    · simp only [processTask, bind, Except.bind, pure, Except.pure,
                        e1, e2, e3, hsp, e4, hset2, d1, d2, show pyIter (PyVal.list as) = Except.ok as from rfl,
                        hmapM, d4,
                        show pyContains (.list names) av =
                          Except.ok (names.any fun x => pyEq x av) from rfl,
                        hm, reduceIte]
                      exact ⟨_, rfl⟩
                    · have hmf : (names.any fun x => pyEq x av) = false := Bool.eq_false_iff.mpr hm
                      cases names with
                      | nil =>
                          simp only [processTask, bind, Except.bind, pure, Except.pure,
                            e1, e2, e3, hsp, e4, hset2, d1, d2, show pyIter (PyVal.list as) = Except.ok as from rfl,
                            hmapM, d4,
                            show pyContains (.list ([] : List PyVal)) av =
                              Except.ok (([] : List PyVal).any fun x => pyEq x av) from rfl,
                            hmf, KN2, reduceIte]
                          exact ⟨_, rfl⟩
                      | cons n ns =>
                          obtain ⟨t3, hsetA⟩ := pySetItem_dict_ok kvs2 "agent" n
                          have d6 : pyGetItem t3 "name" = .ok (.str (String.mk (s.data.map fun c => if c = ' ' then '_' else c))) := by
                            rw [pySetItem_get_ne (by decide) hsetA]
                            exact KN2
                          have d7 : pyGetItem t3 "agent" = .ok n := pySetItem_get_eq hsetA
                          simp only [processTask, bind, Except.bind, pure, Except.pure,
                            e1, e2, e3, hsp, e4, hset2, d1, d2, show pyIter (PyVal.list as) = Except.ok as from rfl,
                            hmapM, d4,
                            show pyContains (.list (n :: ns)) av =
                              Except.ok ((n :: ns).any fun x => pyEq x av) from rfl,
                            hmf, hsetA, d6, d7, reduceIte]
                          exact ⟨_, rfl⟩
                | none =>
                    have d1 : pyContains (.dict kvs2) (.str "agent") = .ok false := by
                      simp [pyContains, any_eq_isSome, hla]
                    have d2 : pyDictGet cfg "agents" PyVal.none = .ok (.list as) :=
                      pyGetItem_to_dictGet hcfg PyVal.none
                    cases as with
                    | nil =>
                        simp only [processTask, bind, Except.bind, pure, Except.pure,
                          e1, e2, e3, hsp, e4, hset2, d1, d2,
                          show (PyVal.list ([] : List PyVal)).truthy = false from rfl,
                          KN2, reduceIte]
                        exact ⟨_, rfl⟩
                    | cons a0 as1 =>
                        obtain ⟨nv0, hnv0⟩ := hnames a0 (List.mem_cons_self a0 as1)
                        obtain ⟨t3, hsetA⟩ := pySetItem_dict_ok kvs2 "agent" nv0
                        have d6 : pyGetItem t3 "name" = .ok (.str (String.mk (s.data.map fun c => if c = ' ' then '_' else c))) := by
                          rw [pySetItem_get_ne (by decide) hsetA]
                          exact KN2
                        have d7 : pyGetItem t3 "agent" = .ok nv0 := pySetItem_get_eq hsetA
                        simp only [processTask, bind, Except.bind, pure, Except.pure,
                          e1, e2, e3, hsp, e4, hset2, d1, d2,
                          show (PyVal.list (a0 :: as1)).truthy = true from rfl,
                          hcfg, show pyIndex0 (PyVal.list (a0 :: as1)) = Except.ok a0 from rfl,
                          hnv0, hsetA, d6, d7, reduceIte]
                        exact ⟨_, rfl⟩
              · have hspf : strIn [' '] s.data = false := Bool.eq_false_iff.mpr hsp
                have hlkA : lookupStr kvs "agent" = lookupStr kvs "agent" := rfl
                have KN2 : pyGetItem (.dict kvs) "name" = .ok (.str s) := e2
                cases hla : lookupStr kvs "agent" with
                | some av =>
                    have d1 : pyContains (.dict kvs) (.str "agent") = .ok true := by
                      simp [pyContains, any_eq_isSome, hla]
                    have d2 : pyDictGet cfg "agents" (.list []) = .ok (.list as) :=
                      pyGetItem_to_dictGet hcfg (.list [])
                    obtain ⟨names, hmapM⟩ :=
                      mapM_ok_of_forall (fun x => pyGetItem x "name") as hnames
                    have d4 : pyGetItem (.dict kvs) "agent" = .ok av := by
                      simp [pyGetItem, hla]
                    by_cases hm : (names.any fun x => pyEq x av) = true
                    · simp only [processTask, bind, Except.bind, pure, Except.pure,
                        e1, e2, e3, hspf, d1, d2, show pyIter (PyVal.list as) = Except.ok as from rfl,
                        hmapM, d4,
                        show pyContains (.list names) av =
                          Except.ok (names.any fun x => pyEq x av) from rfl,
                        hm, reduceIte]
                      exact ⟨_, rfl⟩
                    · have hmf : (names.any fun x => pyEq x av) = false := Bool.eq_false_iff.mpr hm
                      cases names with
                      | nil =>
                          simp only [processTask, bind, Except.bind, pure, Except.pure,
                            e1, e2, e3, hspf, d1, d2, show pyIter (PyVal.list as) = Except.ok as from rfl,
                            hmapM, d4,
                            show pyContains (.list ([] : List PyVal)) av =
                              Except.ok (([] : List PyVal).any fun x => pyEq x av) from rfl,
                            hmf, KN2, reduceIte]
                          exact ⟨_, rfl⟩
                      | cons n ns =>
                          obtain ⟨t3, hsetA⟩ := pySetItem_dict_ok kvs "agent" n
                          have d6 : pyGetItem t3 "name" = .ok (.str s) := by
                            rw [pySetItem_get_ne (by decide) hsetA]
                            exact KN2
                          have d7 : pyGetItem t3 "agent" = .ok n := pySetItem_get_eq hsetA
                          simp only [processTask, bind, Except.bind, pure, Except.pure,
                            e1, e2, e3, hspf, d1, d2, show pyIter (PyVal.list as) = Except.ok as from rfl,
                            hmapM, d4,
                            show pyContains (.list (n :: ns)) av =
                              Except.ok ((n :: ns).any fun x => pyEq x av) from rfl,
                            hmf, hsetA, d6, d7, reduceIte]
                          exact ⟨_, rfl⟩
                | none =>
                    have d1 : pyContains (.dict kvs) (.str "agent") = .ok false := by
                      simp [pyContains, any_eq_isSome, hla]
                    have d2 : pyDictGet cfg "agents" PyVal.none = .ok (.list as) :=
                      pyGetItem_to_dictGet hcfg PyVal.none
                    cases as with
                    | nil =>
                        simp only [processTask, bind, Except.bind, pure, Except.pure,
                          e1, e2, e3, hspf, d1, d2,
                          show (PyVal.list ([] : List PyVal)).truthy = false from rfl,
                          KN2, reduceIte]
                        exact ⟨_, rfl⟩
                    | cons a0 as1 =>
                        obtain ⟨nv0, hnv0⟩ := hnames a0 (List.mem_cons_self a0 as1)
                        obtain ⟨t3, hsetA⟩ := pySetItem_dict_ok kvs "agent" nv0
                        have d6 : pyGetItem t3 "name" = .ok (.str s) := by
                          rw [pySetItem_get_ne (by decide) hsetA]
                          exact KN2
                        have d7 : pyGetItem t3 "agent" = .ok nv0 := pySetItem_get_eq hsetA
                        simp only [processTask, bind, Except.bind, pure, Except.pure,
                          e1, e2, e3, hspf, d1, d2,
                          show (PyVal.list (a0 :: as1)).truthy = true from rfl,
                          hcfg, show pyIndex0 (PyVal.list (a0 :: as1)) = Except.ok a0 from rfl,
                          hnv0, hsetA, d6, d7, reduceIte]
                        exact ⟨_, rfl⟩
          | none => simp at hwt
          | bool b => simp at hwt
          | int n => simp at hwt
          | list l2 => simp at hwt
          | dict d => simp at hwt
      | none =>
          have e1 : pyContains (.dict kvs) (.str "name") = .ok false := by
            simp [pyContains, any_eq_isSome, hn]
          obtain ⟨kvs1, hsetU, hlknU, hlkU⟩ :=
            pySetItem_dict_spec kvs "name" (.str "unnamed_task")
          have eU : pyGetItem (.dict kvs1) "name" = .ok (.str "unnamed_task") := by
            simp [pyGetItem, hlknU]
          have e3 : pyContains (.str "unnamed_task") (.str " ") = .ok false := rfl
          have hlkA : lookupStr kvs1 "agent" = lookupStr kvs "agent" :=
            hlkU "agent" (by decide)
          have KN2 : pyGetItem (.dict kvs1) "name" = .ok (.str "unnamed_task") := eU
          cases hla : lookupStr kvs1 "agent" with
          | some av =>
              have d1 : pyContains (.dict kvs1) (.str "agent") = .ok true := by
                simp [pyContains, any_eq_isSome, hla]
              have d2 : pyDictGet cfg "agents" (.list []) = .ok (.list as) :=
                pyGetItem_to_dictGet hcfg (.list [])
              obtain ⟨names, hmapM⟩ :=
                mapM_ok_of_forall (fun x => pyGetItem x "name") as hnames
              have d4 : pyGetItem (.dict kvs1) "agent" = .ok av := by
                simp [pyGetItem, hla]
              by_cases hm : (names.any fun x => pyEq x av) = true
              · simp only [processTask, bind, Except.bind, pure, Except.pure,
                  e1, hsetU, eU, e3, d1, d2, show pyIter (PyVal.list as) = Except.ok as from rfl,
                  hmapM, d4,
                  show pyContains (.list names) av =
                    Except.ok (names.any fun x => pyEq x av) from rfl,
                  hm, reduceIte]
                exact ⟨_, rfl⟩
              · have hmf : (names.any fun x => pyEq x av) = false := Bool.eq_false_iff.mpr hm
                cases names with
                | nil =>
                    simp only [processTask, bind, Except.bind, pure, Except.pure,
                      e1, hsetU, eU, e3, d1, d2, show pyIter (PyVal.list as) = Except.ok as from rfl,
                      hmapM, d4,
                      show pyContains (.list ([] : List PyVal)) av =
                        Except.ok (([] : List PyVal).any fun x => pyEq x av) from rfl,
                      hmf, KN2, reduceIte]
                    exact ⟨_, rfl⟩
                | cons n ns =>
                    obtain ⟨t3, hsetA⟩ := pySetItem_dict_ok kvs1 "agent" n
                    have d6 : pyGetItem t3 "name" = .ok (.str "unnamed_task") := by
                      rw [pySetItem_get_ne (by decide) hsetA]
                      exact KN2
                    have d7 : pyGetItem t3 "agent" = .ok n := pySetItem_get_eq hsetA
                    simp only [processTask, bind, Except.bind, pure, Except.pure,
                      e1, hsetU, eU, e3, d1, d2, show pyIter (PyVal.list as) = Except.ok as from rfl,
                      hmapM, d4,
                      show pyContains (.list (n :: ns)) av =
                        Except.ok ((n :: ns).any fun x => pyEq x av) from rfl,
                      hmf, hsetA, d6, d7, reduceIte]
                    exact ⟨_, rfl⟩
          | none =>
              have d1 : pyContains (.dict kvs1) (.str "agent") = .ok false := by
                simp [pyContains, any_eq_isSome, hla]
              have d2 : pyDictGet cfg "agents" PyVal.none = .ok (.list as) :=
                pyGetItem_to_dictGet hcfg PyVal.none
              cases as with
              | nil =>
                  simp only [processTask, bind, Except.bind, pure, Except.pure,
                    e1, hsetU, eU, e3, d1, d2,
                    show (PyVal.list ([] : List PyVal)).truthy = false from rfl,
                    KN2, reduceIte]
                  exact ⟨_, rfl⟩
              | cons a0 as1 =>
                  obtain ⟨nv0, hnv0⟩ := hnames a0 (List.mem_cons_self a0 as1)
                  obtain ⟨t3, hsetA⟩ := pySetItem_dict_ok kvs1 "agent" nv0
                  have d6 : pyGetItem t3 "name" = .ok (.str "unnamed_task") := by
                    rw [pySetItem_get_ne (by decide) hsetA]
                    exact KN2
                  have d7 : pyGetItem t3 "agent" = .ok nv0 := pySetItem_get_eq hsetA
                  simp only [processTask, bind, Except.bind, pure, Except.pure,
                    e1, hsetU, eU, e3, d1, d2,
                    show (PyVal.list (a0 :: as1)).truthy = true from rfl,
                    hcfg, show pyIndex0 (PyVal.list (a0 :: as1)) = Except.ok a0 from rfl,
                    hnv0, hsetA, d6, d7, reduceIte]
                  exact ⟨_, rfl⟩
  | none => simp [wellTypedTaskB] at hwt
  | bool b => simp [wellTypedTaskB] at hwt
  | int n => simp [wellTypedTaskB] at hwt
  | str s => simp [wellTypedTaskB] at hwt
  | list l => simp [wellTypedTaskB] at hwt



theorem ensureKeys_wt {kvs : List (String × PyVal)}
    (hwt : wellTypedConfigB (.dict kvs) = true) :
    ∃ kvs2 wK, ensureKeys (.dict kvs) = .ok (.dict kvs2, wK) ∧
      (∃ as, lookupStr kvs2 "agents" = some (.list as) ∧
        as.all wellTypedAgentB = true) ∧
      (∃ ts, lookupStr kvs2 "tasks" = some (.list ts) ∧
        ts.all wellTypedTaskB = true) := by
  simp only [wellTypedConfigB, Bool.and_eq_true] at hwt
  obtain ⟨wta, wtt⟩ := hwt
  cases hA : lookupStr kvs "agents" with
  | some avv =>
      rw [hA] at wta
      cases avv with
      | list ass =>
          have eA1 : pyContains (.dict kvs) (.str "agents") = .ok true := by
            simp [pyContains, any_eq_isSome, hA]
          have eA2 : pyGetItem (.dict kvs) "agents" = .ok (.list ass) := by
            simp [pyGetItem, hA]
          cases ass with
          | nil =>
              obtain ⟨kvs1, hsetA, hLA, hP1⟩ :=
                pySetItem_dict_spec kvs "agents" (.list [])
              have hPA : lookupStr kvs1 "tasks" = lookupStr kvs "tasks" :=
                hP1 "tasks" (by decide)
              cases hT : lookupStr kvs "tasks" with
              | some tvv =>
                  rw [hT] at wtt
                  cases tvv with
                  | list tss =>
                      have eT1 : pyContains (.dict kvs1) (.str "tasks") = .ok true := by
                        simp [pyContains, any_eq_isSome, hPA, hT]
                      have eT2 : pyGetItem (.dict kvs1) "tasks" = .ok (.list tss) := by
                        simp [pyGetItem, hPA, hT]
                      cases tss with
                      | nil =>
                          obtain ⟨kvs2, hsetT, hLT, hP2⟩ :=
                            pySetItem_dict_spec kvs1 "tasks" (.list [])
                          refine ⟨kvs2, ["Yapılandırmada agent bulunamadı."] ++ ["Yapılandırmada task bulunamadı."], ?_,
                            ⟨[], (hP2 "agents" (by decide)).trans (hLA), rfl⟩,
                            ⟨[], hLT, rfl⟩⟩
                          simp only [ensureKeys, bind, Except.bind, pure, Except.pure,
                            eA1, eA2, show pyLen (PyVal.list ([] : List PyVal)) = Except.ok 0 from rfl, show (decide ((0 : Nat) = 0)) = true from rfl, show (decide True) = true from rfl, hsetA, eT1, eT2,
                            show pyLen (PyVal.list ([] : List PyVal)) = Except.ok 0 from rfl,
                            show (decide ((0 : Nat) = 0)) = true from rfl,
                            show (decide True) = true from rfl, hsetT, reduceIte]
                          try rw [if_neg (by decide : ¬false = true)]
                          try rw [if_neg (by decide : ¬false = true)]
                          try rfl
                      | cons t0 tsr =>
                          refine ⟨kvs1, ["Yapılandırmada agent bulunamadı."], ?_, ⟨[], hLA, rfl⟩,
                            ⟨t0 :: tsr, hPA.trans hT, wtt⟩⟩
                          simp only [ensureKeys, bind, Except.bind, pure, Except.pure,
                            eA1, eA2, show pyLen (PyVal.list ([] : List PyVal)) = Except.ok 0 from rfl, show (decide ((0 : Nat) = 0)) = true from rfl, show (decide True) = true from rfl, hsetA, eT1, eT2,
                            show pyLen (PyVal.list (t0 :: tsr)) = Except.ok (t0 :: tsr).length from rfl,
                            show (decide ((t0 :: tsr).length = 0)) = false from by simp,
                            show (decide True) = true from rfl, reduceIte]
                          try rw [if_neg (by decide : ¬false = true)]
                          try rw [if_neg (by decide : ¬false = true)]
                          try rfl
                  | none => simp at wtt
                  | bool b => simp at wtt
                  | int n => simp at wtt
                  | str s => simp at wtt
                  | dict d => simp at wtt
              | none =>
                  have eT1 : pyContains (.dict kvs1) (.str "tasks") = .ok false := by
                    simp [pyContains, any_eq_isSome, hPA, hT]
                  obtain ⟨kvs2, hsetT, hLT, hP2⟩ :=
                    pySetItem_dict_spec kvs1 "tasks" (.list [])
                  refine ⟨kvs2, ["Yapılandırmada agent bulunamadı."] ++ ["Yapılandırmada task bulunamadı."], ?_,
                    ⟨[], (hP2 "agents" (by decide)).trans (hLA), rfl⟩,
                    ⟨[], hLT, rfl⟩⟩
                  simp only [ensureKeys, bind, Except.bind, pure, Except.pure,
                    eA1, eA2, show pyLen (PyVal.list ([] : List PyVal)) = Except.ok 0 from rfl, show (decide ((0 : Nat) = 0)) = true from rfl, show (decide True) = true from rfl, hsetA, eT1, hsetT, show (decide True) = true from rfl, reduceIte]
                  try rw [if_neg (by decide : ¬false = true)]
                  try rw [if_neg (by decide : ¬false = true)]
                  try rfl
          | cons a0 asr =>
              have hPA : lookupStr kvs "tasks" = lookupStr kvs "tasks" := rfl
              cases hT : lookupStr kvs "tasks" with
              | some tvv =>
                  rw [hT] at wtt
                  cases tvv with
                  | list tss =>
                      have eT1 : pyContains (.dict kvs) (.str "tasks") = .ok true := by
                        simp [pyContains, any_eq_isSome, hPA, hT]
                      have eT2 : pyGetItem (.dict kvs) "tasks" = .ok (.list tss) := by
                        simp [pyGetItem, hPA, hT]
                      cases tss with
                      | nil =>
                          obtain ⟨kvs2, hsetT, hLT, hP2⟩ :=
                            pySetItem_dict_spec kvs "tasks" (.list [])
                          refine ⟨kvs2, ([] : List String) ++ ["Yapılandırmada task bulunamadı."], ?_,
                            ⟨a0 :: asr, (hP2 "agents" (by decide)).trans (hA), wta⟩,
                            ⟨[], hLT, rfl⟩⟩
                          simp only [ensureKeys, bind, Except.bind, pure, Except.pure,
                            eA1, eA2, show pyLen (PyVal.list (a0 :: asr)) = Except.ok (a0 :: asr).length from rfl, show (decide ((a0 :: asr).length = 0)) = false from by simp, show (decide True) = true from rfl, eT1, eT2,
                            show pyLen (PyVal.list ([] : List PyVal)) = Except.ok 0 from rfl,
                            show (decide ((0 : Nat) = 0)) = true from rfl,
                            show (decide True) = true from rfl, hsetT, reduceIte]
                          try rw [if_neg (by decide : ¬false = true)]
                          try rw [if_neg (by decide : ¬false = true)]
                          try rfl
                      | cons t0 tsr =>
                          refine ⟨kvs, ([] : List String), ?_, ⟨a0 :: asr, hA, wta⟩,
                            ⟨t0 :: tsr, hPA.trans hT, wtt⟩⟩
                          simp only [ensureKeys, bind, Except.bind, pure, Except.pure,
                            eA1, eA2, show pyLen (PyVal.list (a0 :: asr)) = Except.ok (a0 :: asr).length from rfl, show (decide ((a0 :: asr).length = 0)) = false from by simp, show (decide True) = true from rfl, eT1, eT2,
                            show pyLen (PyVal.list (t0 :: tsr)) = Except.ok (t0 :: tsr).length from rfl,
                            show (decide ((t0 :: tsr).length = 0)) = false from by simp,
                            show (decide True) = true from rfl, reduceIte]
                          try rw [if_neg (by decide : ¬false = true)]
                          try rw [if_neg (by decide : ¬false = true)]
                          try rfl
                  | none => simp at wtt
                  | bool b => simp at wtt
                  | int n => simp at wtt
                  | str s => simp at wtt
                  | dict d => simp at wtt
              | none =>
                  have eT1 : pyContains (.dict kvs) (.str "tasks") = .ok false := by
                    simp [pyContains, any_eq_isSome, hPA, hT]
                  obtain ⟨kvs2, hsetT, hLT, hP2⟩ :=
                    pySetItem_dict_spec kvs "tasks" (.list [])
                  refine ⟨kvs2, ([] : List String) ++ ["Yapılandırmada task bulunamadı."], ?_,
                    ⟨a0 :: asr, (hP2 "agents" (by decide)).trans (hA), wta⟩,
                    ⟨[], hLT, rfl⟩⟩
                  simp only [ensureKeys, bind, Except.bind, pure, Except.pure,
                    eA1, eA2, show pyLen (PyVal.list (a0 :: asr)) = Except.ok (a0 :: asr).length from rfl, show (decide ((a0 :: asr).length = 0)) = false from by simp, show (decide True) = true from rfl, eT1, hsetT, show (decide True) = true from rfl, reduceIte]
                  try rw [if_neg (by decide : ¬false = true)]
                  try rw [if_neg (by decide : ¬false = true)]
                  try rfl
      | none => simp at wta
      | bool b => simp at wta
      | int n => simp at wta
      | str s => simp at wta
      | dict d => simp at wta
  | none =>
      have eA1 : pyContains (.dict kvs) (.str "agents") = .ok false := by
        simp [pyContains, any_eq_isSome, hA]
      obtain ⟨kvs1, hsetA, hLA, hP1⟩ :=
        pySetItem_dict_spec kvs "agents" (.list [])
      have hPA : lookupStr kvs1 "tasks" = lookupStr kvs "tasks" :=
        hP1 "tasks" (by decide)
      cases hT : lookupStr kvs "tasks" with
      | some tvv =>
          rw [hT] at wtt
          cases tvv with
          | list tss =>
              have eT1 : pyContains (.dict kvs1) (.str "tasks") = .ok true := by
                simp [pyContains, any_eq_isSome, hPA, hT]
              have eT2 : pyGetItem (.dict kvs1) "tasks" = .ok (.list tss) := by
                simp [pyGetItem, hPA, hT]
              cases tss with
              | nil =>
                  obtain ⟨kvs2, hsetT, hLT, hP2⟩ :=
                    pySetItem_dict_spec kvs1 "tasks" (.list [])
                  refine ⟨kvs2, ["Yapılandırmada agent bulunamadı."] ++ ["Yapılandırmada task bulunamadı."], ?_,
                    ⟨[], (hP2 "agents" (by decide)).trans (hLA), rfl⟩,
                    ⟨[], hLT, rfl⟩⟩
                  simp only [ensureKeys, bind, Except.bind, pure, Except.pure,
                    eA1, hsetA, eT1, eT2,
                    show pyLen (PyVal.list ([] : List PyVal)) = Except.ok 0 from rfl,
                    show (decide ((0 : Nat) = 0)) = true from rfl,
                    show (decide True) = true from rfl, hsetT, reduceIte]
                  try rw [if_neg (by decide : ¬false = true)]
                  try rw [if_neg (by decide : ¬false = true)]
                  try rfl
              | cons t0 tsr =>
                  refine ⟨kvs1, ["Yapılandırmada agent bulunamadı."], ?_, ⟨[], hLA, rfl⟩,
                    ⟨t0 :: tsr, hPA.trans hT, wtt⟩⟩
                  simp only [ensureKeys, bind, Except.bind, pure, Except.pure,
                    eA1, hsetA, eT1, eT2,
                    show pyLen (PyVal.list (t0 :: tsr)) = Except.ok (t0 :: tsr).length from rfl,
                    show (decide ((t0 :: tsr).length = 0)) = false from by simp,
                    show (decide True) = true from rfl, reduceIte]
                  try rw [if_neg (by decide : ¬false = true)]
                  try rw [if_neg (by decide : ¬false = true)]
                  try rfl
          | none => simp at wtt
          | bool b => simp at wtt
          | int n => simp at wtt
          | str s => simp at wtt
          | dict d => simp at wtt
      | none =>
          have eT1 : pyContains (.dict kvs1) (.str "tasks") = .ok false := by
            simp [pyContains, any_eq_isSome, hPA, hT]
          obtain ⟨kvs2, hsetT, hLT, hP2⟩ :=
            pySetItem_dict_spec kvs1 "tasks" (.list [])
          refine ⟨kvs2, ["Yapılandırmada agent bulunamadı."] ++ ["Yapılandırmada task bulunamadı."], ?_,
            ⟨[], (hP2 "agents" (by decide)).trans (hLA), rfl⟩,
            ⟨[], hLT, rfl⟩⟩
          simp only [ensureKeys, bind, Except.bind, pure, Except.pure,
            eA1, hsetA, eT1, hsetT, show (decide True) = true from rfl, reduceIte]
          try rw [if_neg (by decide : ¬false = true)]
          try rw [if_neg (by decide : ¬false = true)]
          try rfl

theorem processAgents_ok :
    ∀ l : List PyVal, l.all wellTypedAgentB = true →
    ∃ pr, processAgents l = .ok pr := by
  intro l
  induction l with
  | nil => exact fun _ => ⟨([], []), rfl⟩
  | cons a rest ih =>
      intro hall
      rw [List.all_cons, Bool.and_eq_true] at hall
      obtain ⟨pr1, hp1⟩ := processAgent_ok hall.1
      obtain ⟨a1, w1⟩ := pr1
      obtain ⟨pr2, hp2⟩ := ih hall.2
      obtain ⟨rest2, ws2⟩ := pr2
      simp only [processAgents, bind, Except.bind, pure, Except.pure, hp1, hp2]
      exact ⟨_, rfl⟩

theorem processTasks_ok {cfg : PyVal} {as : List PyVal}
    (hcfg : pyGetItem cfg "agents" = .ok (.list as))
    (hnames : ∀ x ∈ as, ∃ nv, pyGetItem x "name" = .ok nv) :
    ∀ l : List PyVal, l.all wellTypedTaskB = true →
    ∃ pr, processTasks cfg l = .ok pr := by
  intro l
  induction l with
  | nil => exact fun _ => ⟨([], []), rfl⟩
  | cons t rest ih =>
      intro hall
      rw [List.all_cons, Bool.and_eq_true] at hall
      obtain ⟨pr1, hp1⟩ := processTask_ok hcfg hnames hall.1
      obtain ⟨t1, w1⟩ := pr1
      obtain ⟨pr2, hp2⟩ := ih hall.2
      obtain ⟨rest2, ws2⟩ := pr2
      simp only [processTasks, bind, Except.bind, pure, Except.pure, hp1, hp2]
      exact ⟨_, rfl⟩

/-- Claim C4 (amended): the Validator never raises on well-typed inputs —
a dict whose `agents`/`tasks` entries, when present, are lists of dicts
whose `name` values (when present) are strings and whose agents' `tools`
values (when present) are lists of strings; on such inputs it returns a
repaired configuration and an ordered warning list. -/
theorem validate_ok_on_well_typed {cfg : PyVal}
    (hwt : wellTypedConfigB cfg = true) :
    (validate_crew_config cfg).isOk = true := by
  cases cfg with
  | dict kvs =>
      obtain ⟨kvs2, wK, hek, ⟨as, hlas, hallA⟩, ⟨ts, hlts, hallT⟩⟩ :=
        ensureKeys_wt hwt
      have e2 : pyDictGet (.dict kvs2) "agents" (.list []) = .ok (.list as) := by
        simp [pyDictGet, hlas]
      obtain ⟨prA, hpa⟩ := processAgents_ok as hallA
      obtain ⟨agents2, wA⟩ := prA
      obtain ⟨kvs3, hset3, hl3s, hl3⟩ :=
        pySetItem_dict_spec kvs2 "agents" (.list agents2)
      have e4 : pyDictGet (.dict kvs3) "tasks" (.list []) = .ok (.list ts) := by
        simp [pyDictGet, hl3 "tasks" (by decide), hlts]
      have hcfg3 : pyGetItem (.dict kvs3) "agents" = .ok (.list agents2) := by
        simp [pyGetItem, hl3s]
      have hnames : ∀ x ∈ agents2, ∃ nv, pyGetItem x "name" = .ok nv :=
        fun x hx => (processAgents_name hpa x hx).imp fun nv hv => hv.1
      obtain ⟨prT, hpt⟩ := processTasks_ok hcfg3 hnames ts hallT
      obtain ⟨tasks2, wT⟩ := prT
      obtain ⟨kvs4, hset4, hl4s, hl4⟩ :=
        pySetItem_dict_spec kvs3 "tasks" (.list tasks2)
      simp only [validate_crew_config, bind, Except.bind, pure, Except.pure,
        hek, e2, show pyIter (PyVal.list as) = Except.ok as from rfl, hpa,
        hset3, e4, show pyIter (PyVal.list ts) = Except.ok ts from rfl, hpt,
        hset4]
      rfl
  | none => simp [wellTypedConfigB] at hwt
  | bool b => simp [wellTypedConfigB] at hwt
  | int n => simp [wellTypedConfigB] at hwt
  | str s => simp [wellTypedConfigB] at hwt
  | list l => simp [wellTypedConfigB] at hwt

/-- Witness for C4 (amended): `cfgTabName` is well-typed and the Validator
returns successfully on it. -/
theorem validate_ok_on_well_typed_witness :
    (validate_crew_config cfgTabName).isOk = true :=
  validate_ok_on_well_typed (by decide)


end CrewGen
